import Mathlib

/-!
Halley entity factory: instantiation, identity resolution and serialization.

A shallow embedding of `src/engine/entity/src/entity_factory.cpp`.  The factory
turns declarative `EntityData` trees (possibly naming prefabs) into live entities
of a `World`, and serializes live entities back into `EntityData`.

The stateful C++ code is embedded with explicit state passing: every operation
takes the `World` (and, where the C++ takes one, the `EntityFactoryContext`) and
returns the updated ones.  Hard failures (`Expects`, `assert`) are results of
type `Except Failure`.  Recursion that the C++ leaves unbounded (population of a
tree through prefabs, walks over live children) is bounded by a fuel argument.
-/

namespace Halley

/-! ## Collaborator types -/

/-- Modelled from the spec: the `UUID` class is declared outside the factory's
source file.  An identity is a number; the default-constructed (invalid) UUID is
the one whose number is zero. -/
structure UUID where
  raw : Nat
  deriving DecidableEq, Repr

namespace UUID

/-- The check `UUID::isValid`. -/
def isValid (u : UUID) : Bool := u.raw != 0

/-- The text of `UUID::toString`, used in log messages only. -/
def toString (u : UUID) : String := ToString.toString u.raw

end UUID

/-- Modelled from the spec: the declarative payload of one component: its
content, and the UUIDs held by its entity-reference fields, which component
deserialization resolves through the context.  The factory never inspects
it. -/
structure ConfigNode where
  value : Nat
  entityRefs : List UUID
  deriving DecidableEq, Repr

/-- A payload without entity-reference field, written as its content. -/
instance (n : Nat) : OfNat ConfigNode n := ⟨⟨n, []⟩⟩

/-- The index of a live entity in the world's store. -/
abbrev EntityId := Nat

/-- A handle on a live entity; `none` is the default-constructed (invalid)
`EntityRef()`. -/
abbrev EntityRef := Option EntityId

/-- The check `EntityRef::isValid`. -/
def EntityRef.isValid (e : EntityRef) : Bool := e.isSome

/-- The hard failures of the factory, and the exhaustion of the fuel of the
embedding. -/
inductive Failure where
  | outOfFuel
  | expects
  | assertion
  deriving DecidableEq, Repr

/-- Modelled from the spec: the `EntityData` class is declared outside the
factory's source file.  One node of the declarative tree: name, prefab name,
instance UUID, prefab UUID, optional parent UUID, the ordered
(component name, payload) pairs, and the ordered children. -/
inductive EntityData where
  | mk (name : String) (prefabName : String) (instanceUUID : UUID) (prefabUUID : UUID)
      (parentUUID : Option UUID) (components : List (String × ConfigNode))
      (children : List EntityData)

namespace EntityData

def getName : EntityData → String
  | mk n _ _ _ _ _ _ => n

def getPrefab : EntityData → String
  | mk _ p _ _ _ _ _ => p

def getInstanceUUID : EntityData → UUID
  | mk _ _ u _ _ _ _ => u

def getPrefabUUID : EntityData → UUID
  | mk _ _ _ u _ _ _ => u

def getParentUUID : EntityData → Option UUID
  | mk _ _ _ _ u _ _ => u

def getComponents : EntityData → List (String × ConfigNode)
  | mk _ _ _ _ _ c _ => c

def getChildren : EntityData → List EntityData
  | mk _ _ _ _ _ _ cs => cs

/-- The default-constructed `EntityData`. -/
def empty : EntityData := mk "" "" ⟨0⟩ ⟨0⟩ none [] []

/-- The constructor `EntityData(UUID)`: an identity and nothing else. -/
def ofUUID (u : UUID) : EntityData := mk "" "" u ⟨0⟩ none [] []

def setName : EntityData → String → EntityData
  | mk _ p i q r c cs, n => mk n p i q r c cs

def setPrefab : EntityData → String → EntityData
  | mk n _ i q r c cs, p => mk n p i q r c cs

def setInstanceUUID : EntityData → UUID → EntityData
  | mk n p _ q r c cs, i => mk n p i q r c cs

def setPrefabUUID : EntityData → UUID → EntityData
  | mk n p i _ r c cs, q => mk n p i q r c cs

def setParentUUID : EntityData → UUID → EntityData
  | mk n p i q _ c cs, r => mk n p i q (some r) c cs

def setComponents : EntityData → List (String × ConfigNode) → EntityData
  | mk n p i q r _ cs, c => mk n p i q r c cs

def setChildren : EntityData → List EntityData → EntityData
  | mk n p i q r c _, cs => mk n p i q r c cs

/-- Component lists merged by name: each template component keeps its place and
takes the payload of the first override of the same name when there is one; the
overrides naming no template component follow. -/
def overlayComponents (template overrides : List (String × ConfigNode)) :
    List (String × ConfigNode) :=
  template.map (fun c =>
      match overrides.find? (fun o => o.1 == c.1) with
      | some o => (c.1, o.2)
      | none => c)
    ++ overrides.filter (fun o => !template.any (fun c => c.1 == o.1))

/-- Modelled from the spec: `EntityData::instantiateWithAsCopy` is defined
outside the factory's source file.  The spec describes it as "instantiate
template as copy, overlay overrides": a copy of the template in which the
instance's explicit fields and components take precedence.  A field of the
instance is explicit when it is not the default (non-empty name, valid UUID,
present parent, non-empty child list). -/
def instantiateWithAsCopy (template instance_ : EntityData) : EntityData :=
  mk
    (if instance_.getName = "" then template.getName else instance_.getName)
    (if instance_.getPrefab = "" then template.getPrefab else instance_.getPrefab)
    (if instance_.getInstanceUUID.isValid then instance_.getInstanceUUID
      else template.getInstanceUUID)
    (if instance_.getPrefabUUID.isValid then instance_.getPrefabUUID
      else template.getPrefabUUID)
    (match instance_.getParentUUID with
      | some u => some u
      | none => template.getParentUUID)
    (overlayComponents template.getComponents instance_.getComponents)
    (match instance_.getChildren with
      | [] => template.getChildren
      | c :: cs => c :: cs)

mutual
/-- All nodes of a tree in depth-first pre-order, root first. -/
def nodes : EntityData → List EntityData
  | mk n p i q r c cs => mk n p i q r c cs :: nodesList cs
/-- The nodes of a forest, tree after tree. -/
def nodesList : List EntityData → List EntityData
  | [] => []
  | d :: ds => nodes d ++ nodesList ds
end

mutual
/-- The number of levels of a tree (a single node has height one). -/
def height : EntityData → Nat
  | mk _ _ _ _ _ _ cs => heightList cs + 1
/-- The greatest height in a forest, zero when it is empty. -/
def heightList : List EntityData → Nat
  | [] => 0
  | d :: ds => max (height d) (heightList ds)
end

/-- The number of nodes of a tree. -/
def size (d : EntityData) : Nat := d.nodes.length

/-- The same node without parent UUID. -/
def clearParentUUID : EntityData → EntityData
  | mk n p i q _ c cs => mk n p i q none c cs

end EntityData

/-- Modelled from the spec: the `Prefab` resource is declared outside the
factory's source file.  The factory reads it through `getEntityData` (the
template tree) and `getEntityDatas` (the roots of a scene). -/
structure Prefab where
  assetId : String
  entityData : EntityData
  entityDatas : List EntityData

namespace Prefab

def getEntityData (p : Prefab) : EntityData := p.entityData

def getEntityDatas (p : Prefab) : List EntityData := p.entityDatas

end Prefab

/-- Modelled from the spec: one live entity of the world's store, with what
the factory reads or writes through an `EntityRef`. -/
structure Entity where
  instanceUUID : UUID
  prefabUUID : UUID
  name : String
  parent : EntityRef
  children : List EntityId
  components : List (String × ConfigNode)
  fromPrefab : Bool
  prefab : Option Prefab
  serializable : Bool

/-- Modelled from the spec: the live world is declared outside the factory's
source file.  Entities are kept in creation order, a handle being the position
of its entity.  The lines written by `Logger::logError` are kept beside the
store so that a single state is threaded through the factory. -/
structure World where
  entities : List Entity
  log : List String

namespace World

/-- The world with no entity and no log line. -/
def empty : World := ⟨[], []⟩

/-- The call `Logger::logError`. -/
def logError (w : World) (msg : String) : World :=
  { w with log := w.log ++ [msg] }

/-- The entity behind a handle, when the handle is live. -/
def get? (w : World) (e : EntityId) : Option Entity := w.entities[e]?

/-- Apply `f` to the entity behind a handle. -/
def modify (w : World) (e : EntityId) (f : Entity → Entity) : World :=
  { w with entities := w.entities.modify f e }

/-- The accessor `EntityRef::getInstanceUUID`. -/
def getInstanceUUID (w : World) (e : EntityId) : Option UUID :=
  (w.get? e).map Entity.instanceUUID

/-- The accessor `EntityRef::getPrefabUUID`. -/
def getPrefabUUID (w : World) (e : EntityId) : Option UUID :=
  (w.get? e).map Entity.prefabUUID

/-- The accessor `EntityRef::getChildren` (and `getRawChildren`). -/
def getChildren (w : World) (e : EntityId) : List EntityId :=
  match w.get? e with
  | some ent => ent.children
  | none => []

/-- The accessor `EntityRef::tryGetParent`. -/
def tryGetParent (w : World) (e : EntityId) : EntityRef :=
  match w.get? e with
  | some ent => ent.parent
  | none => none

/-- The accessor `EntityRef::isSerializable`. -/
def isSerializable (w : World) (e : EntityId) : Bool :=
  match w.get? e with
  | some ent => ent.serializable
  | none => false

/-- Modelled from the spec: `EntityRef::setParent`.  Nothing happens when the
parent is already the requested one; otherwise the entity leaves the child
list of its old parent, records the new parent, and joins the end of the new
parent's child list. -/
def setParent (w : World) (e : EntityId) (parent : EntityRef) : World :=
  match w.get? e with
  | none => w
  | some ent =>
    if ent.parent = parent then w
    else
      let w1 := match ent.parent with
        | some old => w.modify old (fun o => { o with children := o.children.filter (fun c => c != e) })
        | none => w
      let w2 := w1.modify e (fun x => { x with parent := parent })
      match parent with
      | some p => w2.modify p (fun x => { x with children := x.children ++ [e] })
      | none => w2

/-- The call `EntityRef::setPrefab`. -/
def setPrefab (w : World) (e : EntityId) (p : Option Prefab) : World :=
  w.modify e (fun x => { x with prefab := p })

/-- The record of a newly created entity: serializable, with no parent, no
child, no component and no prefab reference. -/
def freshEntity (uuid : UUID) (name : String) (fromPrefab : Bool) (prefabUUID : UUID) :
    Entity :=
  { instanceUUID := uuid, prefabUUID := prefabUUID, name := name, parent := none,
    children := [], components := [], fromPrefab := fromPrefab, prefab := none,
    serializable := true }

/-- Modelled from the spec: `World::createEntity(uuid, name, parent, fromPrefab,
prefabUUID)`.  A new serializable entity with no component and no child is
added at the end of the store and attached under `parent`; its handle is
returned. -/
def createEntity (w : World) (uuid : UUID) (name : String) (parent : EntityRef)
    (fromPrefab : Bool) (prefabUUID : UUID) : EntityId × World :=
  let e := w.entities.length
  let ent := freshEntity uuid name fromPrefab prefabUUID
  (e, ({ w with entities := w.entities ++ [ent] } : World).setParent e parent)

/-- Modelled from the spec: `World::findEntity(uuid, allowPrefabUUIDMatch)`.
The first entity, in creation order, whose instance UUID is `uuid`, or whose
prefab UUID is `uuid` when prefab matches are allowed. -/
def findEntity (w : World) (uuid : UUID) (allowPrefabUUID : Bool) : Option EntityId :=
  w.entities.findIdx? (fun ent =>
    ent.instanceUUID == uuid || (allowPrefabUUID && ent.prefabUUID == uuid))

/-- The children loop of `liveTree`, `self` standing for the recursive call. -/
def liveChildrenWith (self : EntityId → Except Failure EntityData) :
    List EntityId → Except Failure (List EntityData)
  | [] => .ok []
  | c :: rest =>
    match self c with
    | .error err => .error err
    | .ok d =>
      match liveChildrenWith self rest with
      | .error err => .error err
      | .ok ds => .ok (d :: ds)

/-- The live tree under an entity, read off the world as it is: name, instance
and prefab UUID, the component list, and every child in child order, each with
its own live tree.  Nothing is filtered and nothing is stubbed; the fuel bounds
the walk. -/
def liveTree (w : World) : Nat → EntityId → Except Failure EntityData
  | 0, _ => .error .outOfFuel
  | fuel + 1, e =>
    match w.get? e with
    | none => .error .expects
    | some ent =>
      match liveChildrenWith (liveTree w fuel) ent.children with
      | .error err => .error err
      | .ok ds => .ok (.mk ent.name "" ent.instanceUUID ent.prefabUUID none ent.components ds)

/-- The handles of the live tree under an entity, in pre-order; the fuel
bounds the walk as it does for `liveTree`. -/
def treeIds (w : World) : Nat → EntityId → List EntityId
  | 0, _ => []
  | fuel + 1, e => e :: ((w.getChildren e).map (treeIds w fuel)).flatten

/-- The identities held by the world, in creation order. -/
def ids (w : World) : List (UUID × UUID) :=
  w.entities.map (fun e => (e.instanceUUID, e.prefabUUID))

end World

/-- Modelled from the spec: the serialization channel.  The enumeration is
declared outside the factory's source file, which names `Prefab` only. -/
inductive EntitySerializationType where
  | Prefab
  | SaveData
  | Network
  deriving DecidableEq, Repr

/-- The per-expansion scratch object: the prefab being expanded, the entities
created or discovered so far, and the serialization channel. -/
structure EntityFactoryContext where
  type : EntitySerializationType
  prefab : Option Prefab
  entities : List EntityId

namespace EntityFactoryContext

/-- The constructor: no entity is registered yet. -/
def new (type : EntitySerializationType) (prefab : Option Prefab) : EntityFactoryContext :=
  { type := type, prefab := prefab, entities := [] }

def getPrefab (ctx : EntityFactoryContext) : Option Prefab := ctx.prefab

/-- The method `EntityFactoryContext::addEntity`. -/
def addEntity (ctx : EntityFactoryContext) (entity : EntityId) : EntityFactoryContext :=
  { ctx with entities := ctx.entities ++ [entity] }

/-- The test of the loop of `EntityFactoryContext::getEntity` on one
registered entity. -/
def isMatch (w : World) (uuid : UUID) (allowPrefabUUID : Bool) (e : EntityId) : Bool :=
  decide (w.getInstanceUUID e = some uuid)
    || (allowPrefabUUID && decide (w.getPrefabUUID e = some uuid))

/-- The method `EntityFactoryContext::getEntity`. -/
def getEntity (ctx : EntityFactoryContext) (w : World) (uuid : UUID)
    (allowPrefabUUID : Bool) : EntityRef :=
  if !uuid.isValid then none
  else ctx.entities.find? (isMatch w uuid allowPrefabUUID)

/-- The method `EntityFactoryContext::getEntityIdFromUUID`; the world is
returned for its log. -/
def getEntityIdFromUUID (ctx : EntityFactoryContext) (w : World) (uuid : UUID) :
    Option EntityId × World :=
  match ctx.getEntity w uuid true with
  | some e => (some e, w)
  | none =>
    (none, w.logError ("Couldn't find entity with UUID " ++ uuid.toString
      ++ " while instantiating entity."))

end EntityFactoryContext

/-- Modelled from the spec: the resolution of the entity-reference fields
`refs` of a payload during component deserialization, one after the other
through `EntityFactoryContext::getEntityIdFromUUID`, which writes an error line
for each one it cannot resolve. -/
def World.resolveEntityRefs (w : World) (ctx : EntityFactoryContext) (refs : List UUID) : World :=
  refs.foldl (fun w1 u => (ctx.getEntityIdFromUUID w1 u).2) w

/-- Modelled from the spec: the function of `World::getCreateComponentFunction`,
which "instantiates/populates that component in place".  Each
entity-reference field of the payload is resolved through the context (an
unresolvable one is "logged as an error, resolved to an empty/invalid
reference"), and the (name, payload) pair is recorded at the end of the
entity's component list. -/
def World.createComponent (w : World) (ctx : EntityFactoryContext) (componentName : String)
    (entity : EntityId) (componentData : ConfigNode) : World :=
  (w.resolveEntityRefs ctx componentData.entityRefs).modify entity
    (fun x => { x with components := x.components ++ [(componentName, componentData)] })

/-- The loop of `EntityFactory::updateEntityComponents`, for the component
construction function `func` that the world hands out; the state it acts on
may be of any kind. -/
def updateEntityComponentsWith {σ : Type}
    (func : EntityFactoryContext → String → EntityId → ConfigNode → σ → σ)
    (entity : EntityId) (data : EntityData) (context : EntityFactoryContext) (s : σ) : σ :=
  data.getComponents.foldl (fun s1 c => func context c.1 entity c.2 s1) s

/-- Modelled from the spec: `SerializationOptions`, declared outside the
factory's source file: the channel and the optional stub predicate. -/
structure SerializationOptions where
  type : EntitySerializationType
  serializeAsStub : Option (EntityId → Bool)

/-- The test `options.serializeAsStub && options.serializeAsStub(child)`. -/
def SerializationOptions.isStub (options : SerializationOptions) (child : EntityId) : Bool :=
  match options.serializeAsStub with
  | some p => p child
  | none => false

/-- Modelled from the spec: `EntityScene`, declared outside the factory's
source file: the prefab back-references and the root entities, in the order
they were added. -/
structure EntityScene where
  prefabRefs : List (Prefab × EntityRef × Nat)
  rootEntities : List EntityRef

namespace EntityScene

def empty : EntityScene := ⟨[], []⟩

def addPrefabReference (s : EntityScene) (p : Prefab) (e : EntityRef) (i : Nat) : EntityScene :=
  { s with prefabRefs := s.prefabRefs ++ [(p, e, i)] }

def addRootEntity (s : EntityScene) (e : EntityRef) : EntityScene :=
  { s with rootEntities := s.rootEntities ++ [e] }

end EntityScene

/-- The factory: the resources it reads prefabs from (absent when
`exists<Prefab>` is false), and the component reflectors it serializes with:
`reflectorSerialize context name component` is the payload that
`getComponentReflector(id).serialize(context, component)` returns for the live
component of that name, a live component being held as the payload it was
constructed from.  The world is passed to each operation. -/
structure EntityFactory where
  resources : String → Option Prefab
  reflectorSerialize : EntityFactoryContext → String → ConfigNode → ConfigNode

namespace EntityFactory

/-- The method `EntityFactory::getPrefab`; the world is returned for its log. -/
def getPrefab (f : EntityFactory) (id : String) (w : World) : Option Prefab × World :=
  if id ≠ "" then
    match f.resources id with
    | some p => (some p, w)
    | none => (none, w.logError ("Prefab not found: \"" ++ id ++ "\"."))
  else (none, w)

/-- The method `EntityFactory::getEntity`. -/
def getEntity (_f : EntityFactory) (data : EntityData) (context : EntityFactoryContext)
    (allowWorldLookup : Bool) (w : World) : Except Failure (EntityRef × EntityFactoryContext) :=
  if !data.getInstanceUUID.isValid then .error .expects
  else
    match context.getEntity w data.getInstanceUUID false with
    | some e => .ok (some e, context)
    | none =>
      if allowWorldLookup then
        match w.findEntity data.getInstanceUUID true with
        | some e => .ok (some e, context.addEntity e)
        | none => .ok (none, context)
      else .ok (none, context)

/-- The method `EntityFactory::instantiateEntity`. -/
def instantiateEntity (f : EntityFactory) (data : EntityData) (context : EntityFactoryContext)
    (allowWorldLookup : Bool) (w : World) :
    Except Failure (EntityRef × EntityFactoryContext × World) :=
  match f.getEntity data context allowWorldLookup w with
  | .error err => .error err
  | .ok (some existing, ctx1) => .ok (some existing, ctx1, w)
  | .ok (none, ctx1) =>
    let instantiatingFromPrefab := ctx1.getPrefab.isSome
    let (entity, w1) := w.createEntity data.getInstanceUUID data.getName none
      instantiatingFromPrefab data.getPrefabUUID
    let w2 := if instantiatingFromPrefab then w1.setPrefab entity ctx1.getPrefab else w1
    .ok (some entity, ctx1.addEntity entity, w2)

mutual
/-- The method `EntityFactory::preInstantiateEntities`. -/
def preInstantiateEntities (f : EntityFactory) :
    EntityData → EntityFactoryContext → Nat → World → Except Failure (EntityFactoryContext × World)
  | .mk n p i q r c cs, context, depth, w =>
    match f.instantiateEntity (.mk n p i q r c cs) context (depth == 0) w with
    | .error err => .error err
    | .ok (_, ctx1, w1) => preInstantiateChildren f cs ctx1 (depth + 1) w1
/-- The loop of `preInstantiateEntities` over the children, each visited at
the depth given. -/
def preInstantiateChildren (f : EntityFactory) :
    List EntityData → EntityFactoryContext → Nat → World → Except Failure (EntityFactoryContext × World)
  | [], context, _, w => .ok (context, w)
  | child :: rest, context, depth, w =>
    match preInstantiateEntities f child context depth w with
    | .error err => .error err
    | .ok (ctx1, w1) => preInstantiateChildren f rest ctx1 depth w1
end

/-- The method `EntityFactory::collectExistingEntities`; the fuel bounds the
walk over the live children. -/
def collectExistingEntities (f : EntityFactory) :
    Nat → EntityId → EntityFactoryContext → World → Except Failure EntityFactoryContext
  | 0, _, _, _ => .error .outOfFuel
  | fuel + 1, entity, context, w =>
    (w.getChildren entity).foldlM
      (fun ctx c => collectExistingEntities f fuel c ctx w) (context.addEntity entity)

/-- The method `EntityFactory::updateEntityComponents`: the component loop,
run with the function of `world.getCreateComponentFunction()`. -/
def updateEntityComponents (_f : EntityFactory) (entity : EntityId) (data : EntityData)
    (context : EntityFactoryContext) (w : World) : World :=
  updateEntityComponentsWith (fun c n e v w1 => w1.createComponent c n e v)
    entity data context w

/-- The signature shared by `updateEntityTree` and the recursive call handed
to `updateEntityNode` and `updateEntityChildren`: data, parent, optional
context, world. -/
abbrev TreeUpdater :=
  EntityData → EntityRef → Option EntityFactoryContext → World →
    Except Failure (EntityRef × Option EntityFactoryContext × World)

/-- The loop of `EntityFactory::updateEntityChildren`, `tree` standing for the
recursive call of `updateEntityTree`.  The context is the one shared object
handed to every child. -/
def updateEntityChildrenWith (tree : TreeUpdater) (entity : EntityRef) :
    List EntityData → EntityFactoryContext → World →
      Except Failure (EntityFactoryContext × World)
  | [], context, w => .ok (context, w)
  | child :: rest, context, w =>
    match tree child entity (some context) w with
    | .error err => .error err
    | .ok (_, ctx1, w1) => updateEntityChildrenWith tree entity rest (ctx1.getD context) w1

/-- The method `EntityFactory::updateEntityNode`, `tree` standing for the
recursive call of `updateEntityTree`. -/
def updateEntityNodeWith (f : EntityFactory) (tree : TreeUpdater) (data : EntityData)
    (parent : EntityRef) (context : EntityFactoryContext) (w : World) :
    Except Failure (EntityRef × EntityFactoryContext × World) :=
  match f.getEntity data context false w with
  | .error err => .error err
  | .ok (none, _) => .error .assertion
  | .ok (some entity, ctx1) =>
    let w1 := w.setParent entity parent
    let w2 := f.updateEntityComponents entity data ctx1 w1
    match updateEntityChildrenWith tree (some entity) data.getChildren ctx1 w2 with
    | .error err => .error err
    | .ok (ctx2, w3) => .ok (some entity, ctx2, w3)

/-- The test of `EntityFactory::updateEntityTree` for starting a new context. -/
def needsNewContext (data : EntityData) (context : Option EntityFactoryContext) : Bool :=
  let entityDataIsPrefabInstance := data.getPrefab ≠ ""
  let abandonPrefab :=
    match context with
    | some ctx => ctx.getPrefab.isSome && !data.getPrefabUUID.isValid
    | none => false
  context.isNone || entityDataIsPrefabInstance || abandonPrefab

/-- The method `EntityFactory::updateEntityTree`.  One unit of fuel is spent
at each node entered. -/
def updateEntityTree (f : EntityFactory) : Nat → TreeUpdater
  | 0, _, _, _, _ => .error .outOfFuel
  | fuel + 1, data, parent, context, w =>
    match context, needsNewContext data context with
    | some ctx, false =>
      -- No context change needed
      match updateEntityNodeWith f (updateEntityTree f fuel) data parent ctx w with
      | .error err => .error err
      | .ok (e, ctx1, w1) => .ok (e, some ctx1, w1)
    | _, _ =>
      -- Load and instantiate prefab
      let (prefab, w0) := f.getPrefab data.getPrefab w
      let instanceData :=
        match prefab with
        | some p => p.getEntityData.instantiateWithAsCopy data
        | none => data
      -- Create context
      let newContext := EntityFactoryContext.new .Prefab prefab
      -- Create entities and proceed
      match f.preInstantiateEntities instanceData newContext 0 w0 with
      | .error err => .error err
      | .ok (ctx1, w1) =>
        match updateEntityNodeWith f (updateEntityTree f fuel) instanceData parent ctx1 w1 with
        | .error err => .error err
        | .ok (e, _, w2) => .ok (e, context, w2)

/-- The method `EntityFactory::updateEntityNode`, for a tree whose population
may enter `fuel` further levels. -/
def updateEntityNode (f : EntityFactory) (fuel : Nat) (data : EntityData) (parent : EntityRef)
    (context : EntityFactoryContext) (w : World) :
    Except Failure (EntityRef × EntityFactoryContext × World) :=
  updateEntityNodeWith f (updateEntityTree f fuel) data parent context w

/-- The method `EntityFactory::updateEntityChildren`. -/
def updateEntityChildren (f : EntityFactory) (fuel : Nat) (entity : EntityRef) (data : EntityData)
    (context : EntityFactoryContext) (w : World) :
    Except Failure (EntityFactoryContext × World) :=
  updateEntityChildrenWith (updateEntityTree f fuel) entity data.getChildren context w

/-- The method `EntityFactory::createEntity(const EntityData&, EntityRef)`. -/
def createEntity (f : EntityFactory) (fuel : Nat) (data : EntityData) (parent : EntityRef)
    (w : World) : Except Failure (EntityRef × World) :=
  match f.updateEntityTree fuel data parent none w with
  | .error err => .error err
  | .ok (e, _, w1) => .ok (e, w1)

/-- The method `EntityFactory::createEntity(const String&)`; `generated` is the
value of `UUID::generate()`. -/
def createEntityFromPrefab (f : EntityFactory) (fuel : Nat) (generated : UUID)
    (prefabName : String) (w : World) : Except Failure (EntityRef × World) :=
  let data := (EntityData.ofUUID generated).setPrefab prefabName
  f.createEntity fuel data none w

/-- The loop of `EntityFactory::createScene` from index `i` on. -/
def createSceneLoop (f : EntityFactory) (fuel : Nat) (prefab : Prefab) :
    List EntityData → Nat → EntityScene → World → Except Failure (EntityScene × World)
  | [], _, curScene, w => .ok (curScene, w)
  | entityData :: rest, i, curScene, w =>
    match f.createEntity fuel entityData none w with
    | .error err => .error err
    | .ok (entity, w1) =>
      createSceneLoop f fuel prefab rest (i + 1)
        ((curScene.addPrefabReference prefab entity i).addRootEntity entity) w1

/-- The method `EntityFactory::createScene`. -/
def createScene (f : EntityFactory) (fuel : Nat) (prefab : Prefab) (w : World) :
    Except Failure (EntityScene × World) :=
  createSceneLoop f fuel prefab prefab.getEntityDatas 0 EntityScene.empty w

/-- The entities created for a list of entity datas, one `createEntity` after
the other from left to right, each in the world left by the one before. -/
def createEntitiesInOrder (f : EntityFactory) (fuel : Nat) :
    List EntityData → World → Except Failure (List EntityRef × World)
  | [], w => .ok ([], w)
  | d :: rest, w =>
    match f.createEntity fuel d none w with
    | .error err => .error err
    | .ok (e, w1) =>
      match createEntitiesInOrder f fuel rest w1 with
      | .error err => .error err
      | .ok (es, w2) => .ok (e :: es, w2)

/-- The pairs appended by the component loop of `serializeEntity`: the
reflector's name and the payload that the reflector serializes each live
component to, under a new context of the serialization type of the options. -/
def serializeComponents (f : EntityFactory) (w : World) (options : SerializationOptions)
    (entity : EntityId) : List (String × ConfigNode) :=
  let serializeContext := EntityFactoryContext.new options.type none
  match w.get? entity with
  | some ent => ent.components.map (fun c => (c.1, f.reflectorSerialize serializeContext c.1 c.2))
  | none => []

/-- The child loop of `EntityFactory::serializeEntity`, `self` standing for
the recursive call `serializeEntity(child, options, false)`. -/
def serializeChildrenWith (self : EntityId → Except Failure EntityData) (w : World)
    (options : SerializationOptions) : List EntityId → Except Failure (List EntityData)
  | [] => .ok []
  | child :: rest =>
    if w.isSerializable child then
      if options.isStub child then
        -- Store just a stub
        match serializeChildrenWith self w options rest with
        | .error err => .error err
        | .ok ds => .ok (EntityData.ofUUID ((w.getInstanceUUID child).getD ⟨0⟩) :: ds)
      else
        match self child with
        | .error err => .error err
        | .ok d =>
          match serializeChildrenWith self w options rest with
          | .error err => .error err
          | .ok ds => .ok (d :: ds)
    else serializeChildrenWith self w options rest

/-- The method `EntityFactory::serializeEntity`; the fuel bounds the walk over
the live children. -/
def serializeEntity (f : EntityFactory) (w : World) (options : SerializationOptions) :
    Nat → EntityId → Bool → Except Failure EntityData
  | 0, _, _ => .error .outOfFuel
  | fuel + 1, entity, canStoreParent =>
    match w.get? entity with
    | none => .error .expects
    | some ent =>
      -- Properties
      let result := ((EntityData.empty.setName ent.name).setInstanceUUID ent.instanceUUID).setPrefabUUID
        ent.prefabUUID
      -- Components
      let result := result.setComponents
        (result.getComponents ++ serializeComponents f w options entity)
      -- Children
      match serializeChildrenWith (fun c => serializeEntity f w options fuel c false) w options
          ent.children with
      | .error err => .error err
      | .ok ds =>
        let result := result.setChildren (result.getChildren ++ ds)
        -- Parent
        if canStoreParent then
          match ent.parent with
          | some parent => .ok (result.setParentUUID ((w.getInstanceUUID parent).getD ⟨0⟩))
          | none => .ok result
        else .ok result

/-- The method `EntityFactory::updateEntity`: the data is instantiated and the
entity handed in is left alone. -/
def updateEntity (f : EntityFactory) (fuel : Nat) (_entity : EntityRef) (data : EntityData)
    (w : World) : Except Failure World :=
  match f.createEntity fuel data none w with
  | .error err => .error err
  | .ok (_, w1) => .ok w1

/-- The data that `updateEntityTree` populates when it starts a new context:
the prefab's template instantiated with the data, or the data itself. -/
def instanceData (f : EntityFactory) (data : EntityData) (w : World) : EntityData :=
  match (f.getPrefab data.getPrefab w).1 with
  | some p => p.getEntityData.instantiateWithAsCopy data
  | none => data

/-- The entity that the pre-pass creates for a node when the context has no
prefab. -/
def blank (n : EntityData) : Entity :=
  World.freshEntity n.getInstanceUUID n.getName false n.getPrefabUUID

/-- The handles of the roots of a forest laid out in pre-order from `base`. -/
def childIds : List EntityData → Nat → List EntityId
  | [], _ => []
  | d :: ds, base => base :: childIds ds (base + d.size)

mutual
/-- The entities of a populated prefab-free tree, laid out in pre-order from
the handle `base`, the root being attached under `parent`. -/
def layout : EntityData → Nat → EntityRef → List Entity
  | .mk n _ i q _ c cs, base, parent =>
    { instanceUUID := i, prefabUUID := q, name := n, parent := parent,
      children := childIds cs (base + 1), components := c, fromPrefab := false,
      prefab := none, serializable := true }
      :: layoutList cs (base + 1) (some base)
/-- The entities of a populated forest, tree after tree. -/
def layoutList : List EntityData → Nat → EntityRef → List Entity
  | [], _, _ => []
  | d :: ds, base, parent => layout d base parent ++ layoutList ds (base + d.size) parent
end

/-- A tree updater only adds to the world's identities. -/
def TreeExtends (tree : TreeUpdater) : Prop :=
  ∀ data parent context w e ctx1 w1, tree data parent context w = .ok (e, ctx1, w1) →
    w.ids <+: w1.ids

end EntityFactory

/-- The store after an entity is attached at its end under `parent`: nothing
changes without parent, otherwise the parent gains the child `a`. -/
def attach (A : List Entity) (parent : EntityRef) (a : EntityId) : List Entity :=
  match parent with
  | none => A
  | some b => A.modify (fun x => { x with children := x.children ++ [a] }) b

/-- The context resolves the nodes `ns`, in order, to the handles `a`, `a + 1`,
and so on, when the world's identities are `I`. -/
def Resolves (ctx : EntityFactoryContext) (I : List (UUID × UUID)) (ns : List EntityData)
    (a : Nat) : Prop :=
  ∀ j n, ns[j]? = some n → n.getInstanceUUID.isValid = true ∧
    ctx.entities.find? (fun e => decide ((I[e]?).map Prod.fst = some n.getInstanceUUID))
      = some (a + j)

/-- A tree updater hands back the context it was given, possibly with entities
added at the end. -/
def TreeKeepsContext (tree : EntityFactory.TreeUpdater) : Prop :=
  ∀ data parent ctx w e cout w1, tree data parent (some ctx) w = .ok (e, cout, w1) →
    ∃ ctx1, cout = some ctx1 ∧ ctx.entities <+: ctx1.entities

/-- The entity that the pre-pass creates for a node under a context whose
prefab is `pf`: tagged as coming from a prefab, and holding it, exactly when
there is one. -/
def blankFor (pf : Option Prefab) (n : EntityData) : Entity :=
  { World.freshEntity n.getInstanceUUID n.getName pf.isSome n.getPrefabUUID with prefab := pf }

/-! ## Sample inputs -/

namespace Sample

/-- A factory whose resources hold no prefab, and whose reflectors return a
component's payload as it is under every channel. -/
def noPrefabs : EntityFactory := ⟨fun _ => none, fun _ _ v => v⟩

/-- A data node with an identity and nothing else. -/
def leaf (u : Nat) : EntityData := EntityData.ofUUID ⟨u⟩

/-- A live entity with the given identities and nothing else. -/
def bare (instanceUUID prefabUUID : Nat) : Entity :=
  { instanceUUID := ⟨instanceUUID⟩, prefabUUID := ⟨prefabUUID⟩, name := "", parent := none,
    children := [], components := [], fromPrefab := false, prefab := none,
    serializable := true }

/-- A world whose only entity has instance UUID 1 and prefab UUID 2. -/
def prefabMatchWorld : World := ⟨[bare 1 2], []⟩

/-- A live family: entity 0 (UUID 1) has the children 1 and 2; entity 1
(UUID 2) has a component and the child 3 (UUID 4); entity 2 (UUID 3) is not
serializable. -/
def familyWorld : World :=
  ⟨[{ bare 1 0 with children := [1, 2], name := "root" },
    { bare 2 0 with parent := some 0, children := [3], components := [("Health", 50)] },
    { bare 3 0 with parent := some 0, serializable := false },
    { bare 4 0 with parent := some 1 }], []⟩

/-- Options whose stub predicate flags entity 1. -/
def stubOne : SerializationOptions := ⟨.Prefab, some (fun e => e == 1)⟩

/-- Options without stub predicate. -/
def noStub : SerializationOptions := ⟨.Prefab, none⟩

/-- A scene prefab with three roots. -/
def threeRoots : Prefab := ⟨"scene", leaf 9, [leaf 1, leaf 2, leaf 3]⟩

/-- A root (UUID 1, one component) with one child (UUID 2). -/
def rootWithChild : EntityData :=
  .mk "root" "" ⟨1⟩ ⟨0⟩ none [("Health", 100)] [leaf 2]

/-- The prefab "enemy": a root with UUID 1, Health 100 and Speed 3. -/
def enemyPrefab : Prefab :=
  ⟨"enemy", .mk "enemy" "" ⟨1⟩ ⟨0⟩ none [("Health", 100), ("Speed", 3)] [], []⟩

/-- A factory whose resources hold the prefab "enemy" only, and whose
reflectors return a component's payload as it is under every channel. -/
def enemyFactory : EntityFactory :=
  ⟨fun id => if id = "enemy" then some enemyPrefab else none, fun _ _ v => v⟩

/-- Data naming the prefab "enemy" with instance UUID 2, prefab UUID 1, and
Health overridden to 50. -/
def enemyOverride : EntityData :=
  .mk "" "enemy" ⟨2⟩ ⟨1⟩ none [("Health", 50)] []

/-- A live family in which everything is serializable: entity 0 (UUID 1) has
the child 1 (UUID 2, one component), which has the child 2 (UUID 4). -/
def cleanWorld : World :=
  ⟨[{ bare 1 0 with children := [1], name := "root" },
    { bare 2 7 with
        parent := some 0, children := [2], components := [("Health", 50)], name := "mid" },
    { bare 4 0 with parent := some 1 }], []⟩

/-- A live root (UUID 1) whose two children both have the instance UUID 2. -/
def twinWorld : World :=
  ⟨[{ bare 1 0 with children := [1, 2] },
    { bare 2 0 with parent := some 0 },
    { bare 2 0 with parent := some 0 }], []⟩

/-- A world whose only entity has no valid instance UUID. -/
def anonWorld : World := ⟨[bare 0 0], []⟩

/-- A world of two entities: the first has instance UUID 1 and prefab UUID 2,
the second has instance UUID 2. -/
def prefabBeforeInstanceWorld : World := ⟨[bare 1 2, bare 2 0], []⟩

/-- A context that has registered both entities of that world, in order. -/
def bothRegistered : EntityFactoryContext := ⟨.Prefab, none, [0, 1]⟩

/-- A factory without prefabs whose reflectors return a component's payload in
full under the channel `Prefab` and leave its content out under the others. -/
def maskedFactory : EntityFactory :=
  ⟨fun _ => none, fun ctx _ v => if ctx.type = .Prefab then v else ⟨0, v.entityRefs⟩⟩

/-- A root (UUID 1) whose child (UUID 2) names the prefab "missing" and has a
child of its own (UUID 3). -/
def nestedMissing : EntityData :=
  .mk "root" "" ⟨1⟩ ⟨0⟩ none [] [.mk "mid" "missing" ⟨2⟩ ⟨0⟩ none [] [leaf 3]]

/-- An instance of the prefab "enemy" (UUID 5, prefab UUID 1) whose child
(UUID 2) has no prefab UUID and has a child of its own (UUID 3). -/
def abandoning : EntityData :=
  .mk "" "enemy" ⟨5⟩ ⟨1⟩ none [] [.mk "mid" "" ⟨2⟩ ⟨0⟩ none [] [leaf 3]]

end Sample

open EntityFactory

/-! ### Accessors on a constructed node -/

@[simp]
theorem EntityData.getName_mk (n p : String) (i q : UUID) (r : Option UUID)
    (c : List (String × ConfigNode)) (cs : List EntityData) :
    (EntityData.mk n p i q r c cs).getName = n := rfl

@[simp]
theorem EntityData.getPrefab_mk (n p : String) (i q : UUID) (r : Option UUID)
    (c : List (String × ConfigNode)) (cs : List EntityData) :
    (EntityData.mk n p i q r c cs).getPrefab = p := rfl

@[simp]
theorem EntityData.getInstanceUUID_mk (n p : String) (i q : UUID) (r : Option UUID)
    (c : List (String × ConfigNode)) (cs : List EntityData) :
    (EntityData.mk n p i q r c cs).getInstanceUUID = i := rfl

@[simp]
theorem EntityData.getPrefabUUID_mk (n p : String) (i q : UUID) (r : Option UUID)
    (c : List (String × ConfigNode)) (cs : List EntityData) :
    (EntityData.mk n p i q r c cs).getPrefabUUID = q := rfl

@[simp]
theorem EntityData.getParentUUID_mk (n p : String) (i q : UUID) (r : Option UUID)
    (c : List (String × ConfigNode)) (cs : List EntityData) :
    (EntityData.mk n p i q r c cs).getParentUUID = r := rfl

@[simp]
theorem EntityData.getComponents_mk (n p : String) (i q : UUID) (r : Option UUID)
    (c : List (String × ConfigNode)) (cs : List EntityData) :
    (EntityData.mk n p i q r c cs).getComponents = c := rfl

@[simp]
theorem EntityData.getChildren_mk (n p : String) (i q : UUID) (r : Option UUID)
    (c : List (String × ConfigNode)) (cs : List EntityData) :
    (EntityData.mk n p i q r c cs).getChildren = cs := rfl

@[simp]
theorem EntityData.setName_mk (n p : String) (i q : UUID) (r : Option UUID)
    (c : List (String × ConfigNode)) (cs : List EntityData) (x : String) :
    (EntityData.mk n p i q r c cs).setName x = EntityData.mk x p i q r c cs := rfl

@[simp]
theorem EntityData.setPrefab_mk (n p : String) (i q : UUID) (r : Option UUID)
    (c : List (String × ConfigNode)) (cs : List EntityData) (x : String) :
    (EntityData.mk n p i q r c cs).setPrefab x = EntityData.mk n x i q r c cs := rfl

@[simp]
theorem EntityData.setInstanceUUID_mk (n p : String) (i q : UUID) (r : Option UUID)
    (c : List (String × ConfigNode)) (cs : List EntityData) (x : UUID) :
    (EntityData.mk n p i q r c cs).setInstanceUUID x = EntityData.mk n p x q r c cs := rfl

@[simp]
theorem EntityData.setPrefabUUID_mk (n p : String) (i q : UUID) (r : Option UUID)
    (c : List (String × ConfigNode)) (cs : List EntityData) (x : UUID) :
    (EntityData.mk n p i q r c cs).setPrefabUUID x = EntityData.mk n p i x r c cs := rfl

@[simp]
theorem EntityData.setParentUUID_mk (n p : String) (i q : UUID) (r : Option UUID)
    (c : List (String × ConfigNode)) (cs : List EntityData) (x : UUID) :
    (EntityData.mk n p i q r c cs).setParentUUID x = EntityData.mk n p i q (some x) c cs := rfl

@[simp]
theorem EntityData.setComponents_mk (n p : String) (i q : UUID) (r : Option UUID)
    (c : List (String × ConfigNode)) (cs : List EntityData) (x : List (String × ConfigNode)) :
    (EntityData.mk n p i q r c cs).setComponents x = EntityData.mk n p i q r x cs := rfl

@[simp]
theorem EntityData.setChildren_mk (n p : String) (i q : UUID) (r : Option UUID)
    (c : List (String × ConfigNode)) (cs : List EntityData) (x : List EntityData) :
    (EntityData.mk n p i q r c cs).setChildren x = EntityData.mk n p i q r c x := rfl

/-! ## C1: the lookup of the population pass after the pre-pass -/

/-- C1, evaluated on the code: the world holds one entity with instance UUID 1
and prefab UUID 2, and the data is a single node with instance UUID 2.  The
pre-pass finds that entity through the world lookup (a prefab-UUID match) and
registers it without creating anything; the lookup made by `updateEntityNode`
then matches on instance UUID only, returns an invalid handle, and the
assertion of `updateEntityNode` fails. -/
theorem C1_assertion_fails_after_prefab_uuid_match :
    Sample.noPrefabs.preInstantiateEntities (Sample.leaf 2)
        (EntityFactoryContext.new .Prefab none) 0 Sample.prefabMatchWorld
      = .ok (⟨.Prefab, none, [0]⟩, Sample.prefabMatchWorld)
    ∧ Sample.noPrefabs.getEntity (Sample.leaf 2) ⟨.Prefab, none, [0]⟩ false
        Sample.prefabMatchWorld
      = .ok (none, ⟨.Prefab, none, [0]⟩)
    ∧ Sample.noPrefabs.createEntity 1 (Sample.leaf 2) none Sample.prefabMatchWorld
      = .error .assertion :=
  ⟨rfl, rfl, rfl⟩

/-! ## C8: when a new context is started -/

/-- C8: `updateEntityTree` starts a fresh context exactly when the context is
absent, or the data names a prefab, or the context has a prefab and the data
has no valid prefab UUID.  In that case the fresh context has an empty entity
list and the prefab of `getPrefab`, the pre-pass runs at depth 0 and the
population uses the fresh context; in every other case the result is that of
`updateEntityNode` with the given context on the given world. -/
theorem C8_new_context_rule (f : EntityFactory) (fuel : Nat) (data : EntityData)
    (parent : EntityRef) (context : Option EntityFactoryContext) (w : World) :
    (needsNewContext data context = true ↔
      (context = none ∨ data.getPrefab ≠ "" ∨
        ∃ ctx, context = some ctx ∧ ctx.getPrefab.isSome = true
          ∧ data.getPrefabUUID.isValid = false))
    ∧ (needsNewContext data context = true →
        ((EntityFactoryContext.new .Prefab (f.getPrefab data.getPrefab w).1).entities = []
          ∧ (EntityFactoryContext.new .Prefab (f.getPrefab data.getPrefab w).1).prefab
              = (f.getPrefab data.getPrefab w).1)
        ∧ f.updateEntityTree (fuel + 1) data parent context w =
          (let prefab := (f.getPrefab data.getPrefab w).1
           let instanceData :=
             match prefab with
             | some p => p.getEntityData.instantiateWithAsCopy data
             | none => data
           match f.preInstantiateEntities instanceData (EntityFactoryContext.new .Prefab prefab) 0
              (f.getPrefab data.getPrefab w).2 with
           | .error err => .error err
           | .ok (ctx1, w1) =>
             match f.updateEntityNode fuel instanceData parent ctx1 w1 with
             | .error err => .error err
             | .ok (e, _, w2) => .ok (e, context, w2)))
    ∧ (needsNewContext data context = false →
        ∃ ctx, context = some ctx ∧
          f.updateEntityTree (fuel + 1) data parent context w =
            (match f.updateEntityNode fuel data parent ctx w with
             | .error err => .error err
             | .ok (e, ctx1, w1) => .ok (e, some ctx1, w1))) := by
  refine ⟨?_, ?_, ?_⟩
  · cases context with
    | none => simp [needsNewContext]
    | some ctx =>
      simp only [needsNewContext, Option.isNone_some, Bool.false_or, Bool.or_eq_true,
        decide_eq_true_eq, Bool.and_eq_true, Bool.not_eq_true', reduceCtorEq, false_or,
        Option.some.injEq, exists_eq_left', ne_eq]
  · intro h
    refine ⟨⟨rfl, rfl⟩, ?_⟩
    cases context with
    | none => simp [updateEntityTree, updateEntityNode]
    | some ctx => simp [updateEntityTree, updateEntityNode, h]
  · intro h
    cases context with
    | none => simp [needsNewContext] at h
    | some ctx =>
      exact ⟨ctx, rfl, by simp [updateEntityTree, updateEntityNode, h]⟩

/-- C8 at a concrete input: a child without prefab name under a context that
has no prefab continues in that context. -/
theorem C8_new_context_rule_witness :
    ∃ ctx, (some (EntityFactoryContext.new .Prefab none)) = some ctx ∧
      Sample.noPrefabs.updateEntityTree (0 + 1) (Sample.leaf 2) none
          (some (EntityFactoryContext.new .Prefab none)) World.empty =
        (match Sample.noPrefabs.updateEntityNode 0 (Sample.leaf 2) none ctx World.empty with
         | .error err => .error err
         | .ok (e, ctx1, w1) => .ok (e, some ctx1, w1)) :=
  (C8_new_context_rule Sample.noPrefabs 0 (Sample.leaf 2) none
    (some (EntityFactoryContext.new .Prefab none)) World.empty).2.2 rfl

/-! ## C9: identity resolution -/

/-- The context lookup without prefab matches is the search for the first
registered entity whose instance UUID is the one asked for. -/
theorem EntityFactoryContext.getEntity_instance (ctx : EntityFactoryContext) (w : World)
    (u : UUID) (hu : u.isValid = true) :
    ctx.getEntity w u false
      = ctx.entities.find? (fun e => decide (w.getInstanceUUID e = some u)) := by
  have hfun : EntityFactoryContext.isMatch w u false
      = fun e => decide (w.getInstanceUUID e = some u) := by
    funext e
    simp [EntityFactoryContext.isMatch]
  simp [EntityFactoryContext.getEntity, hu, hfun]

/-- C9: for data with a valid instance UUID `u`, `EntityFactory::getEntity`
returns the first entity of the context whose instance UUID is `u` when there
is one, leaving the context unchanged (an entity of the context whose prefab
UUID alone is `u` is never the answer); otherwise, when world lookup is allowed
and `findEntity(u, true)` finds an entity, it returns that entity and appends
it to the context; otherwise it returns the invalid handle and leaves the
context unchanged. -/
theorem C9_identity_resolution (f : EntityFactory) (data : EntityData)
    (context : EntityFactoryContext) (allowWorldLookup : Bool) (w : World)
    (hu : data.getInstanceUUID.isValid = true) :
    (∀ e, context.entities.find? (fun x => decide (w.getInstanceUUID x = some data.getInstanceUUID))
          = some e →
        f.getEntity data context allowWorldLookup w = .ok (some e, context)
          ∧ w.getInstanceUUID e = some data.getInstanceUUID)
    ∧ (context.entities.find? (fun x => decide (w.getInstanceUUID x = some data.getInstanceUUID))
          = none →
        (∀ e, allowWorldLookup = true → w.findEntity data.getInstanceUUID true = some e →
          f.getEntity data context allowWorldLookup w
            = .ok (some e, { context with entities := context.entities ++ [e] }))
        ∧ ((allowWorldLookup = false ∨ w.findEntity data.getInstanceUUID true = none) →
          f.getEntity data context allowWorldLookup w = .ok (none, context))) := by
  refine ⟨?_, ?_⟩
  · intro e he
    have hm := List.find?_some he
    constructor
    · simp [EntityFactory.getEntity, hu, EntityFactoryContext.getEntity_instance, he]
    · simpa using hm
  · intro hnone
    refine ⟨?_, ?_⟩
    · intro e ha hw
      simp [EntityFactory.getEntity, hu, EntityFactoryContext.getEntity_instance, hnone, ha, hw,
        EntityFactoryContext.addEntity]
    · intro h
      rcases h with h | h
      · simp [EntityFactory.getEntity, hu, EntityFactoryContext.getEntity_instance, hnone, h]
      · cases allowWorldLookup <;>
          simp [EntityFactory.getEntity, hu, EntityFactoryContext.getEntity_instance, hnone, h]

/-- C9 at a concrete input: the context holds the world's only entity, whose
prefab UUID is 2 and instance UUID 1; asked for 2 with world lookup, the
context gives nothing and the world lookup returns the entity, which is
appended to the context. -/
theorem C9_identity_resolution_witness :
    Sample.noPrefabs.getEntity (Sample.leaf 2) ⟨.Prefab, none, [0]⟩ true Sample.prefabMatchWorld
      = .ok (some 0, ⟨.Prefab, none, [0, 0]⟩) :=
  ((C9_identity_resolution Sample.noPrefabs (Sample.leaf 2) ⟨.Prefab, none, [0]⟩ true
    Sample.prefabMatchWorld rfl).2 rfl).1 0 rfl rfl

/-! ## C5: a missing prefab -/

/-- Creating an entity without parent appends its record and returns the next
handle. -/
theorem World.createEntity_none (w : World) (u q : UUID) (n : String) (fp : Bool) :
    w.createEntity u n none fp q
      = (w.entities.length,
          { w with entities := w.entities ++ [World.freshEntity u n fp q] }) := by
  simp [World.createEntity, World.setParent, World.get?, World.freshEntity]

/-- C5: `getPrefab` is total; it returns a prefab exactly when the id is
non-empty and the resource exists, and it logs an error (one line, the entities
being left alone) exactly when the id is non-empty and the resource does not
exist.  Consequently `createEntity(prefabName)` with a name that does not exist
succeeds and adds exactly one entity, built from the bare data: the generated
instance UUID, no prefab, no component, no child. -/
theorem C5_missing_prefab_recoverable (f : EntityFactory) :
    (∀ (id : String) (w : World),
      ((f.getPrefab id w).1.isSome = true ↔ (id ≠ "" ∧ (f.resources id).isSome = true))
      ∧ ((f.getPrefab id w).1 = if id = "" then none else f.resources id)
      ∧ ((f.getPrefab id w).2.log ≠ w.log ↔ (id ≠ "" ∧ f.resources id = none))
      ∧ ((f.getPrefab id w).2.log = w.log
          ∨ (f.getPrefab id w).2.log = w.log ++ ["Prefab not found: \"" ++ id ++ "\"."])
      ∧ (f.getPrefab id w).2.entities = w.entities)
    ∧ (∀ (fuel : Nat) (generated : UUID) (prefabName : String) (w : World),
        generated.isValid = true → f.resources prefabName = none →
        w.findEntity generated true = none →
        f.createEntityFromPrefab (fuel + 1) generated prefabName w
          = .ok (some w.entities.length,
              { entities := w.entities ++ [World.freshEntity generated "" false ⟨0⟩],
                log := (f.getPrefab prefabName w).2.log })) := by
  refine ⟨?_, ?_⟩
  · intro id w
    unfold EntityFactory.getPrefab
    by_cases hid : id = ""
    · simp [hid]
    · cases hres : f.resources id <;> simp [hid, World.logError]
  · intro fuel generated name w hv hmiss hfresh
    have hfresh2 : (f.getPrefab name w).2.findEntity generated true = none := by
      unfold EntityFactory.getPrefab
      split <;> simp_all [World.findEntity, World.logError]
    have hp : (f.getPrefab name w).1 = none := by
      unfold EntityFactory.getPrefab
      split <;> simp_all
    have he : (f.getPrefab name w).2.entities = w.entities := by
      unfold EntityFactory.getPrefab
      split <;> simp_all [World.logError]
    simp only [createEntityFromPrefab, createEntity, updateEntityTree, EntityData.ofUUID,
      EntityData.setPrefab]
    simp only [EntityData.getPrefab_mk, hp]
    generalize (f.getPrefab name w).2 = w0 at *
    simp [needsNewContext, preInstantiateEntities, preInstantiateChildren, instantiateEntity,
      EntityFactory.getEntity, EntityFactoryContext.getEntity, hv, EntityFactoryContext.new,
      hfresh2, World.createEntity_none, World.freshEntity, EntityFactoryContext.getPrefab,
      EntityFactoryContext.addEntity, updateEntityNodeWith, EntityFactoryContext.isMatch,
      World.getInstanceUUID, World.get?, he, World.setParent, updateEntityComponents,
      updateEntityComponentsWith, updateEntityChildrenWith]

/-- C5 at a concrete input: the prefab "missing" does not exist; creation into
the empty world succeeds with one bare entity and one error line. -/
theorem C5_missing_prefab_recoverable_witness :
    Sample.noPrefabs.createEntityFromPrefab (0 + 1) ⟨7⟩ "missing" World.empty
      = .ok (some 0,
          { entities := [World.freshEntity ⟨7⟩ "" false ⟨0⟩],
            log := ["Prefab not found: \"missing\"."] }) :=
  (C5_missing_prefab_recoverable Sample.noPrefabs).2 0 ⟨7⟩ "missing" World.empty rfl rfl rfl

/-! ## C6: stub serialization -/

/-- What a successful run of the child loop on a non-empty list did with the
first child: it skipped a child that is not serializable, or emitted the bare
identity of a stubbed child, or emitted the recursive serialization. -/
theorem serializeChildrenWith_cons_ok (self : EntityId → Except Failure EntityData) (w : World)
    (options : SerializationOptions) (c : EntityId) (rest : List EntityId)
    (ds : List EntityData)
    (h : serializeChildrenWith self w options (c :: rest) = .ok ds) :
    (w.isSerializable c = false ∧ serializeChildrenWith self w options rest = .ok ds)
    ∨ (w.isSerializable c = true ∧ ∃ d ds1, ds = d :: ds1
        ∧ serializeChildrenWith self w options rest = .ok ds1
        ∧ ((options.isStub c = true
              ∧ d = EntityData.ofUUID ((w.getInstanceUUID c).getD ⟨0⟩))
            ∨ (options.isStub c = false ∧ self c = .ok d))) := by
  unfold serializeChildrenWith at h
  cases hs : w.isSerializable c with
  | false =>
    simp only [hs, Bool.false_eq_true, if_false] at h
    exact Or.inl ⟨rfl, h⟩
  | true =>
    simp only [hs, if_true] at h
    refine Or.inr ⟨rfl, ?_⟩
    cases hrest : serializeChildrenWith self w options rest with
    | error err =>
      cases hst : options.isStub c with
      | true => simp [hst, hrest] at h
      | false =>
        cases hc : self c <;> simp [hst, hrest, hc] at h
    | ok ds1 =>
      cases hst : options.isStub c with
      | true =>
        simp only [hst, hrest, if_true, Except.ok.injEq] at h
        exact ⟨_, ds1, h.symm, rfl, Or.inl ⟨rfl, rfl⟩⟩
      | false =>
        cases hc : self c with
        | error err => simp [hst, hrest, hc] at h
        | ok d =>
          simp only [hst, hrest, hc, Bool.false_eq_true, if_false, Except.ok.injEq] at h
          exact ⟨d, ds1, h.symm, rfl, Or.inr ⟨rfl, rfl⟩⟩

/-- A serializable child is a live one. -/
theorem World.isSerializable_live (w : World) (c : EntityId) (h : w.isSerializable c = true) :
    ∃ ent, w.get? c = some ent := by
  unfold World.isSerializable at h
  cases hg : w.get? c with
  | none => simp [hg] at h
  | some ent => exact ⟨ent, rfl⟩

/-- The entries emitted by the child loop are in line with the serializable
children, and the entry of a child flagged by the stub predicate is the bare
identity of that child. -/
theorem serializeChildrenWith_stub (self : EntityId → Except Failure EntityData) (w : World)
    (options : SerializationOptions) (p : EntityId → Bool)
    (hp : options.serializeAsStub = some p) :
    ∀ (cs : List EntityId) (ds : List EntityData),
      serializeChildrenWith self w options cs = .ok ds →
      List.Forall₂
        (fun child entry => p child = true →
          ∃ u, w.getInstanceUUID child = some u ∧ entry = EntityData.ofUUID u)
        (cs.filter w.isSerializable) ds := by
  intro cs
  induction cs with
  | nil =>
    intro ds h
    simp [serializeChildrenWith] at h
    subst h
    simp
  | cons c rest ih =>
    intro ds h
    rcases serializeChildrenWith_cons_ok self w options c rest ds h with
      ⟨hs, hrest⟩ | ⟨hs, d, ds1, hds, hrest, hd⟩
    · simp only [List.filter_cons, hs, Bool.false_eq_true, if_false]
      exact ih ds hrest
    · subst hds
      simp only [List.filter_cons, hs, if_true]
      refine List.Forall₂.cons ?_ (ih ds1 hrest)
      intro hflag
      obtain ⟨ent, hent⟩ := w.isSerializable_live c hs
      rcases hd with ⟨_, hd⟩ | ⟨hst, _⟩
      · exact ⟨ent.instanceUUID, by simp [World.getInstanceUUID, hent],
          by simp [hd, World.getInstanceUUID, hent]⟩
      · simp [SerializationOptions.isStub, hp, hflag] at hst

/-- The children of the output of `serializeEntity` are what the child loop
emits for the entity's children. -/
theorem serializeEntity_children (f : EntityFactory) (w : World) (options : SerializationOptions)
    (fuel : Nat) (entity : EntityId) (canStoreParent : Bool) (d : EntityData)
    (h : f.serializeEntity w options (fuel + 1) entity canStoreParent = .ok d) :
    serializeChildrenWith (fun c => f.serializeEntity w options fuel c false) w options
      (w.getChildren entity) = .ok d.getChildren := by
  unfold serializeEntity at h
  unfold World.getChildren
  cases hg : w.get? entity with
  | none => simp [hg] at h
  | some ent =>
    simp only [hg] at h ⊢
    cases hc : serializeChildrenWith (fun c => f.serializeEntity w options fuel c false) w options
        ent.children with
    | error err => simp [hc] at h
    | ok ds =>
      simp only [hc] at h
      cases canStoreParent with
      | false =>
        simp at h
        subst h
        simp [EntityData.empty]
      | true =>
        cases hpar : ent.parent with
        | none =>
          simp [hpar] at h
          subst h
          simp [EntityData.empty]
        | some par =>
          simp [hpar] at h
          subst h
          simp [EntityData.empty]

/-- The entries of a serialization with stub predicate: one per serializable
child, in child order, a flagged child being reduced to its instance UUID. -/
theorem serializeEntity_stub_entries (f : EntityFactory) (w : World) (options : SerializationOptions)
    (p : EntityId → Bool) (fuel : Nat) (entity : EntityId) (canStoreParent : Bool)
    (d : EntityData) (hp : options.serializeAsStub = some p)
    (h : f.serializeEntity w options fuel entity canStoreParent = .ok d) :
    List.Forall₂
      (fun child entry => p child = true →
        (∃ u, w.getInstanceUUID child = some u ∧ entry = EntityData.ofUUID u)
        ∧ entry.getComponents = [] ∧ entry.getChildren = [])
      ((w.getChildren entity).filter w.isSerializable) d.getChildren := by
  cases fuel with
  | zero => simp [serializeEntity] at h
  | succ fuel =>
    have hc := serializeEntity_children f w options fuel entity canStoreParent d h
    have hs := serializeChildrenWith_stub _ w options p hp _ _ hc
    refine hs.imp ?_
    intro child entry hR hflag
    obtain ⟨u, hu, he⟩ := hR hflag
    exact ⟨⟨u, hu, he⟩, by simp [he, EntityData.ofUUID], by simp [he, EntityData.ofUUID]⟩

/-! ## C10: parent linkage on serialization -/

/-- The output of `serializeEntity`, field by field. -/
theorem serializeEntity_shape (f : EntityFactory) (w : World) (options : SerializationOptions)
    (fuel : Nat) (entity : EntityId) (canStoreParent : Bool) (d : EntityData)
    (h : f.serializeEntity w options (fuel + 1) entity canStoreParent = .ok d) :
    ∃ ent ds, w.get? entity = some ent
      ∧ serializeChildrenWith (fun c => f.serializeEntity w options fuel c false) w options
          ent.children = .ok ds
      ∧ d = EntityData.mk ent.name "" ent.instanceUUID ent.prefabUUID
          (if canStoreParent = true
            then ent.parent.map (fun p => (w.getInstanceUUID p).getD ⟨0⟩) else none)
          (ent.components.map (fun c =>
            (c.1, f.reflectorSerialize (EntityFactoryContext.new options.type none) c.1 c.2)))
          ds := by
  unfold serializeEntity at h
  cases hg : w.get? entity with
  | none => simp [hg] at h
  | some ent =>
    simp only [hg] at h
    cases hc : serializeChildrenWith (fun c => f.serializeEntity w options fuel c false) w options
        ent.children with
    | error err => simp [hc] at h
    | ok ds =>
      refine ⟨ent, ds, rfl, hc, ?_⟩
      simp only [hc] at h
      cases canStoreParent with
      | false =>
        simp at h
        subst h
        simp [EntityData.empty, serializeComponents, hg]
      | true =>
        cases hpar : ent.parent with
        | none =>
          simp [hpar] at h
          subst h
          simp [EntityData.empty, serializeComponents, hg]
        | some par =>
          simp [hpar] at h
          subst h
          simp [EntityData.empty, serializeComponents, hg]

/-- When every tree returned by the recursive call is free of parent UUIDs,
so is every node emitted by the child loop. -/
theorem serializeChildrenWith_noParent (self : EntityId → Except Failure EntityData) (w : World)
    (options : SerializationOptions)
    (hself : ∀ c d, self c = .ok d → ∀ n ∈ d.nodes, n.getParentUUID = none) :
    ∀ (cs : List EntityId) (ds : List EntityData),
      serializeChildrenWith self w options cs = .ok ds →
      ∀ n ∈ EntityData.nodesList ds, n.getParentUUID = none := by
  intro cs
  induction cs with
  | nil =>
    intro ds h
    simp [serializeChildrenWith] at h
    subst h
    simp [EntityData.nodesList]
  | cons c rest ih =>
    intro ds h
    rcases serializeChildrenWith_cons_ok self w options c rest ds h with
      ⟨_, hrest⟩ | ⟨_, d, ds1, hds, hrest, hd⟩
    · exact ih ds hrest
    · subst hds
      intro n hn
      simp only [EntityData.nodesList, List.mem_append] at hn
      rcases hn with hn | hn
      · rcases hd with ⟨_, hd⟩ | ⟨_, hc⟩
        · subst hd
          simp only [EntityData.ofUUID, EntityData.nodes, EntityData.nodesList,
            List.mem_singleton] at hn
          subst hn
          rfl
        · exact hself c d hc n hn
      · exact ih ds1 hrest n hn

/-- A tree serialized without permission to store the parent has no parent
UUID on any node. -/
theorem serializeEntity_noParent (f : EntityFactory) (w : World) (options : SerializationOptions) :
    ∀ (fuel : Nat) (entity : EntityId) (d : EntityData),
      f.serializeEntity w options fuel entity false = .ok d →
      ∀ n ∈ d.nodes, n.getParentUUID = none := by
  intro fuel
  induction fuel with
  | zero =>
    intro entity d h
    simp [serializeEntity] at h
  | succ fuel ih =>
    intro entity d h
    obtain ⟨ent, ds, _, hds, hd⟩ := serializeEntity_shape f w options fuel entity false d h
    subst hd
    intro n hn
    simp only [EntityData.nodes, List.mem_cons] at hn
    rcases hn with hn | hn
    · subst hn
      simp
    · exact serializeChildrenWith_noParent _ w options (fun c d hc => ih c d hc) _ ds hds n hn

/-- The parent UUIDs of a serialization: at the top exactly when asked for and
the entity has a parent, nowhere below. -/
theorem serializeEntity_parent_linkage (f : EntityFactory) (w : World) (options : SerializationOptions)
    (fuel : Nat) (entity : EntityId) (canStoreParent : Bool) (d : EntityData)
    (h : f.serializeEntity w options fuel entity canStoreParent = .ok d) :
    (d.getParentUUID.isSome = true ↔
      (canStoreParent = true ∧ (w.tryGetParent entity).isSome = true))
    ∧ (∀ p u, canStoreParent = true → w.tryGetParent entity = some p →
        w.getInstanceUUID p = some u → d.getParentUUID = some u)
    ∧ (∀ n ∈ EntityData.nodesList d.getChildren, n.getParentUUID = none) := by
  cases fuel with
  | zero => simp [serializeEntity] at h
  | succ fuel =>
    obtain ⟨ent, ds, hg, hds, hd⟩ := serializeEntity_shape f w options fuel entity canStoreParent d h
    subst hd
    refine ⟨?_, ?_, ?_⟩
    · cases canStoreParent <;> cases hpar : ent.parent <;>
        simp [World.tryGetParent, hg, hpar]
    · intro p u hc hp hu
      subst hc
      simp only [World.tryGetParent, hg] at hp
      simp [hp, hu]
    · intro n hn
      simp only [EntityData.getChildren_mk] at hn
      exact serializeChildrenWith_noParent _ w options
        (fun c d hc => serializeEntity_noParent f w options fuel c d hc) _ ds hds n hn

/-! ## C7: the roots of a scene -/

/-- The loop of `createScene` started at index `i` appends to the scene the
entities created in order, and their back-references numbered from `i`. -/
theorem createSceneLoop_eq (f : EntityFactory) (fuel : Nat) (prefab : Prefab) :
    ∀ (ds : List EntityData) (i : Nat) (scene : EntityScene) (w : World),
      createSceneLoop f fuel prefab ds i scene w =
        match createEntitiesInOrder f fuel ds w with
        | .error err => .error err
        | .ok (es, w1) =>
          .ok (⟨scene.prefabRefs ++ (es.enumFrom i).map (fun x => (prefab, x.2, x.1)),
                scene.rootEntities ++ es⟩, w1) := by
  intro ds
  induction ds with
  | nil =>
    intro i scene w
    simp [createSceneLoop, createEntitiesInOrder]
  | cons d rest ih =>
    intro i scene w
    simp only [createSceneLoop, createEntitiesInOrder]
    cases hc : f.createEntity fuel d none w with
    | error err => rfl
    | ok r =>
      obtain ⟨e, w1⟩ := r
      simp only [ih]
      cases hr : createEntitiesInOrder f fuel rest w1 with
      | error err => rfl
      | ok r2 =>
        obtain ⟨es, w2⟩ := r2
        simp [EntityScene.addPrefabReference, EntityScene.addRootEntity, List.enumFrom_cons]

/-- One entity is created for each entity data. -/
theorem createEntitiesInOrder_length (f : EntityFactory) (fuel : Nat) :
    ∀ (ds : List EntityData) (w : World) (es : List EntityRef) (w1 : World),
      createEntitiesInOrder f fuel ds w = .ok (es, w1) → es.length = ds.length := by
  intro ds
  induction ds with
  | nil =>
    intro w es w1 h
    simp [createEntitiesInOrder] at h
    simp [h.1.symm]
  | cons d rest ih =>
    intro w es w1 h
    simp only [createEntitiesInOrder] at h
    cases hc : f.createEntity fuel d none w with
    | error err => simp [hc] at h
    | ok r =>
      obtain ⟨e, w2⟩ := r
      cases hr : createEntitiesInOrder f fuel rest w2 with
      | error err => simp [hc, hr] at h
      | ok r2 =>
        obtain ⟨es2, w3⟩ := r2
        simp only [hc, hr, Except.ok.injEq, Prod.mk.injEq] at h
        rw [← h.1]
        simp [ih w2 es2 w3 hr]

/-- C7: `createScene` creates the entities for the prefab's entity datas
`d_0 .. d_{n-1}` from left to right and fails when one of the creations fails;
otherwise the scene's roots are the `n` created entities in that order, and
its prefab references are `(prefab, entity_i, i)` for `i = 0 .. n-1` in that
order. -/
theorem C7_createScene_root_order (f : EntityFactory) (fuel : Nat) (prefab : Prefab) (w : World) :
    f.createScene fuel prefab w =
      (match createEntitiesInOrder f fuel prefab.getEntityDatas w with
       | .error err => .error err
       | .ok (es, w1) =>
         .ok (⟨es.enum.map (fun x => (prefab, x.2, x.1)), es⟩, w1))
    ∧ (∀ scene w1, f.createScene fuel prefab w = .ok (scene, w1) →
        scene.rootEntities.length = prefab.getEntityDatas.length
        ∧ scene.prefabRefs.length = prefab.getEntityDatas.length
        ∧ createEntitiesInOrder f fuel prefab.getEntityDatas w = .ok (scene.rootEntities, w1)
        ∧ ∀ i (hi : i < scene.rootEntities.length),
            scene.prefabRefs[i]? = some (prefab, scene.rootEntities[i], i)) := by
  have heq : f.createScene fuel prefab w =
      (match createEntitiesInOrder f fuel prefab.getEntityDatas w with
       | .error err => .error err
       | .ok (es, w1) =>
         .ok (⟨es.enum.map (fun x => (prefab, x.2, x.1)), es⟩, w1)) := by
    simp only [createScene, createSceneLoop_eq, EntityScene.empty, List.nil_append, List.enum]
  refine ⟨heq, ?_⟩
  intro scene w1 h
  rw [heq] at h
  cases hr : createEntitiesInOrder f fuel prefab.getEntityDatas w with
  | error err => simp [hr] at h
  | ok r =>
    obtain ⟨es, w2⟩ := r
    simp only [hr, Except.ok.injEq, Prod.mk.injEq] at h
    obtain ⟨hscene, hw⟩ := h
    subst hscene
    subst hw
    have hlen := createEntitiesInOrder_length f fuel _ w es w2 hr
    refine ⟨hlen, by simp [hlen], rfl, ?_⟩
    intro i hi
    simp [List.enum, List.getElem?_enumFrom, List.getElem?_eq_getElem hi]

/-- C7 at a concrete input: a scene of three roots created into the empty
world has the roots 0, 1, 2 and the back-references numbered 0, 1, 2. -/
theorem C7_createScene_root_order_witness :
    ∃ w1, Sample.noPrefabs.createScene 1 Sample.threeRoots World.empty
        = .ok (⟨[(Sample.threeRoots, some 0, 0), (Sample.threeRoots, some 1, 1),
                  (Sample.threeRoots, some 2, 2)], [some 0, some 1, some 2]⟩, w1)
      ∧ (3 = Sample.threeRoots.getEntityDatas.length
          ∧ 3 = Sample.threeRoots.getEntityDatas.length
          ∧ createEntitiesInOrder Sample.noPrefabs 1 Sample.threeRoots.getEntityDatas World.empty
              = .ok ([some 0, some 1, some 2], w1)) :=
  ⟨_, rfl,
    let h := (C7_createScene_root_order Sample.noPrefabs 1 Sample.threeRoots World.empty).2 _ _ rfl
    ⟨h.1, h.2.1, h.2.2.1⟩⟩

/-! ## The world and the context only grow -/

theorem List.map_modify_of_fixed {α β : Type} (k : α → β) (g : α → α) (hg : ∀ x, k (g x) = k x)
    (n : Nat) (l : List α) : (l.modify g n).map k = l.map k := by
  apply List.ext_getElem?
  intro i
  simp only [List.getElem?_map, List.getElem?_modify]
  cases h : l[i]? with
  | none => simp
  | some x =>
    by_cases hn : n = i
    · simp [hn, hg]
    · simp [hn]

theorem World.ids_modify (w : World) (e : EntityId) (g : Entity → Entity)
    (hg : ∀ x, (g x).instanceUUID = x.instanceUUID ∧ (g x).prefabUUID = x.prefabUUID) :
    (w.modify e g).ids = w.ids := by
  unfold World.ids World.modify
  exact List.map_modify_of_fixed _ g (fun x => by simp [(hg x).1, (hg x).2]) e w.entities

theorem World.ids_setParent (w : World) (e : EntityId) (p : EntityRef) :
    (w.setParent e p).ids = w.ids := by
  unfold World.setParent
  cases hg : w.get? e with
  | none => rfl
  | some ent =>
    simp only
    split
    · rfl
    · cases hp : ent.parent <;> cases p <;>
        simp [World.ids_modify]

theorem World.ids_setPrefab (w : World) (e : EntityId) (p : Option Prefab) :
    (w.setPrefab e p).ids = w.ids := by
  simp [World.setPrefab, World.ids_modify]

theorem EntityFactoryContext.getEntityIdFromUUID_entities (ctx : EntityFactoryContext)
    (w : World) (u : UUID) : (ctx.getEntityIdFromUUID w u).2.entities = w.entities := by
  unfold EntityFactoryContext.getEntityIdFromUUID
  cases ctx.getEntity w u true <;> rfl

/-- Resolving entity references writes to the log only. -/
theorem World.resolveEntityRefs_entities (w : World) (ctx : EntityFactoryContext)
    (refs : List UUID) : (w.resolveEntityRefs ctx refs).entities = w.entities := by
  unfold World.resolveEntityRefs
  induction refs generalizing w with
  | nil => rfl
  | cons u us ih =>
    rw [List.foldl_cons, ih, EntityFactoryContext.getEntityIdFromUUID_entities]

theorem World.createComponent_entities (w : World) (ctx : EntityFactoryContext) (n : String)
    (e : EntityId) (v : ConfigNode) :
    (w.createComponent ctx n e v).entities
      = w.entities.modify (fun x => { x with components := x.components ++ [(n, v)] }) e := by
  simp only [World.createComponent, World.modify, World.resolveEntityRefs_entities]

theorem World.ids_createComponent (w : World) (ctx : EntityFactoryContext) (n : String)
    (e : EntityId) (v : ConfigNode) : (w.createComponent ctx n e v).ids = w.ids := by
  unfold World.ids
  rw [World.createComponent_entities]
  exact List.map_modify_of_fixed (fun x : Entity => (x.instanceUUID, x.prefabUUID))
    (fun x => { x with components := x.components ++ [(n, v)] }) (fun x => rfl) e w.entities

theorem World.ids_createEntity_none (w : World) (u q : UUID) (n : String) (fp : Bool) :
    (w.createEntity u n none fp q).2.ids = w.ids ++ [(u, q)] := by
  simp [World.createEntity_none, World.ids, World.freshEntity]

theorem World.length_ids (w : World) : w.ids.length = w.entities.length := by
  simp [World.ids]

theorem World.getInstanceUUID_ids (w : World) (e : EntityId) :
    w.getInstanceUUID e = (w.ids[e]?).map Prod.fst := by
  simp [World.getInstanceUUID, World.get?, World.ids, List.getElem?_map]
  cases w.entities[e]? <;> rfl

theorem World.findEntity_ids (w : World) (u : UUID) (b : Bool) :
    w.findEntity u b = w.ids.findIdx? (fun p => p.1 == u || (b && p.2 == u)) := by
  unfold World.findEntity World.ids
  generalize w.entities = l
  induction l with
  | nil => rfl
  | cons a l ih =>
    simp only [List.findIdx?_cons, List.map_cons]
    split
    · rfl
    · simp [ih]


theorem List.findIdx?_of_prefix {α : Type} (p : α → Bool) {l l2 : List α} (h : l <+: l2)
    {i : Nat} (hi : l.findIdx? p = some i) : l2.findIdx? p = some i := by
  obtain ⟨t, rfl⟩ := h
  simp [List.findIdx?_append, hi]

theorem List.getElem?_of_prefix {α : Type} {l l2 : List α} (h : l <+: l2)
    {i : Nat} {a : α} (hi : l[i]? = some a) : l2[i]? = some a := by
  obtain ⟨t, rfl⟩ := h
  have hlt : i < l.length := by
    by_contra hc
    simp [List.getElem?_eq_none (Nat.le_of_not_lt hc)] at hi
  simp [List.getElem?_append_left hlt, hi]

theorem World.findEntity_of_extends {w w2 : World} (h : w.ids <+: w2.ids) {u : UUID} {b : Bool}
    {r : EntityId} (hr : w.findEntity u b = some r) : w2.findEntity u b = some r := by
  rw [World.findEntity_ids] at hr ⊢
  exact List.findIdx?_of_prefix _ h hr

theorem World.getInstanceUUID_of_extends {w w2 : World} (h : w.ids <+: w2.ids) {e : EntityId}
    {u : UUID} (he : w.getInstanceUUID e = some u) : w2.getInstanceUUID e = some u := by
  rw [World.getInstanceUUID_ids] at he ⊢
  cases hx : w.ids[e]? with
  | none => simp [hx] at he
  | some x =>
    rw [List.getElem?_of_prefix h hx]
    simpa [hx] using he

theorem getPrefab_ids (f : EntityFactory) (id : String) (w : World) :
    (f.getPrefab id w).2.ids = w.ids := by
  unfold EntityFactory.getPrefab
  split
  · split <;> rfl
  · rfl

theorem getPrefab_fst (f : EntityFactory) (id : String) (w w2 : World) :
    (f.getPrefab id w).1 = (f.getPrefab id w2).1 := by
  unfold EntityFactory.getPrefab
  split
  · split <;> rfl
  · rfl

theorem List.modify_append_right {α : Type} (g : α → α) (l t : List α) (i : Nat) :
    (l ++ t).modify g (l.length + i) = l ++ t.modify g i := by
  induction l with
  | nil => simp
  | cons a l ih =>
    have : (a :: l).length + i = (l.length + i) + 1 := by simp; omega
    rw [this]
    simp [List.modify_succ_cons, ih]

theorem List.modify_append_left {α : Type} (g : α → α) (l t : List α) (i : Nat)
    (h : i < l.length) : (l ++ t).modify g i = l.modify g i ++ t := by
  induction l generalizing i with
  | nil => simp at h
  | cons a l ih =>
    cases i with
    | zero => simp
    | succ i =>
      simp only [List.length_cons, Nat.add_lt_add_iff_right] at h
      simp [List.modify_succ_cons, ih i h]

theorem List.modify_length_concat {α : Type} (g : α → α) (l : List α) (a : α) :
    (l ++ [a]).modify g l.length = l ++ [g a] := by
  have := List.modify_append_right g l [a] 0
  simpa using this

/-- What a successful `EntityFactory::getEntity` did. -/
theorem getEntity_ok (f : EntityFactory) (data : EntityData) (ctx : EntityFactoryContext)
    (allow : Bool) (w : World) (e : EntityRef) (ctx1 : EntityFactoryContext)
    (h : f.getEntity data ctx allow w = .ok (e, ctx1)) :
    data.getInstanceUUID.isValid = true ∧
    ((∃ x, e = some x ∧ ctx1 = ctx ∧ ctx.getEntity w data.getInstanceUUID false = some x)
    ∨ (∃ x, e = some x ∧ ctx1 = ctx.addEntity x ∧ allow = true
        ∧ ctx.getEntity w data.getInstanceUUID false = none
        ∧ w.findEntity data.getInstanceUUID true = some x)
    ∨ (e = none ∧ ctx1 = ctx ∧ ctx.getEntity w data.getInstanceUUID false = none
        ∧ (allow = false ∨ w.findEntity data.getInstanceUUID true = none))) := by
  unfold EntityFactory.getEntity at h
  cases hv : data.getInstanceUUID.isValid with
  | false => simp [hv] at h
  | true =>
    refine ⟨rfl, ?_⟩
    simp only [hv, Bool.not_true, Bool.false_eq_true, if_false] at h
    cases hc : ctx.getEntity w data.getInstanceUUID false with
    | some x =>
      simp only [hc, Except.ok.injEq, Prod.mk.injEq] at h
      exact Or.inl ⟨x, h.1.symm, h.2.symm, rfl⟩
    | none =>
      simp only [hc] at h
      cases allow with
      | false =>
        simp only [Bool.false_eq_true, if_false, Except.ok.injEq, Prod.mk.injEq] at h
        exact Or.inr (Or.inr ⟨h.1.symm, h.2.symm, rfl, Or.inl rfl⟩)
      | true =>
        simp only [if_true] at h
        cases hw : w.findEntity data.getInstanceUUID true with
        | some x =>
          simp only [hw, Except.ok.injEq, Prod.mk.injEq] at h
          exact Or.inr (Or.inl ⟨x, h.1.symm, h.2.symm, rfl, rfl, rfl⟩)
        | none =>
          simp only [hw, Except.ok.injEq, Prod.mk.injEq] at h
          exact Or.inr (Or.inr ⟨h.1.symm, h.2.symm, rfl, Or.inr rfl⟩)

/-- What a successful `instantiateEntity` did: it returned an existing entity
and left the world alone, or created one. -/
theorem instantiateEntity_ok (f : EntityFactory) (data : EntityData) (ctx : EntityFactoryContext)
    (allow : Bool) (w : World) (e : EntityRef) (ctx1 : EntityFactoryContext) (w1 : World)
    (h : f.instantiateEntity data ctx allow w = .ok (e, ctx1, w1)) :
    (∃ x, e = some x ∧ w1 = w ∧ f.getEntity data ctx allow w = .ok (some x, ctx1))
    ∨ (f.getEntity data ctx allow w = .ok (none, ctx)
        ∧ e = some w.entities.length
        ∧ ctx1 = ctx.addEntity w.entities.length
        ∧ w1.entities = w.entities ++
            [{ World.freshEntity data.getInstanceUUID data.getName ctx.getPrefab.isSome
                data.getPrefabUUID with prefab := ctx.getPrefab }]
        ∧ w1.log = w.log) := by
  unfold EntityFactory.instantiateEntity at h
  cases hg : f.getEntity data ctx allow w with
  | error err => simp [hg] at h
  | ok r =>
    obtain ⟨e0, ctx0⟩ := r
    cases e0 with
    | some x =>
      simp only [hg, Except.ok.injEq, Prod.mk.injEq] at h
      exact Or.inl ⟨x, h.1.symm, h.2.2.symm, by rw [h.2.1]⟩
    | none =>
      have hk := getEntity_ok f data ctx allow w none ctx0 hg
      have hctx : ctx0 = ctx := by
        rcases hk.2 with ⟨x, hx, _⟩ | ⟨x, hx, _⟩ | ⟨_, hc, _⟩
        · simp at hx
        · simp at hx
        · exact hc
      subst hctx
      simp only [hg, World.createEntity_none, Except.ok.injEq, Prod.mk.injEq] at h
      refine Or.inr ⟨rfl, h.1.symm, h.2.1.symm, ?_, ?_⟩
      · rw [← h.2.2]
        cases hp : ctx0.getPrefab with
        | none => simp [hp, World.freshEntity]
        | some p =>
          simp [hp, World.setPrefab, World.modify, World.freshEntity, List.modify_length_concat]
      · rw [← h.2.2]
        cases hp : ctx0.getPrefab with
        | none => simp [hp]
        | some p => simp [hp, World.setPrefab, World.modify]

theorem getEntity_ctx_prefix (f : EntityFactory) (data : EntityData) (ctx : EntityFactoryContext)
    (allow : Bool) (w : World) (e : EntityRef) (ctx1 : EntityFactoryContext)
    (h : f.getEntity data ctx allow w = .ok (e, ctx1)) :
    ctx.entities <+: ctx1.entities ∧ ctx1.prefab = ctx.prefab ∧ ctx1.type = ctx.type := by
  rcases (getEntity_ok f data ctx allow w e ctx1 h).2 with
    ⟨x, _, hc, _⟩ | ⟨x, _, hc, _⟩ | ⟨_, hc, _⟩
  · subst hc
    exact ⟨List.prefix_refl _, rfl, rfl⟩
  · subst hc
    exact ⟨List.prefix_append _ _, rfl, rfl⟩
  · subst hc
    exact ⟨List.prefix_refl _, rfl, rfl⟩

/-- The pass of `instantiateEntity` only adds: the identities of the world
and the entities of the context are extended at the end. -/
theorem instantiateEntity_extends (f : EntityFactory) (data : EntityData)
    (ctx : EntityFactoryContext) (allow : Bool) (w : World) (e : EntityRef)
    (ctx1 : EntityFactoryContext) (w1 : World)
    (h : f.instantiateEntity data ctx allow w = .ok (e, ctx1, w1)) :
    w.ids <+: w1.ids ∧ ctx.entities <+: ctx1.entities ∧ ctx1.prefab = ctx.prefab
      ∧ ctx1.type = ctx.type := by
  rcases instantiateEntity_ok f data ctx allow w e ctx1 w1 h with
    ⟨x, _, hw, hg⟩ | ⟨_, _, hc, hw, _⟩
  · rw [hw]
    exact ⟨List.prefix_refl _, getEntity_ctx_prefix f data ctx allow w _ ctx1 hg⟩
  · subst hc
    refine ⟨?_, List.prefix_append _ _, rfl, rfl⟩
    simp only [World.ids, hw, List.map_append]
    exact List.prefix_append _ _

mutual
/-- The pre-pass only adds to the world's identities and to the context. -/
theorem preInstantiateEntities_extends (f : EntityFactory) :
    ∀ (data : EntityData) (ctx : EntityFactoryContext) (depth : Nat) (w : World)
      (ctx1 : EntityFactoryContext) (w1 : World),
      f.preInstantiateEntities data ctx depth w = .ok (ctx1, w1) →
      w.ids <+: w1.ids ∧ ctx.entities <+: ctx1.entities ∧ ctx1.prefab = ctx.prefab
        ∧ ctx1.type = ctx.type
  | .mk n p i q r c cs, ctx, depth, w, ctx1, w1, h => by
    unfold EntityFactory.preInstantiateEntities at h
    cases hi : f.instantiateEntity (.mk n p i q r c cs) ctx (depth == 0) w with
    | error err => simp [hi] at h
    | ok res =>
      obtain ⟨e, ctx0, w0⟩ := res
      simp only [hi] at h
      have h1 := instantiateEntity_extends f _ ctx _ w e ctx0 w0 hi
      have h2 := preInstantiateChildren_extends f cs ctx0 (depth + 1) w0 ctx1 w1 h
      exact ⟨h1.1.trans h2.1, h1.2.1.trans h2.2.1, h2.2.2.1.trans h1.2.2.1,
        h2.2.2.2.trans h1.2.2.2⟩
/-- The pre-pass over a forest only adds to the world's identities and to the
context. -/
theorem preInstantiateChildren_extends (f : EntityFactory) :
    ∀ (cs : List EntityData) (ctx : EntityFactoryContext) (depth : Nat) (w : World)
      (ctx1 : EntityFactoryContext) (w1 : World),
      f.preInstantiateChildren cs ctx depth w = .ok (ctx1, w1) →
      w.ids <+: w1.ids ∧ ctx.entities <+: ctx1.entities ∧ ctx1.prefab = ctx.prefab
        ∧ ctx1.type = ctx.type
  | [], ctx, depth, w, ctx1, w1, h => by
    simp only [EntityFactory.preInstantiateChildren, Except.ok.injEq, Prod.mk.injEq] at h
    obtain ⟨hc, hw⟩ := h
    subst hc
    subst hw
    exact ⟨List.prefix_refl _, List.prefix_refl _, rfl, rfl⟩
  | child :: rest, ctx, depth, w, ctx1, w1, h => by
    unfold EntityFactory.preInstantiateChildren at h
    cases hi : f.preInstantiateEntities child ctx depth w with
    | error err => simp [hi] at h
    | ok res =>
      obtain ⟨ctx0, w0⟩ := res
      simp only [hi] at h
      have h1 := preInstantiateEntities_extends f child ctx depth w ctx0 w0 hi
      have h2 := preInstantiateChildren_extends f rest ctx0 depth w0 ctx1 w1 h
      exact ⟨h1.1.trans h2.1, h1.2.1.trans h2.2.1, h2.2.2.1.trans h1.2.2.1,
        h2.2.2.2.trans h1.2.2.2⟩
end


theorem updateEntityComponents_ids (f : EntityFactory) (entity : EntityId) (data : EntityData)
    (ctx : EntityFactoryContext) (w : World) :
    (f.updateEntityComponents entity data ctx w).ids = w.ids := by
  unfold EntityFactory.updateEntityComponents updateEntityComponentsWith
  generalize data.getComponents = cs
  induction cs generalizing w with
  | nil => rfl
  | cons c cs ih => simp [List.foldl_cons, ih, World.ids_createComponent]

theorem updateEntityChildrenWith_extends (tree : TreeUpdater) (htree : TreeExtends tree)
    (entity : EntityRef) :
    ∀ (cs : List EntityData) (ctx : EntityFactoryContext) (w : World)
      (ctx1 : EntityFactoryContext) (w1 : World),
      updateEntityChildrenWith tree entity cs ctx w = .ok (ctx1, w1) → w.ids <+: w1.ids := by
  intro cs
  induction cs with
  | nil =>
    intro ctx w ctx1 w1 h
    simp only [updateEntityChildrenWith, Except.ok.injEq, Prod.mk.injEq] at h
    rw [h.2]
  | cons child rest ih =>
    intro ctx w ctx1 w1 h
    unfold updateEntityChildrenWith at h
    cases ht : tree child entity (some ctx) w with
    | error err => simp [ht] at h
    | ok res =>
      obtain ⟨e, c0, w0⟩ := res
      simp only [ht] at h
      exact (htree _ _ _ _ _ _ _ ht).trans (ih _ _ _ _ h)

/-- What a successful `updateEntityNode` did. -/
theorem updateEntityNodeWith_ok (f : EntityFactory) (tree : TreeUpdater) (data : EntityData)
    (parent : EntityRef) (ctx : EntityFactoryContext) (w : World) (e : EntityRef)
    (ctx2 : EntityFactoryContext) (w3 : World)
    (h : updateEntityNodeWith f tree data parent ctx w = .ok (e, ctx2, w3)) :
    ∃ x, e = some x ∧ f.getEntity data ctx false w = .ok (some x, ctx)
      ∧ updateEntityChildrenWith tree (some x) data.getChildren ctx
          (f.updateEntityComponents x data ctx (w.setParent x parent)) = .ok (ctx2, w3) := by
  unfold updateEntityNodeWith at h
  cases hg : f.getEntity data ctx false w with
  | error err => simp [hg] at h
  | ok res =>
    obtain ⟨e0, ctx0⟩ := res
    cases e0 with
    | none => simp [hg] at h
    | some x =>
      have hctx : ctx0 = ctx := by
        rcases (getEntity_ok f data ctx false w _ ctx0 hg).2 with
          ⟨_, _, hc, _⟩ | ⟨_, _, _, ha, _⟩ | ⟨_, hc, _⟩
        · exact hc
        · simp at ha
        · exact hc
      subst hctx
      simp only [hg] at h
      cases hc : updateEntityChildrenWith tree (some x) data.getChildren ctx0
          (f.updateEntityComponents x data ctx0 (w.setParent x parent)) with
      | error err => simp [hc] at h
      | ok res2 =>
        obtain ⟨c2, w2⟩ := res2
        simp only [hc, Except.ok.injEq, Prod.mk.injEq] at h
        exact ⟨x, h.1.symm, rfl, by rw [← h.2.1, ← h.2.2]; exact hc⟩

theorem updateEntityNodeWith_extends (f : EntityFactory) (tree : TreeUpdater)
    (htree : TreeExtends tree) (data : EntityData) (parent : EntityRef)
    (ctx : EntityFactoryContext) (w : World) (e : EntityRef) (ctx2 : EntityFactoryContext)
    (w3 : World) (h : updateEntityNodeWith f tree data parent ctx w = .ok (e, ctx2, w3)) :
    w.ids <+: w3.ids := by
  obtain ⟨x, _, _, hc⟩ := updateEntityNodeWith_ok f tree data parent ctx w e ctx2 w3 h
  have := updateEntityChildrenWith_extends tree htree _ _ _ _ _ _ hc
  rwa [updateEntityComponents_ids, World.ids_setParent] at this

/-- What a successful `updateEntityTree` did. -/
theorem updateEntityTree_ok (f : EntityFactory) (fuel : Nat) (data : EntityData)
    (parent : EntityRef) (context : Option EntityFactoryContext) (w : World) (e : EntityRef)
    (cout : Option EntityFactoryContext) (w2 : World)
    (h : f.updateEntityTree (fuel + 1) data parent context w = .ok (e, cout, w2)) :
    (∃ ctx ctx1, context = some ctx ∧ needsNewContext data context = false ∧ cout = some ctx1
      ∧ updateEntityNodeWith f (f.updateEntityTree fuel) data parent ctx w = .ok (e, ctx1, w2))
    ∨ (needsNewContext data context = true ∧ cout = context ∧
        ∃ ctx1 w1 ctx2,
          f.preInstantiateEntities (f.instanceData data w)
            (EntityFactoryContext.new .Prefab (f.getPrefab data.getPrefab w).1) 0
            (f.getPrefab data.getPrefab w).2 = .ok (ctx1, w1)
          ∧ updateEntityNodeWith f (f.updateEntityTree fuel) (f.instanceData data w)
              parent ctx1 w1 = .ok (e, ctx2, w2)) := by
  have hnew : (match f.preInstantiateEntities (f.instanceData data w)
        (EntityFactoryContext.new .Prefab (f.getPrefab data.getPrefab w).1) 0
        (f.getPrefab data.getPrefab w).2 with
      | .error err => .error err
      | .ok (ctx1, w1) =>
        match updateEntityNodeWith f (f.updateEntityTree fuel) (f.instanceData data w)
            parent ctx1 w1 with
        | .error err => .error err
        | .ok (e, _, w2) => .ok (e, context, w2)) = Except.ok (e, cout, w2) →
      cout = context ∧ ∃ ctx1 w1 ctx2,
          f.preInstantiateEntities (f.instanceData data w)
            (EntityFactoryContext.new .Prefab (f.getPrefab data.getPrefab w).1) 0
            (f.getPrefab data.getPrefab w).2 = .ok (ctx1, w1)
          ∧ updateEntityNodeWith f (f.updateEntityTree fuel) (f.instanceData data w)
              parent ctx1 w1 = .ok (e, ctx2, w2) := by
    intro h
    cases hp : f.preInstantiateEntities (f.instanceData data w)
        (EntityFactoryContext.new .Prefab (f.getPrefab data.getPrefab w).1) 0
        (f.getPrefab data.getPrefab w).2 with
    | error err => simp [hp] at h
    | ok res =>
      obtain ⟨ctx1, w1⟩ := res
      simp only [hp] at h
      cases hu : updateEntityNodeWith f (f.updateEntityTree fuel) (f.instanceData data w)
          parent ctx1 w1 with
      | error err => simp [hu] at h
      | ok res2 =>
        obtain ⟨e0, c0, w0⟩ := res2
        simp only [hu, Except.ok.injEq, Prod.mk.injEq] at h
        refine ⟨h.2.1.symm, ctx1, w1, c0, rfl, ?_⟩
        rw [← h.1, ← h.2.2]
        exact hu
  cases context with
  | none =>
    refine Or.inr ⟨by simp [needsNewContext], ?_⟩
    exact hnew (by simpa [updateEntityTree, EntityFactory.instanceData] using h)
  | some ctx =>
    cases hn : needsNewContext data (some ctx) with
    | true =>
      refine Or.inr ⟨rfl, ?_⟩
      exact hnew (by simpa [updateEntityTree, EntityFactory.instanceData, hn] using h)
    | false =>
      refine Or.inl ?_
      simp only [updateEntityTree, hn] at h
      cases hu : updateEntityNodeWith f (f.updateEntityTree fuel) data parent ctx w with
      | error err => simp [hu] at h
      | ok res =>
        obtain ⟨e0, c0, w0⟩ := res
        simp only [hu, Except.ok.injEq, Prod.mk.injEq] at h
        refine ⟨ctx, c0, rfl, rfl, h.2.1.symm, ?_⟩
        rw [← h.1, ← h.2.2]
        exact hu

/-- The population of a tree, at any fuel, only adds to the world's
identities. -/
theorem updateEntityTree_extends (f : EntityFactory) :
    ∀ fuel, TreeExtends (f.updateEntityTree fuel) := by
  intro fuel
  induction fuel with
  | zero =>
    intro data parent context w e ctx1 w1 h
    simp [updateEntityTree] at h
  | succ fuel ih =>
    intro data parent context w e cout w2 h
    rcases updateEntityTree_ok f fuel data parent context w e cout w2 h with
      ⟨ctx, ctx1, _, _, _, hu⟩ | ⟨_, _, ctx1, w1, ctx2, hp, hu⟩
    · exact updateEntityNodeWith_extends f _ ih _ _ _ _ _ _ _ hu
    · have h1 := (preInstantiateEntities_extends f _ _ _ _ _ _ hp).1
      rw [getPrefab_ids] at h1
      exact h1.trans (updateEntityNodeWith_extends f _ ih _ _ _ _ _ _ _ hu)

/-- Without world lookup `instantiateEntity` either changes nothing, or
creates the entity of the data's instance UUID and registers it. -/
theorem instantiateEntity_noLookup (f : EntityFactory) (data : EntityData)
    (ctx : EntityFactoryContext) (w : World) (e : EntityRef) (ctx1 : EntityFactoryContext)
    (w1 : World) (h : f.instantiateEntity data ctx false w = .ok (e, ctx1, w1)) :
    (ctx1 = ctx ∧ w1 = w)
    ∨ (ctx1.entities = ctx.entities ++ [w.entities.length]
        ∧ w1.getInstanceUUID w.entities.length = some data.getInstanceUUID) := by
  rcases instantiateEntity_ok f data ctx false w e ctx1 w1 h with
    ⟨x, _, hw, hg⟩ | ⟨_, _, hc, hw, _⟩
  · refine Or.inl ⟨?_, hw⟩
    rcases (getEntity_ok f data ctx false w _ ctx1 hg).2 with
      ⟨_, _, hc, _⟩ | ⟨_, _, _, ha, _⟩ | ⟨_, hc, _⟩
    · exact hc
    · simp at ha
    · exact hc
  · refine Or.inr ⟨by rw [hc]; rfl, ?_⟩
    simp [World.getInstanceUUID, World.get?, hw, World.freshEntity]

mutual
/-- Below the root, every entity that the pre-pass registers carries the
instance UUID of a node of the tree. -/
theorem preInstantiateEntities_registered (f : EntityFactory) (P : UUID → Prop) :
    ∀ (data : EntityData) (ctx : EntityFactoryContext) (k : Nat) (w : World)
      (ctx1 : EntityFactoryContext) (w1 : World),
      f.preInstantiateEntities data ctx (k + 1) w = .ok (ctx1, w1) →
      (∀ n ∈ data.nodes, P n.getInstanceUUID) →
      ∀ e ∈ ctx1.entities, e ∈ ctx.entities ∨ ∃ u, P u ∧ w1.getInstanceUUID e = some u
  | .mk n p i q r c cs, ctx, k, w, ctx1, w1, h, hP => by
    unfold EntityFactory.preInstantiateEntities at h
    have hk : (k + 1 == 0) = false := by simp
    try simp only [hk] at h
    cases hi : f.instantiateEntity (.mk n p i q r c cs) ctx false w with
    | error err => simp [hi] at h
    | ok res =>
      obtain ⟨e0, ctx0, w0⟩ := res
      simp only [hi] at h
      have hch := preInstantiateChildren_registered f P cs ctx0 (k + 1) w0 ctx1 w1 h
        (fun m hm => hP m (by simp [EntityData.nodes, hm]))
      have hext := (preInstantiateChildren_extends f cs ctx0 (k + 1 + 1) w0 ctx1 w1 h).1
      intro e he
      rcases hch e he with he0 | hu
      · rcases instantiateEntity_noLookup f _ ctx w e0 ctx0 w0 hi with ⟨hc, _⟩ | ⟨hc, hu⟩
        · rw [hc] at he0
          exact Or.inl he0
        · rw [hc, List.mem_append, List.mem_singleton] at he0
          rcases he0 with he0 | he0
          · exact Or.inl he0
          · refine Or.inr ⟨i, ?_, ?_⟩
            · simpa using hP (.mk n p i q r c cs) (by simp [EntityData.nodes])
            · rw [he0]
              exact World.getInstanceUUID_of_extends hext (by simpa using hu)
      · exact Or.inr hu
/-- The forest version of `preInstantiateEntities_registered`. -/
theorem preInstantiateChildren_registered (f : EntityFactory) (P : UUID → Prop) :
    ∀ (cs : List EntityData) (ctx : EntityFactoryContext) (k : Nat) (w : World)
      (ctx1 : EntityFactoryContext) (w1 : World),
      f.preInstantiateChildren cs ctx (k + 1) w = .ok (ctx1, w1) →
      (∀ n ∈ EntityData.nodesList cs, P n.getInstanceUUID) →
      ∀ e ∈ ctx1.entities, e ∈ ctx.entities ∨ ∃ u, P u ∧ w1.getInstanceUUID e = some u
  | [], ctx, k, w, ctx1, w1, h, _ => by
    simp only [EntityFactory.preInstantiateChildren, Except.ok.injEq, Prod.mk.injEq] at h
    intro e he
    rw [← h.1] at he
    exact Or.inl he
  | child :: rest, ctx, k, w, ctx1, w1, h, hP => by
    unfold EntityFactory.preInstantiateChildren at h
    cases hi : f.preInstantiateEntities child ctx (k + 1) w with
    | error err => simp [hi] at h
    | ok res =>
      obtain ⟨ctx0, w0⟩ := res
      simp only [hi] at h
      have h1 := preInstantiateEntities_registered f P child ctx k w ctx0 w0 hi
        (fun m hm => hP m (by simp [EntityData.nodesList, hm]))
      have h2 := preInstantiateChildren_registered f P rest ctx0 k w0 ctx1 w1 h
        (fun m hm => hP m (by simp [EntityData.nodesList, hm]))
      have hext := (preInstantiateChildren_extends f rest ctx0 (k + 1) w0 ctx1 w1 h).1
      intro e he
      rcases h2 e he with he0 | hu
      · rcases h1 e he0 with he1 | ⟨u, hPu, hu⟩
        · exact Or.inl he1
        · exact Or.inr ⟨u, hPu, World.getInstanceUUID_of_extends hext hu⟩
      · exact Or.inr hu
end


/-- The context lookup of an empty context finds nothing. -/
theorem EntityFactoryContext.getEntity_new (t : EntitySerializationType) (p : Option Prefab)
    (w : World) (u : UUID) (b : Bool) :
    (EntityFactoryContext.new t p).getEntity w u b = none := by
  unfold EntityFactoryContext.getEntity EntityFactoryContext.new
  split <;> simp

/-- An entity found by the context lookup on instance UUID is registered and
has that instance UUID. -/
theorem EntityFactoryContext.getEntity_some (ctx : EntityFactoryContext) (w : World) (u : UUID)
    (x : EntityId) (h : ctx.getEntity w u false = some x) :
    x ∈ ctx.entities ∧ w.getInstanceUUID x = some u := by
  unfold EntityFactoryContext.getEntity at h
  split at h
  · simp at h
  · refine ⟨List.mem_of_find?_eq_some h, ?_⟩
    have := List.find?_some h
    simpa [EntityFactoryContext.isMatch] using this

/-! ## C2: instantiating the same data again -/

/-- An instance UUID that the world lookup did not find is found on the
entity appended with it. -/
theorem World.findEntity_appended {w w0 : World} {u q : UUID} {b : Bool}
    (hnone : w.findEntity u b = none) (hids : w0.ids = w.ids ++ [(u, q)]) :
    w0.findEntity u b = some w.entities.length := by
  rw [World.findEntity_ids] at hnone ⊢
  rw [hids, List.findIdx?_append, hnone]
  simp [List.findIdx?_cons, World.length_ids]

/-- The pre-pass of a new context resolves the root to an entity `r` that the
world lookup finds afterwards; `r` is the entity the world lookup found before
when there was one; every registered entity other than `r` carries the
instance UUID of a descendant. -/
theorem preInstantiateEntities_root (f : EntityFactory) (data : EntityData)
    (prefab : Option Prefab) (w : World) (ctxA : EntityFactoryContext) (wA : World)
    (h : f.preInstantiateEntities data (EntityFactoryContext.new .Prefab prefab) 0 w
      = .ok (ctxA, wA)) :
    ∃ r, (∀ e ∈ ctxA.entities, e = r ∨
            ∃ n ∈ EntityData.nodesList data.getChildren,
              wA.getInstanceUUID e = some n.getInstanceUUID)
      ∧ wA.findEntity data.getInstanceUUID true = some r
      ∧ (∀ r0, w.findEntity data.getInstanceUUID true = some r0 → r0 = r)
      ∧ (data.getChildren = [] → w.findEntity data.getInstanceUUID true = some r → wA = w) := by
  obtain ⟨n, p, i, q, pr, c, cs⟩ := data
  unfold EntityFactory.preInstantiateEntities at h
  have hk : (0 == 0) = true := rfl
  try simp only [hk] at h
  cases hi : f.instantiateEntity (.mk n p i q pr c cs) (EntityFactoryContext.new .Prefab prefab)
      true w with
  | error err => simp [hi] at h
  | ok res =>
    obtain ⟨e0, ctx0, w0⟩ := res
    simp only [hi] at h
    have hext := (preInstantiateChildren_extends f cs ctx0 _ w0 ctxA wA h).1
    have hreg := preInstantiateChildren_registered f
      (fun u => ∃ m ∈ EntityData.nodesList cs, m.getInstanceUUID = u) cs ctx0 0 w0 ctxA wA h
      (fun m hm => ⟨m, hm, rfl⟩)
    have hnil : cs = [] → wA = w0 := by
      intro hcs
      subst hcs
      simp only [EntityFactory.preInstantiateChildren, Except.ok.injEq, Prod.mk.injEq] at h
      exact h.2.symm
    simp only [EntityData.getChildren_mk, EntityData.getInstanceUUID_mk]
    have key : ∃ r, ctx0.entities = [r] ∧ w0.findEntity i true = some r
        ∧ (∀ r0, w.findEntity i true = some r0 → r0 = r)
        ∧ (w.findEntity i true = some r → w0 = w) := by
      rcases instantiateEntity_ok f _ _ true w e0 ctx0 w0 hi with
        ⟨x, _, hw, hg⟩ | ⟨hg, _, hc, hw, _⟩
      · rcases (getEntity_ok f _ _ true w _ ctx0 hg).2 with
          ⟨_, _, _, hc⟩ | ⟨y, hy, hc, _, _, hf⟩ | ⟨hy, _⟩
        · simp [EntityFactoryContext.getEntity_new] at hc
        · simp only [Option.some.injEq] at hy
          subst hy
          simp only [EntityData.getInstanceUUID_mk] at hf
          refine ⟨x, by rw [hc]; rfl, by rw [hw]; exact hf, ?_, fun _ => hw⟩
          intro r0 hr0
          rw [hf] at hr0
          exact (Option.some.inj hr0).symm
        · simp at hy
      · have hnone : w.findEntity i true = none := by
          rcases (getEntity_ok f _ _ true w _ _ hg).2 with
            ⟨_, hy, _⟩ | ⟨_, hy, _⟩ | ⟨_, _, _, hf⟩
          · simp at hy
          · simp at hy
          · rcases hf with hf | hf
            · simp at hf
            · simpa using hf
        refine ⟨w.entities.length, by rw [hc]; rfl, ?_, ?_, ?_⟩
        · exact World.findEntity_appended (q := q) hnone
            (by simp [World.ids, hw, World.freshEntity])
        · intro r0 hr0
          simp [hnone] at hr0
        · intro hr
          simp [hnone] at hr
    obtain ⟨r, hctx, hfind, huniq, hsame⟩ := key
    refine ⟨r, ?_, World.findEntity_of_extends hext hfind, huniq, ?_⟩
    · intro e he
      rcases hreg e he with he0 | ⟨u, ⟨m, hm, hmu⟩, hu⟩
      · rw [hctx, List.mem_singleton] at he0
        exact Or.inl he0
      · exact Or.inr ⟨m, hm, by rw [hmu]; exact hu⟩
    · intro hcs hr
      rw [hnil hcs]
      exact hsame hr

/-- A successful `createEntity` returns the entity `r` to which the pre-pass
resolved the root, provided no descendant repeats the root's instance UUID:
the world lookup finds `r` afterwards, and `r` is the entity the world lookup
found before when there was one; in that case a tree without children leaves
the number of entities unchanged. -/
theorem createEntity_root (f : EntityFactory) (fuel : Nat) (data : EntityData)
    (parent : EntityRef) (w : World) (e : EntityRef) (w2 : World)
    (hroot : ∀ n ∈ EntityData.nodesList (f.instanceData data w).getChildren,
      n.getInstanceUUID ≠ (f.instanceData data w).getInstanceUUID)
    (h : f.createEntity fuel data parent w = .ok (e, w2)) :
    ∃ r, e = some r
      ∧ w2.findEntity (f.instanceData data w).getInstanceUUID true = some r
      ∧ (∀ r0, w.findEntity (f.instanceData data w).getInstanceUUID true = some r0 → r0 = r)
      ∧ ((f.instanceData data w).getChildren = [] →
          w.findEntity (f.instanceData data w).getInstanceUUID true = some r →
          w2.entities.length = w.entities.length) := by
  cases fuel with
  | zero => simp [createEntity, updateEntityTree] at h
  | succ k =>
    unfold createEntity at h
    cases ht : f.updateEntityTree (k + 1) data parent none w with
    | error err => simp [ht] at h
    | ok res =>
      obtain ⟨e0, c0, w0⟩ := res
      simp only [ht, Except.ok.injEq, Prod.mk.injEq] at h
      obtain ⟨he, hw⟩ := h
      subst he
      subst hw
      rcases updateEntityTree_ok f k data parent none w e0 c0 w0 ht with
        ⟨ctx, _, hc, _⟩ | ⟨_, _, ctxA, wA, ctx2, hp, hu⟩
      · simp at hc
      · obtain ⟨r, hreg, hfind, huniq, hsame⟩ :=
          preInstantiateEntities_root f _ _ _ ctxA wA hp
        obtain ⟨x, hx, hg, hch⟩ := updateEntityNodeWith_ok f _ _ parent ctxA wA e0 ctx2 w0 hu
        have hxr : x = r := by
          rcases (getEntity_ok f _ ctxA false wA _ ctxA hg).2 with
            ⟨y, hy, _, hc⟩ | ⟨_, _, _, ha, _⟩ | ⟨hy, _⟩
          · simp only [Option.some.injEq] at hy
            subst hy
            obtain ⟨hmem, huuid⟩ := EntityFactoryContext.getEntity_some ctxA wA _ x hc
            rcases hreg x hmem with hr | ⟨m, hm, hmu⟩
            · exact hr
            · rw [huuid] at hmu
              exact absurd (Option.some.inj hmu).symm (hroot m hm)
          · simp at ha
          · simp at hy
        subst hxr
        have hfw : ∀ u b, (f.getPrefab data.getPrefab w).2.findEntity u b = w.findEntity u b := by
          intro u b
          rw [World.findEntity_ids, World.findEntity_ids, getPrefab_ids]
        rw [hfw] at huniq hsame
        have hext := updateEntityNodeWith_extends f _ (updateEntityTree_extends f k)
          _ parent ctxA wA e0 ctx2 w0 hu
        refine ⟨x, hx, World.findEntity_of_extends hext hfind, huniq, ?_⟩
        intro hcs hr
        have hwA := hsame hcs hr
        rw [hcs] at hch
        simp only [updateEntityChildrenWith, Except.ok.injEq, Prod.mk.injEq] at hch
        rw [← World.length_ids, ← World.length_ids, ← hch.2, updateEntityComponents_ids,
          World.ids_setParent, hwA, getPrefab_ids]

theorem instanceData_world (f : EntityFactory) (data : EntityData) (w w2 : World) :
    f.instanceData data w = f.instanceData data w2 := by
  unfold EntityFactory.instanceData
  rw [getPrefab_fst f data.getPrefab w w2]

/-- Two successful instantiations of the same data in a row resolve the root
to the same entity, which was live before the second; a tree without children
leaves the number of entities unchanged the second time. -/
theorem createEntity_twice_root (f : EntityFactory) (fuel1 fuel2 : Nat) (data : EntityData)
    (parent1 parent2 : EntityRef) (w0 w1 w2 : World) (e1 e2 : EntityRef)
    (hroot : ∀ n ∈ EntityData.nodesList (f.instanceData data w0).getChildren,
      n.getInstanceUUID ≠ (f.instanceData data w0).getInstanceUUID)
    (h1 : f.createEntity fuel1 data parent1 w0 = .ok (e1, w1))
    (h2 : f.createEntity fuel2 data parent2 w1 = .ok (e2, w2)) :
    e2 = e1
    ∧ (∃ r, e2 = some r ∧ r < w1.entities.length)
    ∧ ((f.instanceData data w0).getChildren = [] →
        w2.entities.length = w1.entities.length) := by
  obtain ⟨r1, he1, hf1, _, _⟩ := createEntity_root f fuel1 data parent1 w0 e1 w1 hroot h1
  rw [instanceData_world f data w0 w1] at hroot hf1 ⊢
  obtain ⟨r2, he2, _, hu2, hc2⟩ := createEntity_root f fuel2 data parent2 w1 e2 w2 hroot h2
  have hr : r1 = r2 := hu2 r1 hf1
  subst hr
  refine ⟨by rw [he1, he2], ⟨r1, he2, ?_⟩, fun hcs => hc2 hcs hf1⟩
  rw [World.findEntity_ids] at hf1
  have := List.findIdx?_eq_some_iff_getElem.mp hf1
  obtain ⟨hlt, _⟩ := this
  rwa [World.length_ids] at hlt


/-! ## C4: a prefab instance is populated from the merged data -/

theorem World.get?_modify_same (w : World) (e : EntityId) (g : Entity → Entity) :
    (w.modify e g).get? e = (w.get? e).map g := by
  simp [World.get?, World.modify, List.getElem?_modify]

/-- The component step appends the data's components, in order, to those the
entity has. -/
theorem updateEntityComponents_get? (f : EntityFactory) (x : EntityId) (data : EntityData)
    (ctx : EntityFactoryContext) (w : World) :
    (f.updateEntityComponents x data ctx w).get? x
      = (w.get? x).map (fun ent => { ent with components := ent.components ++ data.getComponents }) := by
  unfold EntityFactory.updateEntityComponents updateEntityComponentsWith
  generalize data.getComponents = cs
  induction cs generalizing w with
  | nil =>
    cases h : w.get? x <;> simp [h]
  | cons c cs ih =>
    rw [List.foldl_cons, ih]
    simp only [World.get?, World.createComponent_entities, List.getElem?_modify]
    cases h : w.entities[x]? <;> simp [h]

theorem getPrefab_existing (f : EntityFactory) (id : String) (w : World) (P : Prefab)
    (hname : id ≠ "") (hP : f.resources id = some P) : f.getPrefab id w = (some P, w) := by
  simp [EntityFactory.getPrefab, hname, hP]

theorem overlayComponents_override (template overrides : List (String × ConfigNode))
    (c : String × ConfigNode) (hc : c ∈ EntityData.overlayComponents template overrides)
    (ho : ∃ o ∈ overrides, o.1 = c.1) : c ∈ overrides := by
  unfold EntityData.overlayComponents at hc
  rw [List.mem_append] at hc
  rcases hc with hc | hc
  · rw [List.mem_map] at hc
    obtain ⟨t, _, ht⟩ := hc
    cases hf : overrides.find? (fun o => o.1 == t.1) with
    | none =>
      simp only [hf] at ht
      subst ht
      obtain ⟨o, ho1, ho2⟩ := ho
      have := List.find?_eq_none.mp hf o ho1
      simp [ho2] at this
    | some o =>
      simp only [hf] at ht
      have h1 := List.find?_some hf
      have h2 := List.mem_of_find?_eq_some hf
      simp only [beq_iff_eq] at h1
      rw [← ht, ← h1]
      exact h2
  · exact (List.mem_filter.mp hc).1

theorem overlayComponents_template (template overrides : List (String × ConfigNode))
    (c : String × ConfigNode) (hc : c ∈ EntityData.overlayComponents template overrides)
    (ho : ¬ ∃ o ∈ overrides, o.1 = c.1) : c ∈ template := by
  unfold EntityData.overlayComponents at hc
  rw [List.mem_append] at hc
  rcases hc with hc | hc
  · rw [List.mem_map] at hc
    obtain ⟨t, htm, ht⟩ := hc
    cases hf : overrides.find? (fun o => o.1 == t.1) with
    | none =>
      simp only [hf] at ht
      rw [← ht]
      exact htm
    | some o =>
      simp only [hf] at ht
      have h1 := List.find?_some hf
      have h2 := List.mem_of_find?_eq_some hf
      simp only [beq_iff_eq] at h1
      exact absurd ⟨o, h2, by rw [← ht]; exact h1⟩ ho
  · exact absurd ⟨c, (List.mem_filter.mp hc).1, rfl⟩ ho

theorem overlayComponents_names (template overrides : List (String × ConfigNode)) :
    (∀ t ∈ template, ∃ c ∈ EntityData.overlayComponents template overrides, c.1 = t.1)
    ∧ (∀ o ∈ overrides, ∃ c ∈ EntityData.overlayComponents template overrides, c.1 = o.1) := by
  have h1 : ∀ t ∈ template, ∃ c ∈ EntityData.overlayComponents template overrides, c.1 = t.1 := by
    intro t ht
    unfold EntityData.overlayComponents
    cases hf : overrides.find? (fun o => o.1 == t.1) with
    | none =>
      exact ⟨t, List.mem_append_left _ (List.mem_map.mpr ⟨t, ht, by simp [hf]⟩), rfl⟩
    | some o =>
      exact ⟨(t.1, o.2), List.mem_append_left _ (List.mem_map.mpr ⟨t, ht, by simp [hf]⟩), rfl⟩
  refine ⟨h1, ?_⟩
  intro o ho
  by_cases hex : ∃ t ∈ template, t.1 = o.1
  · obtain ⟨t, ht, hto⟩ := hex
    obtain ⟨c, hc, hct⟩ := h1 t ht
    exact ⟨c, hc, hct.trans hto⟩
  · refine ⟨o, ?_, rfl⟩
    unfold EntityData.overlayComponents
    refine List.mem_append_right _ (List.mem_filter.mpr ⟨ho, ?_⟩)
    simp only [Bool.not_eq_true', List.any_eq_false, beq_iff_eq]
    intro t ht hto
    exact hex ⟨t, ht, hto⟩


/-- C4: for data naming an existing prefab `P`, `createEntity` pre-instantiates
and populates `P.getEntityData().instantiateWithAsCopy(data)` in a context
holding `P`, not the data itself; on success the component step appends to the
root entity the components of that instance, which are `P`'s components
overlaid with the data's: a component named in the data is attached with a
payload given in the data, a component not named in the data is attached
with `P`'s payload, and every component name of `P` and of the data is
attached. -/
theorem C4_prefab_override_precedence (f : EntityFactory) (fuel : Nat) (data : EntityData)
    (parent : EntityRef) (w : World) (P : Prefab)
    (hname : data.getPrefab ≠ "") (hP : f.resources data.getPrefab = some P) :
    f.createEntity (fuel + 1) data parent w =
      (match f.preInstantiateEntities (P.getEntityData.instantiateWithAsCopy data)
          (EntityFactoryContext.new .Prefab (some P)) 0 w with
       | .error err => .error err
       | .ok (ctx1, w1) =>
         match f.updateEntityNode fuel (P.getEntityData.instantiateWithAsCopy data) parent ctx1 w1 with
         | .error err => .error err
         | .ok (e, _, w2) => .ok (e, w2))
    ∧ (∀ e w2, f.createEntity (fuel + 1) data parent w = .ok (e, w2) →
        ∃ ctx1 w1 x ent ctx2,
          f.preInstantiateEntities (P.getEntityData.instantiateWithAsCopy data)
            (EntityFactoryContext.new .Prefab (some P)) 0 w = .ok (ctx1, w1)
          ∧ e = some x
          ∧ (w1.setParent x parent).get? x = some ent
          ∧ (f.updateEntityComponents x (P.getEntityData.instantiateWithAsCopy data) ctx1
              (w1.setParent x parent)).get? x
            = some { ent with components := ent.components ++
                EntityData.overlayComponents P.getEntityData.getComponents data.getComponents }
          ∧ updateEntityChildrenWith (f.updateEntityTree fuel) (some x)
              (P.getEntityData.instantiateWithAsCopy data).getChildren ctx1
              (f.updateEntityComponents x (P.getEntityData.instantiateWithAsCopy data) ctx1
                (w1.setParent x parent)) = .ok (ctx2, w2))
    ∧ (∀ c ∈ EntityData.overlayComponents P.getEntityData.getComponents data.getComponents,
        (∃ o ∈ data.getComponents, o.1 = c.1) → c ∈ data.getComponents)
    ∧ (∀ c ∈ EntityData.overlayComponents P.getEntityData.getComponents data.getComponents,
        (¬ ∃ o ∈ data.getComponents, o.1 = c.1) → c ∈ P.getEntityData.getComponents)
    ∧ (∀ t ∈ P.getEntityData.getComponents,
        ∃ c ∈ EntityData.overlayComponents P.getEntityData.getComponents data.getComponents,
          c.1 = t.1)
    ∧ (∀ o ∈ data.getComponents,
        ∃ c ∈ EntityData.overlayComponents P.getEntityData.getComponents data.getComponents,
          c.1 = o.1) := by
  have hgp := getPrefab_existing f data.getPrefab w P hname hP
  have heq : f.createEntity (fuel + 1) data parent w =
      (match f.preInstantiateEntities (P.getEntityData.instantiateWithAsCopy data)
          (EntityFactoryContext.new .Prefab (some P)) 0 w with
       | .error err => .error err
       | .ok (ctx1, w1) =>
         match f.updateEntityNode fuel (P.getEntityData.instantiateWithAsCopy data) parent ctx1 w1 with
         | .error err => .error err
         | .ok (e, _, w2) => .ok (e, w2)) := by
    simp only [createEntity, updateEntityTree, hgp, updateEntityNode]
    cases f.preInstantiateEntities (P.getEntityData.instantiateWithAsCopy data)
        (EntityFactoryContext.new .Prefab (some P)) 0 w with
    | error err => rfl
    | ok res =>
      obtain ⟨ctx1, w1⟩ := res
      simp only
      cases updateEntityNodeWith f (f.updateEntityTree fuel)
          (P.getEntityData.instantiateWithAsCopy data) parent ctx1 w1 with
      | error err => rfl
      | ok res2 => rfl
  refine ⟨heq, ?_, fun c hc ho => overlayComponents_override _ _ c hc ho,
    fun c hc ho => overlayComponents_template _ _ c hc ho,
    (overlayComponents_names _ _).1, (overlayComponents_names _ _).2⟩
  intro e w2 h
  rw [heq] at h
  cases hp : f.preInstantiateEntities (P.getEntityData.instantiateWithAsCopy data)
      (EntityFactoryContext.new .Prefab (some P)) 0 w with
  | error err => simp [hp] at h
  | ok res =>
    obtain ⟨ctx1, w1⟩ := res
    simp only [hp] at h
    cases hu : f.updateEntityNode fuel (P.getEntityData.instantiateWithAsCopy data) parent ctx1 w1 with
    | error err => simp [hu] at h
    | ok res2 =>
      obtain ⟨e0, c0, w0⟩ := res2
      simp only [hu, Except.ok.injEq, Prod.mk.injEq] at h
      obtain ⟨he, hw⟩ := h
      subst he
      subst hw
      obtain ⟨x, hx, hg, hch⟩ := updateEntityNodeWith_ok f _ _ parent ctx1 w1 e0 c0 w0 hu
      have hlive : ∃ ent, (w1.setParent x parent).get? x = some ent := by
        rcases (getEntity_ok f _ ctx1 false w1 _ ctx1 hg).2 with
          ⟨y, hy, _, hc⟩ | ⟨_, _, _, ha, _⟩ | ⟨hy, _⟩
        · simp only [Option.some.injEq] at hy
          subst hy
          have huuid := (EntityFactoryContext.getEntity_some ctx1 w1 _ x hc).2
          have h2 : (w1.setParent x parent).getInstanceUUID x = some
              (P.getEntityData.instantiateWithAsCopy data).getInstanceUUID := by
            rw [World.getInstanceUUID_ids, World.ids_setParent, ← World.getInstanceUUID_ids]
            exact huuid
          unfold World.getInstanceUUID at h2
          cases hget : (w1.setParent x parent).get? x with
          | none => simp [hget] at h2
          | some ent => exact ⟨ent, rfl⟩
        · simp at ha
        · simp at hy
      obtain ⟨ent, hent⟩ := hlive
      refine ⟨ctx1, w1, x, ent, c0, rfl, hx, hent, ?_, hch⟩
      rw [updateEntityComponents_get?, hent]
      simp [EntityData.instantiateWithAsCopy]

/-- C4 at a concrete input: the prefab "enemy" has Health 100 and Speed 3;
the data overrides Health with 50; the live entity gets Health 50 and
Speed 3. -/
theorem C4_prefab_override_precedence_witness :
    ∃ w2, Sample.enemyFactory.createEntity (0 + 1) Sample.enemyOverride none World.empty
        = .ok (some 0, w2)
      ∧ (w2.get? 0).map Entity.components = some [("Health", 50), ("Speed", 3)]
      ∧ (∀ c ∈ EntityData.overlayComponents Sample.enemyPrefab.getEntityData.getComponents
            Sample.enemyOverride.getComponents,
          (∃ o ∈ Sample.enemyOverride.getComponents, o.1 = c.1) →
            c ∈ Sample.enemyOverride.getComponents) :=
  ⟨_, rfl, rfl,
    (C4_prefab_override_precedence Sample.enemyFactory 0 Sample.enemyOverride none World.empty
      Sample.enemyPrefab (by decide) rfl).2.2.1⟩

/-! ## C3: serialization followed by instantiation -/

theorem World.getInstanceUUID_append_left (w : World) (l : List Entity) (e : EntityId)
    (h : e < w.entities.length) :
    ({ w with entities := w.entities ++ l } : World).getInstanceUUID e = w.getInstanceUUID e := by
  simp [World.getInstanceUUID, World.get?, List.getElem?_append_left h]

theorem World.getInstanceUUID_append_right (w : World) (l : List Entity) (j : Nat) :
    ({ w with entities := w.entities ++ l } : World).getInstanceUUID (w.entities.length + j)
      = (l[j]?).map Entity.instanceUUID := by
  simp [World.getInstanceUUID, World.get?, List.getElem?_append_right]

/-- When no registered entity has the instance UUID asked for, the context
lookup finds nothing. -/
theorem EntityFactoryContext.getEntity_none (ctx : EntityFactoryContext) (w : World) (u : UUID)
    (h : ∀ e ∈ ctx.entities, w.getInstanceUUID e ≠ some u) :
    ctx.getEntity w u false = none := by
  unfold EntityFactoryContext.getEntity
  split
  · rfl
  · rw [List.find?_eq_none]
    intro e he
    simpa [EntityFactoryContext.isMatch] using h e he

/-- When the data's identity is valid and nothing resolves it, and the context
has no prefab, `instantiateEntity` creates the blank entity of the data at the
end of the store and registers it. -/
theorem instantiateEntity_create (f : EntityFactory) (data : EntityData)
    (ctx : EntityFactoryContext) (allow : Bool) (w : World)
    (hprefab : ctx.prefab = none)
    (hvalid : data.getInstanceUUID.isValid = true)
    (hfresh : ∀ e ∈ ctx.entities, w.getInstanceUUID e ≠ some data.getInstanceUUID)
    (hworld : allow = true → w.findEntity data.getInstanceUUID true = none) :
    f.instantiateEntity data ctx allow w
      = .ok (some w.entities.length,
          { ctx with entities := ctx.entities ++ [w.entities.length] },
          { w with entities := w.entities ++ [blank data] }) := by
  have hg : f.getEntity data ctx allow w = .ok (none, ctx) := by
    unfold EntityFactory.getEntity
    simp only [hvalid, Bool.not_true, Bool.false_eq_true, if_false,
      EntityFactoryContext.getEntity_none ctx w _ hfresh]
    cases allow with
    | false => simp
    | true => simp [hworld rfl]
  unfold EntityFactory.instantiateEntity
  simp only [hg, World.createEntity_none]
  simp [EntityFactoryContext.getPrefab, hprefab, EntityFactoryContext.addEntity, blank]


theorem EntityData.nodes_eq (d : EntityData) :
    d.nodes = d :: EntityData.nodesList d.getChildren := by
  cases d
  simp [EntityData.nodes]

theorem EntityData.size_eq (d : EntityData) :
    d.size = (EntityData.nodesList d.getChildren).length + 1 := by
  simp [EntityData.size, EntityData.nodes_eq]

theorem EntityData.size_pos (d : EntityData) : 0 < d.size := by
  rw [EntityData.size_eq]
  omega

mutual
/-- The pre-pass on a tree none of whose identities is resolved yet: one blank
entity per node is appended to the store, in pre-order, and their handles are
registered in that order. -/
theorem preInstantiateEntities_fresh (f : EntityFactory) :
    ∀ (t : EntityData) (ctx : EntityFactoryContext) (depth : Nat) (w : World),
      ctx.prefab = none →
      (∀ n ∈ t.nodes, n.getInstanceUUID.isValid = true) →
      (t.nodes.map EntityData.getInstanceUUID).Nodup →
      (∀ e ∈ ctx.entities, e < w.entities.length) →
      (∀ n ∈ t.nodes, ∀ e ∈ ctx.entities, w.getInstanceUUID e ≠ some n.getInstanceUUID) →
      (depth = 0 → w.findEntity t.getInstanceUUID true = none) →
      f.preInstantiateEntities t ctx depth w
        = .ok ({ ctx with entities := ctx.entities ++ List.range' w.entities.length t.size },
            { w with entities := w.entities ++ t.nodes.map blank })
  | .mk n p i q r c cs, ctx, depth, w, hprefab, hvalid, hnodup, hlive, hfresh, hworld => by
    have hnodes : (EntityData.mk n p i q r c cs).nodes
        = .mk n p i q r c cs :: EntityData.nodesList cs := by simp [EntityData.nodes]
    rw [hnodes] at hvalid hnodup hfresh
    simp only [List.map_cons, List.nodup_cons] at hnodup
    have hinst := instantiateEntity_create f (.mk n p i q r c cs) ctx (depth == 0) w hprefab
      (hvalid _ (List.mem_cons_self _ _))
      (fun e he => hfresh _ (List.mem_cons_self _ _) e he)
      (fun h0 => hworld (by simpa using h0))
    unfold EntityFactory.preInstantiateEntities
    simp only [hinst]
    have hch := preInstantiateChildren_fresh f cs
      { ctx with entities := ctx.entities ++ [w.entities.length] } depth
      { w with entities := w.entities ++ [blank (.mk n p i q r c cs)] } hprefab
      (fun m hm => hvalid m (List.mem_cons_of_mem _ hm)) hnodup.2
      (by
        intro e he
        simp only [List.mem_append, List.mem_singleton] at he
        simp only [List.length_append, List.length_singleton]
        rcases he with he | he
        · exact Nat.lt_succ_of_lt (hlive e he)
        · subst he
          exact Nat.lt_succ_self _)
      (by
        intro m hm e he
        simp only [List.mem_append, List.mem_singleton] at he
        rcases he with he | he
        · rw [World.getInstanceUUID_append_left w _ e (hlive e he)]
          exact hfresh m (List.mem_cons_of_mem _ hm) e he
        · subst he
          have := World.getInstanceUUID_append_right w [blank (.mk n p i q r c cs)] 0
          simp only [Nat.add_zero] at this
          rw [this]
          simp only [List.getElem?_cons_zero, Option.map_some', blank, World.freshEntity,
            EntityData.getInstanceUUID_mk, ne_eq, Option.some.injEq]
          intro hi
          exact hnodup.1 (List.mem_map.mpr ⟨m, hm, hi.symm⟩))
    rw [hch]
    simp only [hnodes, List.map_cons, List.length_append, List.length_singleton,
      List.append_assoc, List.singleton_append]
    have hsize : (EntityData.mk n p i q r c cs).size = (EntityData.nodesList cs).length + 1 := by
      simp [EntityData.size, hnodes]
    rw [hsize, List.range'_succ]
/-- The forest version of `preInstantiateEntities_fresh`, below the root. -/
theorem preInstantiateChildren_fresh (f : EntityFactory) :
    ∀ (cs : List EntityData) (ctx : EntityFactoryContext) (k : Nat) (w : World),
      ctx.prefab = none →
      (∀ n ∈ EntityData.nodesList cs, n.getInstanceUUID.isValid = true) →
      ((EntityData.nodesList cs).map EntityData.getInstanceUUID).Nodup →
      (∀ e ∈ ctx.entities, e < w.entities.length) →
      (∀ n ∈ EntityData.nodesList cs, ∀ e ∈ ctx.entities,
        w.getInstanceUUID e ≠ some n.getInstanceUUID) →
      f.preInstantiateChildren cs ctx (k + 1) w
        = .ok ({ ctx with entities := ctx.entities
                  ++ List.range' w.entities.length (EntityData.nodesList cs).length },
            { w with entities := w.entities ++ (EntityData.nodesList cs).map blank })
  | [], ctx, k, w, _, _, _, _, _ => by
    simp [EntityFactory.preInstantiateChildren, EntityData.nodesList]
  | child :: rest, ctx, k, w, hprefab, hvalid, hnodup, hlive, hfresh => by
    simp only [EntityData.nodesList, List.map_append] at hvalid hnodup hfresh
    rw [List.nodup_append] at hnodup
    obtain ⟨hnd1, hnd2, hdisj⟩ := hnodup
    have h1 := preInstantiateEntities_fresh f child ctx (k + 1) w hprefab
      (fun m hm => hvalid m (List.mem_append_left _ hm)) hnd1 hlive
      (fun m hm e he => hfresh m (List.mem_append_left _ hm) e he)
      (fun h0 => absurd h0 (Nat.succ_ne_zero k))
    unfold EntityFactory.preInstantiateChildren
    simp only [h1]
    have h2 := preInstantiateChildren_fresh f rest
      { ctx with entities := ctx.entities ++ List.range' w.entities.length child.size } k
      { w with entities := w.entities ++ child.nodes.map blank } hprefab
      (fun m hm => hvalid m (List.mem_append_right _ hm)) hnd2
      (by
        intro e he
        simp only [List.mem_append, List.mem_range'_1] at he
        simp only [List.length_append, List.length_map]
        rcases he with he | he
        · exact Nat.lt_of_lt_of_le (hlive e he) (Nat.le_add_right _ _)
        · exact he.2)
      (by
        intro m hm e he
        simp only [List.mem_append, List.mem_range'_1] at he
        rcases he with he | he
        · rw [World.getInstanceUUID_append_left w _ e (hlive e he)]
          exact hfresh m (List.mem_append_right _ hm) e he
        · obtain ⟨j, rfl⟩ := Nat.exists_eq_add_of_le he.1
          rw [World.getInstanceUUID_append_right]
          have hj : j < child.nodes.length := by
            have := he.2
            simp only [EntityData.size] at this
            omega
          simp only [List.getElem?_map, List.getElem?_eq_getElem hj, Option.map_some', blank,
            World.freshEntity, ne_eq, Option.some.injEq]
          intro hi
          exact hdisj (List.mem_map.mpr ⟨_, List.getElem_mem hj, hi⟩)
            (List.mem_map.mpr ⟨m, hm, rfl⟩))
    rw [h2]
    simp only [EntityData.nodesList, List.length_append, List.length_map, List.map_append,
      List.append_assoc, EntityData.size]
    rw [List.range'_append_1, Nat.add_comm]
end

theorem attach_length (A : List Entity) (parent : EntityRef) (a : EntityId) :
    (attach A parent a).length = A.length := by
  cases parent <;> simp [attach]

theorem List.modify_at_length {α : Type} (g : α → α) (A R : List α) (x : α) :
    (A ++ x :: R).modify g A.length = A ++ g x :: R := by
  have := List.modify_append_right g A (x :: R) 0
  simpa using this

theorem List.getElem?_at_length {α : Type} (A R : List α) (x : α) :
    (A ++ x :: R)[A.length]? = some x := by
  rw [List.getElem?_append_right (Nat.le_refl _), Nat.sub_self]
  exact List.getElem?_cons_zero

/-- Attaching a parentless entity under `parent`. -/
theorem World.setParent_parentless (w : World) (A R : List Entity) (x : Entity) (a : EntityId)
    (parent : EntityRef) (hw : w.entities = A ++ x :: R) (ha : A.length = a)
    (hx : x.parent = none) (hp : ∀ b, parent = some b → b < a) :
    (w.setParent a parent).entities = attach A parent a ++ { x with parent := parent } :: R
      ∧ (w.setParent a parent).log = w.log := by
  subst ha
  have hget : w.get? A.length = some x := by
    rw [World.get?, hw, List.getElem?_at_length]
  unfold World.setParent
  simp only [hget, hx]
  cases parent with
  | none =>
    simp only [if_true, attach, hw, true_and, and_true]
    cases x
    simp_all
  | some b =>
    have hb := hp b rfl
    simp only [reduceCtorEq, if_false, World.modify, hw, attach, and_true]
    rw [List.modify_at_length, List.modify_append_left _ _ _ _ hb]

/-- The component step as one update of the entity. -/
theorem updateEntityComponents_eq_modify (f : EntityFactory) (x : EntityId) (data : EntityData)
    (ctx : EntityFactoryContext) (w : World) :
    (f.updateEntityComponents x data ctx w).entities
      = (w.modify x
          (fun e => { e with components := e.components ++ data.getComponents })).entities := by
  unfold EntityFactory.updateEntityComponents updateEntityComponentsWith
  generalize data.getComponents = cs
  induction cs generalizing w with
  | nil =>
    have hid : (fun e : Entity => { e with components := e.components ++ [] }) = id := by
      funext e
      cases e
      simp
    show w.entities = (w.modify x _).entities
    rw [hid]
    simp only [World.modify, List.modify_id]
  | cons c cs ih =>
    rw [List.foldl_cons, ih]
    simp only [World.modify, World.createComponent_entities, List.modify_modify_eq]
    congr 1
    funext e
    simp


theorem getEntity_resolved (f : EntityFactory) (ctx : EntityFactoryContext)
    (I : List (UUID × UUID)) (ns : List EntityData) (a : Nat) (hres : Resolves ctx I ns a)
    (w : World) (hI : w.ids = I) (j : Nat) (n : EntityData) (hn : ns[j]? = some n) :
    f.getEntity n ctx false w = .ok (some (a + j), ctx) := by
  obtain ⟨hv, hfind⟩ := hres j n hn
  have hfun : (fun e => decide (w.getInstanceUUID e = some n.getInstanceUUID))
      = (fun e => decide ((I[e]?).map Prod.fst = some n.getInstanceUUID)) := by
    funext e
    rw [World.getInstanceUUID_ids, hI]
  unfold EntityFactory.getEntity
  simp only [hv, Bool.not_true, Bool.false_eq_true, if_false,
    EntityFactoryContext.getEntity_instance ctx w _ hv, hfun, hfind]

theorem Resolves.tail {ctx : EntityFactoryContext} {I : List (UUID × UUID)} {n : EntityData}
    {ns : List EntityData} {a : Nat} (h : Resolves ctx I (n :: ns) a) :
    Resolves ctx I ns (a + 1) := by
  intro j m hm
  have := h (j + 1) m (by simpa using hm)
  rw [Nat.add_assoc, Nat.add_comm 1 j]
  exact this

theorem Resolves.left {ctx : EntityFactoryContext} {I : List (UUID × UUID)}
    {ns ms : List EntityData} {a : Nat} (h : Resolves ctx I (ns ++ ms) a) :
    Resolves ctx I ns a := by
  intro j m hm
  have hj : j < ns.length := by
    by_contra hc
    rw [List.getElem?_eq_none (Nat.le_of_not_lt hc)] at hm
    simp at hm
  exact h j m (by rw [List.getElem?_append_left hj]; exact hm)

theorem Resolves.right {ctx : EntityFactoryContext} {I : List (UUID × UUID)}
    {ns ms : List EntityData} {a : Nat} (h : Resolves ctx I (ns ++ ms) a) :
    Resolves ctx I ms (a + ns.length) := by
  intro j m hm
  have := h (ns.length + j) m (by
    rw [List.getElem?_append_right (Nat.le_add_right _ _), Nat.add_sub_cancel_left]
    exact hm)
  rw [Nat.add_assoc]
  exact this

mutual
theorem layout_length : ∀ (t : EntityData) (a : Nat) (p : EntityRef),
    (layout t a p).length = t.size
  | .mk n pn i q r c cs, a, p => by
    simp [layout, EntityData.size, EntityData.nodes, layoutList_length cs (a + 1) (some a)]
theorem layoutList_length : ∀ (cs : List EntityData) (a : Nat) (p : EntityRef),
    (layoutList cs a p).length = (EntityData.nodesList cs).length
  | [], _, _ => by simp [layoutList, EntityData.nodesList]
  | d :: ds, a, p => by
    rw [layoutList, EntityData.nodesList, List.length_append, List.length_append,
      layout_length d a p, layoutList_length ds (a + d.size) p]
    rfl
end

/-- Under a context without prefab, a node without prefab name is populated in
the same context. -/
theorem updateEntityTree_sameContext (f : EntityFactory) (k : Nat) (c : EntityData)
    (parent : EntityRef) (ctx : EntityFactoryContext) (w : World)
    (hc : c.getPrefab = "") (hctx : ctx.prefab = none) :
    f.updateEntityTree (k + 1) c parent (some ctx) w =
      (match updateEntityNodeWith f (f.updateEntityTree k) c parent ctx w with
       | .error err => .error err
       | .ok (e, ctx1, w1) => .ok (e, some ctx1, w1)) := by
  have hn : needsNewContext c (some ctx) = false := by
    simp [needsNewContext, hc, EntityFactoryContext.getPrefab, hctx]
  simp only [updateEntityTree, hn]

theorem childIds_append_fun (cs : List EntityData) (c : EntityData) (a : Nat) :
    ((fun x : Entity => { x with children := x.children ++ childIds cs (a + c.size) }) ∘
      (fun x : Entity => { x with children := x.children ++ [a] }))
    = (fun x : Entity => { x with children := x.children ++ childIds (c :: cs) a }) := by
  funext x
  simp [childIds]

theorem List.modify_at {α : Type} (g : α → α) (A R : List α) (x : α) (n : Nat)
    (h : A.length = n) : (A ++ x :: R).modify g n = A ++ g x :: R := by
  subst h
  exact List.modify_at_length g A R x

mutual
/-- The population of a prefab-free tree whose blank entities lie in the store
from the handle `a` on: afterwards the store holds the populated layout of the
tree in their place, and the parent has gained the root as its last child. -/
theorem populate_node (f : EntityFactory) :
    ∀ (t : EntityData) (fuel a : Nat) (parent : EntityRef) (A B : List Entity)
      (ctx : EntityFactoryContext) (w : World) (I : List (UUID × UUID)),
      t.height ≤ fuel + 1 →
      (∀ n ∈ t.nodes, n.getPrefab = "") →
      ctx.prefab = none →
      w.entities = A ++ t.nodes.map blank ++ B →
      A.length = a →
      (∀ b, parent = some b → b < a) →
      w.ids = I →
      Resolves ctx I t.nodes a →
      ∃ w2, updateEntityNodeWith f (f.updateEntityTree fuel) t parent ctx w
          = .ok (some a, ctx, w2)
        ∧ w2.entities = attach A parent a ++ layout t a parent ++ B
        ∧ w2.ids = I
  | .mk n p i q r c cs, fuel, a, parent, A, B, ctx, w, I, hh, hpf, hctx, hw, ha, hpar, hI,
      hres => by
    have hnodes : (EntityData.mk n p i q r c cs).nodes
        = .mk n p i q r c cs :: EntityData.nodesList cs := by simp [EntityData.nodes]
    rw [hnodes] at hw hres hpf
    have hg := getEntity_resolved f ctx I _ a hres w hI 0 _ List.getElem?_cons_zero
    rw [Nat.add_zero] at hg
    have hw1 : w.entities = A ++ blank (.mk n p i q r c cs)
        :: ((EntityData.nodesList cs).map blank ++ B) := by
      simp [hw]
    obtain ⟨hsp, _⟩ := World.setParent_parentless w A _ (blank (.mk n p i q r c cs)) a
      parent hw1 ha rfl hpar
    have hA : (attach A parent a).length = a := by rw [attach_length, ha]
    have hcomp : (f.updateEntityComponents a (.mk n p i q r c cs) ctx
        (w.setParent a parent)).entities
          = (attach A parent a ++
              [{ instanceUUID := i, prefabUUID := q, name := n, parent := parent, children := [],
                 components := c, fromPrefab := false, prefab := none, serializable := true }])
            ++ (EntityData.nodesList cs).map blank ++ B := by
      rw [updateEntityComponents_eq_modify]
      simp only [World.modify, hsp]
      rw [List.modify_at _ _ _ _ _ hA]
      simp [blank, World.freshEntity]
    have hcompids : (f.updateEntityComponents a (.mk n p i q r c cs) ctx
        (w.setParent a parent)).ids = I := by
      rw [updateEntityComponents_ids, World.ids_setParent, hI]
    have hheight : EntityData.heightList cs ≤ fuel := by
      simp only [EntityData.height] at hh
      omega
    obtain ⟨w3, hch, hw3, hids3⟩ := populate_children f cs fuel (a + 1) a
      (attach A parent a ++
        [{ instanceUUID := i, prefabUUID := q, name := n, parent := parent, children := [],
           components := c, fromPrefab := false, prefab := none, serializable := true }])
      B ctx _ I hheight (fun m hm => hpf m (List.mem_cons_of_mem _ hm)) hctx hcomp
      (by simp [hA]) (Nat.lt_succ_self a) hcompids hres.tail
    refine ⟨w3, ?_, ?_, hids3⟩
    · unfold updateEntityNodeWith
      simp only [hg, EntityData.getChildren_mk, hch]
    · rw [hw3, List.modify_at _ _ _ _ _ hA]
      simp [layout]
/-- The population of the children of the entity `b`, whose blank entities lie
in the store from the handle `a` on. -/
theorem populate_children (f : EntityFactory) :
    ∀ (cs : List EntityData) (fuel a b : Nat) (A B : List Entity)
      (ctx : EntityFactoryContext) (w : World) (I : List (UUID × UUID)),
      EntityData.heightList cs ≤ fuel →
      (∀ n ∈ EntityData.nodesList cs, n.getPrefab = "") →
      ctx.prefab = none →
      w.entities = A ++ (EntityData.nodesList cs).map blank ++ B →
      A.length = a →
      b < a →
      w.ids = I →
      Resolves ctx I (EntityData.nodesList cs) a →
      ∃ w2, updateEntityChildrenWith (f.updateEntityTree fuel) (some b) cs ctx w = .ok (ctx, w2)
        ∧ w2.entities
            = A.modify (fun x => { x with children := x.children ++ childIds cs a }) b
              ++ layoutList cs a (some b) ++ B
        ∧ w2.ids = I
  | [], fuel, a, b, A, B, ctx, w, I, _, _, _, hw, _, _, hI, _ => by
    refine ⟨w, by simp [updateEntityChildrenWith], ?_, hI⟩
    have hid : (fun x : Entity => { x with children := x.children ++ childIds [] a }) = id := by
      funext x
      simp [childIds]
    rw [hid, List.modify_id]
    simpa [layoutList, EntityData.nodesList] using hw
  | child :: rest, fuel, a, b, A, B, ctx, w, I, hh, hpf, hctx, hw, ha, hb, hI, hres => by
    simp only [EntityData.nodesList, List.map_append] at hw hpf hres
    simp only [EntityData.heightList] at hh
    have hpos : 1 ≤ child.height := by
      cases child
      simp [EntityData.height]
    obtain ⟨k, rfl⟩ : ∃ k, fuel = k + 1 := ⟨fuel - 1, by omega⟩
    have hw1 : w.entities = A ++ child.nodes.map blank
        ++ ((EntityData.nodesList rest).map blank ++ B) := by
      simp [hw]
    obtain ⟨w1, hnode, hw1e, hids1⟩ := populate_node f child k a (some b) A
      ((EntityData.nodesList rest).map blank ++ B) ctx w I (by omega)
      (fun m hm => hpf m (List.mem_append_left _ hm)) hctx hw1 ha
      (fun b0 hb0 => by
        simp only [Option.some.injEq] at hb0
        rw [← hb0]
        exact hb) hI hres.left
    have hA1 : (attach A (some b) a ++ layout child a (some b)).length = a + child.size := by
      rw [List.length_append, attach_length, layout_length, ha]
    obtain ⟨w2, hrest, hw2e, hids2⟩ := populate_children f rest (k + 1) (a + child.size) b
      (attach A (some b) a ++ layout child a (some b)) B ctx w1 I (by omega)
      (fun m hm => hpf m (List.mem_append_right _ hm)) hctx
      (by rw [hw1e]; simp) hA1 (by omega) hids1
      (by
        have := hres.right
        simpa [EntityData.size] using this)
    refine ⟨w2, ?_, ?_, hids2⟩
    · unfold updateEntityChildrenWith
      rw [updateEntityTree_sameContext f k child (some b) ctx w
        (hpf child (List.mem_append_left _ (by rw [EntityData.nodes_eq]; exact List.mem_cons_self _ _)))
        hctx]
      simp only [hnode, Option.getD_some]
      exact hrest
    · rw [hw2e]
      have hbA : b < (attach A (some b) a).length := by rw [attach_length, ha]; exact hb
      rw [List.modify_append_left _ _ _ _ hbA]
      simp only [attach, List.modify_modify_eq, childIds_append_fun, layoutList,
        List.append_assoc]
end

/-- What a successful `liveTree` returned. -/
theorem World.liveTree_ok (w : World) (fuel : Nat) (e : EntityId) (t : EntityData)
    (h : w.liveTree (fuel + 1) e = .ok t) :
    ∃ ent ds, w.get? e = some ent
      ∧ World.liveChildrenWith (w.liveTree fuel) ent.children = .ok ds
      ∧ t = .mk ent.name "" ent.instanceUUID ent.prefabUUID none ent.components ds := by
  unfold World.liveTree at h
  cases hg : w.get? e with
  | none => simp [hg] at h
  | some ent =>
    simp only [hg] at h
    cases hc : World.liveChildrenWith (w.liveTree fuel) ent.children with
    | error err => simp [hc] at h
    | ok ds =>
      simp only [hc, Except.ok.injEq] at h
      exact ⟨ent, ds, rfl, hc, h.symm⟩

theorem World.liveChildrenWith_cons_ok (self : EntityId → Except Failure EntityData)
    (c : EntityId) (rest : List EntityId) (ds : List EntityData)
    (h : World.liveChildrenWith self (c :: rest) = .ok ds) :
    ∃ d ds1, ds = d :: ds1 ∧ self c = .ok d ∧ World.liveChildrenWith self rest = .ok ds1 := by
  unfold World.liveChildrenWith at h
  cases hc : self c with
  | error err => simp [hc] at h
  | ok d =>
    cases hr : World.liveChildrenWith self rest with
    | error err => simp [hc, hr] at h
    | ok ds1 =>
      simp only [hc, hr, Except.ok.injEq] at h
      exact ⟨d, ds1, h.symm, rfl, rfl⟩

/-- A live tree has at most as many levels as the fuel, and none of its nodes
has a prefab name or a parent UUID. -/
theorem World.liveTree_facts (w : World) :
    ∀ (fuel : Nat) (e : EntityId) (t : EntityData), w.liveTree fuel e = .ok t →
      t.height ≤ fuel ∧ ∀ n ∈ t.nodes, n.getPrefab = "" ∧ n.getParentUUID = none := by
  intro fuel
  induction fuel with
  | zero =>
    intro e t h
    simp [World.liveTree] at h
  | succ fuel ih =>
    intro e t h
    obtain ⟨ent, ds, _, hds, ht⟩ := w.liveTree_ok fuel e t h
    subst ht
    have hlist : ∀ (cs : List EntityId) (ds : List EntityData),
        World.liveChildrenWith (w.liveTree fuel) cs = .ok ds →
        EntityData.heightList ds ≤ fuel
          ∧ ∀ n ∈ EntityData.nodesList ds, n.getPrefab = "" ∧ n.getParentUUID = none := by
      intro cs
      induction cs with
      | nil =>
        intro ds h
        simp only [World.liveChildrenWith, Except.ok.injEq] at h
        subst h
        simp [EntityData.heightList, EntityData.nodesList]
      | cons c rest ihl =>
        intro ds h
        obtain ⟨d, ds1, hd, hc, hr⟩ := World.liveChildrenWith_cons_ok _ c rest ds h
        subst hd
        obtain ⟨h1, h2⟩ := ih c d hc
        obtain ⟨h3, h4⟩ := ihl ds1 hr
        refine ⟨by simp only [EntityData.heightList]; omega, ?_⟩
        intro n hn
        simp only [EntityData.nodesList, List.mem_append] at hn
        rcases hn with hn | hn
        · exact h2 n hn
        · exact h4 n hn
    obtain ⟨h1, h2⟩ := hlist _ ds hds
    refine ⟨by simp only [EntityData.height]; omega, ?_⟩
    intro n hn
    simp only [EntityData.nodes, List.mem_cons] at hn
    rcases hn with hn | hn
    · subst hn
      simp
    · exact h2 n hn

theorem serializeEntity_false_clear (f : EntityFactory) (w : World)
    (options : SerializationOptions) (fuel : Nat) (c : EntityId) (dc : EntityData)
    (h : f.serializeEntity w options fuel c false = .ok dc) : dc.clearParentUUID = dc := by
  cases fuel with
  | zero => simp [serializeEntity] at h
  | succ k =>
    obtain ⟨ent2, ds2, _, _, hdc2⟩ := serializeEntity_shape f w options k c false dc h
    rw [hdc2]
    simp [EntityData.clearParentUUID]

theorem World.treeIds_child (w : World) (fuel : Nat) (e c x : EntityId)
    (hc : c ∈ w.getChildren e) (hx : x ∈ w.treeIds fuel c) : x ∈ w.treeIds (fuel + 1) e := by
  unfold World.treeIds
  exact List.mem_cons_of_mem _ (List.mem_flatten.mpr ⟨_, List.mem_map.mpr ⟨c, hc, rfl⟩, hx⟩)

theorem World.treeIds_root (w : World) (fuel : Nat) (e : EntityId) :
    e ∈ w.treeIds (fuel + 1) e := by
  unfold World.treeIds
  exact List.mem_cons_self _ _

/-- When, in the live tree under an entity, every child is serializable and
none is flagged as a stub, and the reflectors return each component's payload
as it is under the channel of the options, serialization reads the live tree:
its output is the live tree, with the parent UUID added at the top when asked
for. -/
theorem serializeEntity_liveTree (f : EntityFactory) (w : World) (options : SerializationOptions) :
    ∀ (fuel : Nat) (e : EntityId) (canStoreParent : Bool) (d : EntityData),
      (∀ x ∈ w.treeIds fuel e, ∀ ent, w.get? x = some ent → ∀ c ∈ ent.components,
        f.reflectorSerialize (EntityFactoryContext.new options.type none) c.1 c.2 = c.2) →
      (∀ x ∈ w.treeIds fuel e, ∀ c ∈ w.getChildren x,
        w.isSerializable c = true ∧ options.isStub c = false) →
      f.serializeEntity w options fuel e canStoreParent = .ok d →
      w.liveTree fuel e = .ok d.clearParentUUID := by
  intro fuel
  induction fuel with
  | zero =>
    intro e csp d _ _ h
    simp [serializeEntity] at h
  | succ fuel ih =>
    intro e csp d hinv hcomplete h
    obtain ⟨ent, ds, hg, hds, hd⟩ := serializeEntity_shape f w options fuel e csp d h
    subst hd
    have hchildren : w.getChildren e = ent.children := by simp [World.getChildren, hg]
    have hcomps : ent.components.map (fun c =>
        (c.1, f.reflectorSerialize (EntityFactoryContext.new options.type none) c.1 c.2))
          = ent.components := by
      have hall := hinv e (w.treeIds_root fuel e) ent hg
      generalize ent.components = cs at hall
      induction cs with
      | nil => rfl
      | cons c cs ihc =>
        rw [List.map_cons, ihc (fun x hx => hall x (List.mem_cons_of_mem _ hx)),
          hall c (List.mem_cons_self _ _)]
    have hlist : ∀ (cs : List EntityId) (ds : List EntityData),
        (∀ c ∈ cs, c ∈ w.getChildren e) →
        serializeChildrenWith (fun c => f.serializeEntity w options fuel c false) w options cs
          = .ok ds →
        World.liveChildrenWith (w.liveTree fuel) cs = .ok ds := by
      intro cs
      induction cs with
      | nil =>
        intro ds _ h
        simp only [serializeChildrenWith, Except.ok.injEq] at h
        subst h
        rfl
      | cons c rest ihl =>
        intro ds hall h
        have hmem := hall c (List.mem_cons_self _ _)
        have hc := hcomplete e (w.treeIds_root fuel e) c hmem
        rcases serializeChildrenWith_cons_ok _ w options c rest ds h with
          ⟨hs, _⟩ | ⟨_, dc, ds1, hds, hrest, hdc⟩
        · rw [hc.1] at hs
          simp at hs
        · subst hds
          have hr := ihl ds1 (fun x hx => hall x (List.mem_cons_of_mem _ hx)) hrest
          rcases hdc with ⟨hst, _⟩ | ⟨_, hself⟩
          · rw [hc.2] at hst
            simp at hst
          · have hlive := ih c false dc
              (fun x hx => hinv x (w.treeIds_child fuel e c x hmem hx))
              (fun x hx => hcomplete x (w.treeIds_child fuel e c x hmem hx)) hself
            rw [serializeEntity_false_clear f w options fuel c dc hself] at hlive
            unfold World.liveChildrenWith
            simp only [hlive, hr]
    have hch := hlist ent.children ds (fun c hc => by rw [hchildren]; exact hc) hds
    unfold World.liveTree
    simp only [hg, hch, EntityData.clearParentUUID, hcomps]

mutual
/-- The live tree read off a populated layout is the tree that was laid out. -/
theorem liveTree_layout :
    ∀ (t : EntityData) (fuel a : Nat) (p : EntityRef) (A B : List Entity) (w : World),
      t.height ≤ fuel →
      (∀ n ∈ t.nodes, n.getPrefab = "" ∧ n.getParentUUID = none) →
      w.entities = A ++ layout t a p ++ B →
      A.length = a →
      w.liveTree fuel a = .ok t
  | .mk n pn i q r c cs, fuel, a, p, A, B, w, hh, hfacts, hw, ha => by
    simp only [EntityData.height] at hh
    obtain ⟨k, rfl⟩ : ∃ k, fuel = k + 1 := ⟨fuel - 1, by omega⟩
    have hroot := hfacts (.mk n pn i q r c cs) (by simp [EntityData.nodes])
    simp only [EntityData.getPrefab_mk, EntityData.getParentUUID_mk] at hroot
    obtain ⟨hpn, hr⟩ := hroot
    subst hpn
    subst hr
    simp only [layout, List.cons_append, List.append_assoc] at hw
    have hget : w.get? a = some
        { instanceUUID := i, prefabUUID := q, name := n, parent := p,
          children := childIds cs (a + 1), components := c, fromPrefab := false,
          prefab := none, serializable := true } := by
      rw [World.get?, hw, ← ha, List.getElem?_at_length]
    have hch := liveChildren_layoutList cs k (a + 1) (some a)
      (A ++ [Entity.mk i q n p (childIds cs (a + 1)) c false none true]) B w (by omega)
      (fun m hm => hfacts m (by simp [EntityData.nodes, hm]))
      (by rw [hw]; simp) (by simp [ha])
    unfold World.liveTree
    simp only [hget, hch]
/-- The live trees of the roots of a populated forest are its trees. -/
theorem liveChildren_layoutList :
    ∀ (cs : List EntityData) (fuel a : Nat) (p : EntityRef) (A B : List Entity) (w : World),
      EntityData.heightList cs ≤ fuel →
      (∀ n ∈ EntityData.nodesList cs, n.getPrefab = "" ∧ n.getParentUUID = none) →
      w.entities = A ++ layoutList cs a p ++ B →
      A.length = a →
      World.liveChildrenWith (w.liveTree fuel) (childIds cs a) = .ok cs
  | [], _, _, _, _, _, _, _, _, _, _ => by
    simp [childIds, World.liveChildrenWith]
  | d :: ds, fuel, a, p, A, B, w, hh, hfacts, hw, ha => by
    simp only [EntityData.heightList] at hh
    simp only [layoutList, List.append_assoc] at hw
    have h1 := liveTree_layout d fuel a p A (layoutList ds (a + d.size) p ++ B) w (by omega)
      (fun m hm => hfacts m (by simp [EntityData.nodesList, hm]))
      (by rw [hw]; simp) ha
    have h2 := liveChildren_layoutList ds fuel (a + d.size) p (A ++ layout d a p) B w (by omega)
      (fun m hm => hfacts m (by simp [EntityData.nodesList, hm]))
      (by rw [hw]; simp) (by rw [List.length_append, layout_length, ha])
    simp only [childIds, World.liveChildrenWith, h1, h2]
end

theorem List.find?_range' (p : Nat → Bool) :
    ∀ (j N n : Nat), j < n → p (N + j) = true → (∀ i, i < j → p (N + i) = false) →
      (List.range' N n).find? p = some (N + j) := by
  intro j
  induction j with
  | zero =>
    intro N n hn hp _
    obtain ⟨m, rfl⟩ : ∃ m, n = m + 1 := ⟨n - 1, by omega⟩
    rw [Nat.add_zero] at hp
    simp [List.range'_succ, List.find?_cons, hp]
  | succ j ih =>
    intro N n hn hp hnot
    obtain ⟨m, rfl⟩ : ∃ m, n = m + 1 := ⟨n - 1, by omega⟩
    have h0 : p N = false := by simpa using hnot 0 (Nat.succ_pos j)
    rw [List.range'_succ, List.find?_cons, h0]
    have := ih (N + 1) m (by omega) (by rw [Nat.add_assoc, Nat.add_comm 1 j]; exact hp)
      (fun i hi => by
        have := hnot (i + 1) (by omega)
        rw [Nat.add_assoc, Nat.add_comm 1 i]
        exact this)
    rw [this, Nat.add_assoc, Nat.add_comm 1 j]

/-- After the pre-pass of a tree with pairwise distinct valid instance UUIDs
into a context that was empty, the context resolves the nodes in pre-order. -/
theorem resolves_after_prepass (d : EntityData) (w0 : World)
    (ty : EntitySerializationType) (pf : Option Prefab)
    (hvalid : ∀ n ∈ d.nodes, n.getInstanceUUID.isValid = true)
    (hnodup : (d.nodes.map EntityData.getInstanceUUID).Nodup) :
    Resolves
      { type := ty, prefab := pf, entities := [] ++ List.range' w0.entities.length d.size }
      ({ w0 with entities := w0.entities ++ d.nodes.map blank } : World).ids
      d.nodes w0.entities.length := by
  intro j n hn
  have hj : j < d.nodes.length := by
    by_contra hc
    rw [List.getElem?_eq_none (Nat.le_of_not_lt hc)] at hn
    simp at hn
  have hnj : d.nodes[j] = n := by
    rw [List.getElem?_eq_getElem hj] at hn
    exact Option.some.inj hn
  refine ⟨hvalid n (by rw [← hnj]; exact List.getElem_mem hj), ?_⟩
  have hI : ∀ i (hi : i < d.nodes.length),
      ((({ w0 with entities := w0.entities ++ d.nodes.map blank } : World).ids)[w0.entities.length + i]?).map
        Prod.fst = some (d.nodes[i]).getInstanceUUID := by
    intro i hi
    simp [World.ids, List.getElem?_append_right, List.getElem?_eq_getElem hi, blank,
      World.freshEntity]
  simp only [List.nil_append]
  apply List.find?_range' _ j _ _ (by simpa [EntityData.size] using hj)
  · rw [decide_eq_true_eq, hI j hj, hnj]
  · intro i hi
    have hil : i < d.nodes.length := by omega
    rw [decide_eq_false_iff_not, hI i hil]
    simp only [Option.some.injEq]
    intro heq
    have hinj := (List.nodup_iff_injective_get.mp hnodup)
    have : (⟨i, by simpa using hil⟩ :
        Fin (d.nodes.map EntityData.getInstanceUUID).length) = ⟨j, by simpa using hj⟩ := by
      apply hinj
      simp [List.get_eq_getElem, heq, hnj]
    have := congrArg Fin.val this
    simp at this
    omega

theorem layout_clearParentUUID (d : EntityData) (a : Nat) (p : EntityRef) :
    layout d.clearParentUUID a p = layout d a p := by
  cases d
  simp [EntityData.clearParentUUID, layout]

theorem EntityData.nodes_clearParentUUID (d : EntityData) :
    d.clearParentUUID.nodes = d.clearParentUUID :: EntityData.nodesList d.getChildren := by
  cases d
  simp [EntityData.clearParentUUID, EntityData.nodes]

theorem EntityData.height_clearParentUUID (d : EntityData) :
    d.clearParentUUID.height = d.height := by
  cases d
  simp [EntityData.clearParentUUID, EntityData.height]

theorem EntityData.getPrefab_clearParentUUID (d : EntityData) :
    d.clearParentUUID.getPrefab = d.getPrefab := by
  cases d
  simp [EntityData.clearParentUUID]

/-- The instantiation of a prefab-free tree with pairwise distinct valid
instance UUIDs, whose root the world lookup does not find: with fuel for the
height of the tree, `createEntity` succeeds, returns the next handle, and
appends the populated layout of the tree to the store. -/
theorem createEntity_fresh (f : EntityFactory) (fuel : Nat) (d : EntityData) (w0 : World)
    (hh : d.height ≤ fuel)
    (hpf : ∀ n ∈ d.nodes, n.getPrefab = "")
    (hvalid : ∀ n ∈ d.nodes, n.getInstanceUUID.isValid = true)
    (hnodup : (d.nodes.map EntityData.getInstanceUUID).Nodup)
    (hfresh : w0.findEntity d.getInstanceUUID true = none) :
    ∃ w2, f.createEntity fuel d none w0 = .ok (some w0.entities.length, w2)
      ∧ w2.entities = w0.entities ++ layout d w0.entities.length none := by
  have hpos : 1 ≤ d.height := by
    cases d
    simp [EntityData.height]
  obtain ⟨k, rfl⟩ : ∃ k, fuel = k + 1 := ⟨fuel - 1, by omega⟩
  have hd : d.getPrefab = "" := hpf d (by rw [EntityData.nodes_eq]; exact List.mem_cons_self _ _)
  have hgp : f.getPrefab d.getPrefab w0 = (none, w0) := by
    simp [EntityFactory.getPrefab, hd]
  have hpre := preInstantiateEntities_fresh f d (EntityFactoryContext.new .Prefab none) 0 w0 rfl
    hvalid hnodup (by simp [EntityFactoryContext.new]) (by simp [EntityFactoryContext.new])
    (fun _ => hfresh)
  simp only [EntityFactoryContext.new] at hpre
  obtain ⟨w2, hnode, hw2, _⟩ := populate_node f d k w0.entities.length none w0.entities []
    { type := .Prefab, prefab := none, entities := [] ++ List.range' w0.entities.length d.size }
    { w0 with entities := w0.entities ++ d.nodes.map blank } _ hh hpf rfl (by simp) rfl
    (by simp) rfl (resolves_after_prepass d w0 .Prefab none hvalid hnodup)
  refine ⟨w2, ?_, by simpa [attach] using hw2⟩
  simp only [createEntity, updateEntityTree, hgp, EntityFactoryContext.new, hpre, hnode]

/-- C3, amended: let `T` be the live tree under `root`, in which every child
is serializable and none is flagged by the stub predicate, serialized with the
serialization type that `createEntity` instantiates with (`Prefab`), component
serialization and construction being inverse under that type on the
components of `T`; let the serialized nodes have valid, pairwise distinct
instance UUIDs, and let the target world be one in which the world lookup does
not find the root's instance UUID.  Then
`createEntity(serializeEntity(T, options, canStoreParent))` succeeds, with the
fuel that serialization needed, and the live tree under the new root equals
the live tree `T`: same structure and child order, names, instance and prefab
UUIDs, and component lists.  That tree is the serialized data without the
top-level parent UUID. -/
theorem C3_round_trip_of_complete_serialization (f : EntityFactory) (w : World)
    (options : SerializationOptions) (fuel : Nat) (root : EntityId) (canStoreParent : Bool)
    (d : EntityData) (w0 : World)
    (hs : f.serializeEntity w options fuel root canStoreParent = .ok d)
    (htype : options.type = .Prefab)
    (hinverse : ∀ e ∈ w.treeIds fuel root, ∀ ent, w.get? e = some ent → ∀ c ∈ ent.components,
      f.reflectorSerialize (EntityFactoryContext.new .Prefab none) c.1 c.2 = c.2)
    (hcomplete : ∀ e ∈ w.treeIds fuel root, ∀ c ∈ w.getChildren e,
      w.isSerializable c = true ∧ options.isStub c = false)
    (hvalid : ∀ n ∈ d.nodes, n.getInstanceUUID.isValid = true)
    (hnodup : (d.nodes.map EntityData.getInstanceUUID).Nodup)
    (hfresh : w0.findEntity d.getInstanceUUID true = none) :
    ∃ w2, f.createEntity fuel d none w0 = .ok (some w0.entities.length, w2)
      ∧ w2.liveTree fuel w0.entities.length = w.liveTree fuel root
      ∧ w.liveTree fuel root = .ok d.clearParentUUID := by
  have hlive := serializeEntity_liveTree f w options fuel root canStoreParent d
    (by rw [htype]; exact hinverse) hcomplete hs
  obtain ⟨hheight, hfacts⟩ := w.liveTree_facts fuel root _ hlive
  rw [EntityData.height_clearParentUUID] at hheight
  have hpf : ∀ n ∈ d.nodes, n.getPrefab = "" := by
    intro n hn
    rw [EntityData.nodes_eq, List.mem_cons] at hn
    rcases hn with hn | hn
    · rw [hn, ← EntityData.getPrefab_clearParentUUID]
      exact (hfacts _ (by rw [EntityData.nodes_clearParentUUID]; exact List.mem_cons_self _ _)).1
    · exact (hfacts n (by rw [EntityData.nodes_clearParentUUID]; exact List.mem_cons_of_mem _ hn)).1
  obtain ⟨w2, hc, hw2⟩ := createEntity_fresh f fuel d w0 hheight hpf hvalid hnodup hfresh
  refine ⟨w2, hc, ?_, hlive⟩
  rw [hlive]
  exact liveTree_layout d.clearParentUUID fuel w0.entities.length none w0.entities [] w2
    (by rw [EntityData.height_clearParentUUID]; exact hheight) hfacts
    (by rw [hw2, layout_clearParentUUID]; simp) rfl

/-- C3 as stated fails.  In the sample family the child with UUID 3 is not
serializable: the serialization of the root omits it, and the tree
instantiated from it into the empty world has one child under its root where
the live tree has two.  Further, for the clean family: instantiated into the
world it was serialized from, the root ends up with two children instead of
one; serialized with a stub predicate, the child comes back without its
component and its own child.  Two children sharing an instance UUID come back
as one child, and an entity without valid instance UUID cannot be instantiated
from its serialization. -/
theorem C3_counterexample_child_not_serializable :
    (∃ d w2 t1 t2,
      Sample.noPrefabs.serializeEntity Sample.familyWorld Sample.noStub 3 0 false = .ok d
      ∧ Sample.noPrefabs.createEntity 3 d none World.empty = .ok (some 0, w2)
      ∧ Sample.familyWorld.liveTree 3 0 = .ok t1
      ∧ w2.liveTree 3 0 = .ok t2
      ∧ t1.getChildren.length = 2 ∧ t2.getChildren.length = 1)
    ∧ (∃ d w2 t1 t2,
      Sample.noPrefabs.serializeEntity Sample.cleanWorld Sample.noStub 3 0 false = .ok d
      ∧ Sample.noPrefabs.createEntity 3 d none Sample.cleanWorld = .ok (some 0, w2)
      ∧ Sample.cleanWorld.liveTree 3 0 = .ok t1
      ∧ w2.liveTree 3 0 = .ok t2
      ∧ t1.getChildren.length = 1 ∧ t2.getChildren.length = 2)
    ∧ (∃ d w2 t1 t2,
      Sample.noPrefabs.serializeEntity Sample.cleanWorld Sample.stubOne 3 0 false = .ok d
      ∧ Sample.noPrefabs.createEntity 3 d none World.empty = .ok (some 0, w2)
      ∧ Sample.cleanWorld.liveTree 3 1 = .ok t1
      ∧ w2.liveTree 3 1 = .ok t2
      ∧ t1.getComponents.length = 1 ∧ t2.getComponents.length = 0
      ∧ t1.getChildren.length = 1 ∧ t2.getChildren.length = 0)
    ∧ (∃ d w2 t1 t2,
      Sample.noPrefabs.serializeEntity Sample.twinWorld Sample.noStub 3 0 false = .ok d
      ∧ Sample.noPrefabs.createEntity 3 d none World.empty = .ok (some 0, w2)
      ∧ Sample.twinWorld.liveTree 3 0 = .ok t1
      ∧ w2.liveTree 3 0 = .ok t2
      ∧ t1.getChildren.length = 2 ∧ t2.getChildren.length = 1)
    ∧ (∃ d,
      Sample.noPrefabs.serializeEntity Sample.anonWorld Sample.noStub 3 0 false = .ok d
      ∧ Sample.noPrefabs.createEntity 3 d none World.empty = .error .expects) :=
  ⟨⟨_, _, _, _, rfl, rfl, rfl, rfl, rfl, rfl⟩,
    ⟨_, _, _, _, rfl, rfl, rfl, rfl, rfl, rfl⟩,
    ⟨_, _, _, _, rfl, rfl, rfl, rfl, rfl, rfl, rfl, rfl⟩,
    ⟨_, _, _, _, rfl, rfl, rfl, rfl, rfl, rfl⟩,
    ⟨_, rfl, rfl⟩⟩

/-- C3, amended, at a concrete input: entity 1 of the sample family (whose
root has a child that is not serializable, outside the tree under entity 1),
serialized under the channel `Prefab` with its parent UUID by a factory whose
reflectors leave content out under the other channels, and instantiated into
the empty world. -/
theorem C3_round_trip_of_complete_serialization_witness :
    ∃ w2,
      Sample.maskedFactory.createEntity 2
          (.mk "" "" ⟨2⟩ ⟨0⟩ (some ⟨1⟩) [("Health", 50)] [.mk "" "" ⟨4⟩ ⟨0⟩ none [] []])
          none World.empty = .ok (some World.empty.entities.length, w2)
      ∧ w2.liveTree 2 World.empty.entities.length = Sample.familyWorld.liveTree 2 1
      ∧ Sample.familyWorld.liveTree 2 1
          = .ok (EntityData.mk "" "" ⟨2⟩ ⟨0⟩ (some ⟨1⟩) [("Health", 50)]
              [.mk "" "" ⟨4⟩ ⟨0⟩ none [] []]).clearParentUUID :=
  C3_round_trip_of_complete_serialization Sample.maskedFactory Sample.familyWorld Sample.noStub
    2 1 true _ World.empty rfl rfl (by decide) (by decide) (by decide) (by decide) rfl

/-- The serialization type of the options reaches the reflectors: the same
entity serialized under the channel `Prefab` and under the channel `Network`
by a factory whose reflectors leave content out under the latter. -/
theorem serializeEntity_channel_reaches_reflectors :
    ∃ d1 d2,
      Sample.maskedFactory.serializeEntity Sample.familyWorld ⟨.Prefab, none⟩ 2 1 false = .ok d1
      ∧ Sample.maskedFactory.serializeEntity Sample.familyWorld ⟨.Network, none⟩ 2 1 false
          = .ok d2
      ∧ d1.getComponents = [("Health", 50)]
      ∧ d2.getComponents = [("Health", 0)] :=
  ⟨_, _, rfl, rfl, rfl, rfl⟩

/-! ## C2: the root is reused -/

/-- An instance UUID that the world lookup did not find is found on the first
entity appended with it, whatever follows. -/
theorem World.findEntity_appended_first {w w1 : World} {u q : UUID} {b : Bool}
    {rest : List (UUID × UUID)}
    (hnone : w.findEntity u b = none) (hids : w1.ids = w.ids ++ (u, q) :: rest) :
    w1.findEntity u b = some w.entities.length := by
  rw [World.findEntity_ids] at hnone ⊢
  rw [hids, List.findIdx?_append, hnone]
  simp [List.findIdx?_cons, World.length_ids]

mutual
theorem layout_ids : ∀ (t : EntityData) (a : Nat) (p : EntityRef),
    (layout t a p).map (fun e => (e.instanceUUID, e.prefabUUID))
      = t.nodes.map (fun n => (n.getInstanceUUID, n.getPrefabUUID))
  | .mk n pn i q r c cs, a, p => by
    simp [layout, EntityData.nodes, layoutList_ids cs (a + 1) (some a)]
theorem layoutList_ids : ∀ (cs : List EntityData) (a : Nat) (p : EntityRef),
    (layoutList cs a p).map (fun e => (e.instanceUUID, e.prefabUUID))
      = (EntityData.nodesList cs).map (fun n => (n.getInstanceUUID, n.getPrefabUUID))
  | [], _, _ => by simp [layoutList, EntityData.nodesList]
  | d :: ds, a, p => by
    rw [layoutList, EntityData.nodesList, List.map_append, List.map_append,
      layout_ids d a p, layoutList_ids ds (a + d.size) p]
end

/-- When the root `r` is registered first and the blank entities of the
descendants follow the store `A`, the context resolves the descendants in
pre-order. -/
theorem resolves_descendants (cs : List EntityData) (A : List (UUID × UUID)) (r : EntityId)
    (u : UUID) (ty : EntitySerializationType) (pf : Option Prefab)
    (hr : (A[r]?).map Prod.fst = some u)
    (hvalid : ∀ n ∈ EntityData.nodesList cs, n.getInstanceUUID.isValid = true)
    (hnodup : (u :: (EntityData.nodesList cs).map EntityData.getInstanceUUID).Nodup) :
    Resolves
      { type := ty, prefab := pf,
        entities := [r] ++ List.range' A.length (EntityData.nodesList cs).length }
      (A ++ (EntityData.nodesList cs).map (fun n => (n.getInstanceUUID, n.getPrefabUUID)))
      (EntityData.nodesList cs) A.length := by
  intro j n hn
  have hj : j < (EntityData.nodesList cs).length := by
    by_contra hc
    rw [List.getElem?_eq_none (Nat.le_of_not_lt hc)] at hn
    simp at hn
  have hnj : (EntityData.nodesList cs)[j] = n := by
    rw [List.getElem?_eq_getElem hj] at hn
    exact Option.some.inj hn
  have hmem : n ∈ EntityData.nodesList cs := by rw [← hnj]; exact List.getElem_mem hj
  refine ⟨hvalid n hmem, ?_⟩
  rw [List.nodup_cons] at hnodup
  have hrl : r < A.length := by
    by_contra hc
    rw [List.getElem?_eq_none (Nat.le_of_not_lt hc)] at hr
    simp at hr
  have hI : ∀ i (hi : i < (EntityData.nodesList cs).length),
      ((A ++ (EntityData.nodesList cs).map
          (fun n => (n.getInstanceUUID, n.getPrefabUUID)))[A.length + i]?).map Prod.fst
        = some ((EntityData.nodesList cs)[i]).getInstanceUUID := by
    intro i hi
    simp [List.getElem?_append_right, List.getElem?_eq_getElem hi]
  have hrfalse : decide (((A ++ (EntityData.nodesList cs).map
      (fun n => (n.getInstanceUUID, n.getPrefabUUID)))[r]?).map Prod.fst
        = some n.getInstanceUUID) = false := by
    rw [decide_eq_false_iff_not, List.getElem?_append_left hrl, hr]
    simp only [Option.some.injEq]
    intro heq
    exact hnodup.1 (List.mem_map.mpr ⟨n, hmem, heq.symm⟩)
  simp only [List.singleton_append, List.find?_cons, hrfalse]
  apply List.find?_range' _ j _ _ hj
  · rw [decide_eq_true_eq, hI j hj, hnj]
  · intro i hi
    have hil : i < (EntityData.nodesList cs).length := by omega
    rw [decide_eq_false_iff_not, hI i hil]
    simp only [Option.some.injEq]
    intro heq
    have hinj := (List.nodup_iff_injective_get.mp hnodup.2)
    have : (⟨i, by simpa using hil⟩ :
        Fin ((EntityData.nodesList cs).map EntityData.getInstanceUUID).length)
          = ⟨j, by simpa using hj⟩ := by
      apply hinj
      simp [List.get_eq_getElem, heq, hnj]
    have := congrArg Fin.val this
    simp at this
    omega

theorem World.setParent_same (w : World) (e : EntityId) (ent : Entity) (p : EntityRef)
    (hg : w.get? e = some ent) (hp : ent.parent = p) : w.setParent e p = w := by
  unfold World.setParent
  simp [hg, hp]

/-- A prefab-free tree with pairwise distinct valid instance UUIDs, whose root
the world lookup does not find, can be instantiated twice in a row with fuel
for its height: both calls succeed and return the same root handle. -/
theorem createEntity_again (f : EntityFactory) (fuel : Nat) (d : EntityData) (w0 : World)
    (hh : d.height ≤ fuel)
    (hpf : ∀ n ∈ d.nodes, n.getPrefab = "")
    (hvalid : ∀ n ∈ d.nodes, n.getInstanceUUID.isValid = true)
    (hnodup : (d.nodes.map EntityData.getInstanceUUID).Nodup)
    (hfresh : w0.findEntity d.getInstanceUUID true = none) :
    ∃ w1 w2, f.createEntity fuel d none w0 = .ok (some w0.entities.length, w1)
      ∧ f.createEntity fuel d none w1 = .ok (some w0.entities.length, w2) := by
  obtain ⟨w1, hc1, hw1⟩ := createEntity_fresh f fuel d w0 hh hpf hvalid hnodup hfresh
  refine ⟨w1, ?_⟩
  obtain ⟨n, pn, i, q, r, c, cs⟩ := d
  have hnodes : (EntityData.mk n pn i q r c cs).nodes
      = .mk n pn i q r c cs :: EntityData.nodesList cs := by simp [EntityData.nodes]
  rw [hnodes] at hpf hvalid hnodup
  simp only [List.map_cons, EntityData.getInstanceUUID_mk] at hnodup
  simp only [EntityData.getInstanceUUID_mk] at hfresh
  simp only [EntityData.height] at hh
  obtain ⟨k, rfl⟩ : ∃ k, fuel = k + 1 := ⟨fuel - 1, by omega⟩
  have hpn : pn = "" := by simpa using hpf _ (List.mem_cons_self _ _)
  subst hpn
  -- the world after the first call
  have hids1 : w1.ids = w0.ids ++ (i, q)
      :: (EntityData.nodesList cs).map (fun m => (m.getInstanceUUID, m.getPrefabUUID)) := by
    simp only [World.ids, hw1, List.map_append, layout_ids, hnodes, List.map_cons,
      EntityData.getInstanceUUID_mk, EntityData.getPrefabUUID_mk]
  have hfind : w1.findEntity i true = some w0.entities.length :=
    World.findEntity_appended_first hfresh hids1
  have hlen1 : w0.entities.length < w1.entities.length := by
    rw [hw1, List.length_append, layout_length]
    exact Nat.lt_add_of_pos_right (EntityData.size_pos _)
  have hroot1 : (w1.ids[w0.entities.length]?).map Prod.fst = some i := by
    rw [hids1, ← World.length_ids, List.getElem?_at_length]
    rfl
  have huuid1 : w1.getInstanceUUID w0.entities.length = some i := by
    rw [World.getInstanceUUID_ids, hroot1]
  have hget1 : ∃ ent, w1.get? w0.entities.length = some ent ∧ ent.parent = none := by
    refine ⟨Entity.mk i q n none (childIds cs (w0.entities.length + 1)) c false none true,
      ?_, rfl⟩
    rw [World.get?, hw1]
    simp only [layout]
    exact List.getElem?_at_length _ _ _
  obtain ⟨ent1, hent1, hpar1⟩ := hget1
  -- the pre-pass of the second call
  have hgp : f.getPrefab "" w1 = (none, w1) := by simp [EntityFactory.getPrefab]
  have hinst : f.instantiateEntity (.mk n "" i q r c cs)
      { type := .Prefab, prefab := none, entities := [] } true w1
        = .ok (some w0.entities.length,
            { type := .Prefab, prefab := none, entities := [w0.entities.length] }, w1) := by
    have hg : f.getEntity (.mk n "" i q r c cs)
        { type := .Prefab, prefab := none, entities := [] } true w1
          = .ok (some w0.entities.length,
              { type := .Prefab, prefab := none, entities := [w0.entities.length] }) := by
      unfold EntityFactory.getEntity
      have hv := hvalid _ (List.mem_cons_self _ _)
      simp only [EntityData.getInstanceUUID_mk] at hv
      simp [hv, EntityFactoryContext.getEntity, hfind, EntityFactoryContext.addEntity]
    unfold EntityFactory.instantiateEntity
    simp only [hg]
  have hpre := preInstantiateChildren_fresh f cs
    { type := .Prefab, prefab := none, entities := [w0.entities.length] } 0 w1 rfl
    (fun m hm => hvalid m (List.mem_cons_of_mem _ hm)) (List.nodup_cons.mp hnodup).2
    (by
      intro e he
      simp only [List.mem_singleton] at he
      rw [he]
      exact hlen1)
    (by
      intro m hm e he
      simp only [List.mem_singleton] at he
      rw [he, huuid1]
      simp only [ne_eq, Option.some.injEq]
      intro heq
      exact (List.nodup_cons.mp hnodup).1 (List.mem_map.mpr ⟨m, hm, heq.symm⟩))
  simp only [Nat.zero_add] at hpre
  have hprepass : f.preInstantiateEntities (.mk n "" i q r c cs)
      { type := .Prefab, prefab := none, entities := [] } 0 w1
        = .ok ({ type := .Prefab, prefab := none,
                  entities := [w0.entities.length]
                    ++ List.range' w1.entities.length (EntityData.nodesList cs).length },
            { w1 with entities := w1.entities ++ (EntityData.nodesList cs).map blank }) := by
    unfold EntityFactory.preInstantiateEntities
    have h00 : (0 == 0) = true := rfl
    simp only [h00, hinst, Nat.zero_add, hpre]
  -- the population of the second call
  have hidsP : ({ w1 with entities := w1.entities ++ (EntityData.nodesList cs).map blank }
      : World).ids
        = w1.ids ++ (EntityData.nodesList cs).map
            (fun m => (m.getInstanceUUID, m.getPrefabUUID)) := by
    simp [World.ids, blank, World.freshEntity]
  have hgetP : ({ w1 with entities := w1.entities ++ (EntityData.nodesList cs).map blank }
      : World).get? w0.entities.length = some ent1 := by
    rw [World.get?]
    simp only
    rw [List.getElem?_append_left hlen1]
    exact hent1
  have hg2 : f.getEntity (.mk n "" i q r c cs)
      { type := .Prefab, prefab := none,
        entities := [w0.entities.length]
          ++ List.range' w1.entities.length (EntityData.nodesList cs).length } false
      { w1 with entities := w1.entities ++ (EntityData.nodesList cs).map blank }
        = .ok (some w0.entities.length,
            { type := .Prefab, prefab := none,
              entities := [w0.entities.length]
                ++ List.range' w1.entities.length (EntityData.nodesList cs).length }) := by
    have hv := hvalid _ (List.mem_cons_self _ _)
    simp only [EntityData.getInstanceUUID_mk] at hv
    have hu : ({ w1 with entities := w1.entities ++ (EntityData.nodesList cs).map blank }
        : World).getInstanceUUID w0.entities.length = some i := by
      rw [World.getInstanceUUID_append_left w1 _ _ hlen1]
      exact huuid1
    unfold EntityFactory.getEntity
    simp [hv, EntityFactoryContext.getEntity, EntityFactoryContext.isMatch, hu]
  have hsp := World.setParent_same _ _ ent1 none hgetP hpar1
  have hcomp : (f.updateEntityComponents w0.entities.length (.mk n "" i q r c cs)
      { type := .Prefab, prefab := none,
        entities := [w0.entities.length]
          ++ List.range' w1.entities.length (EntityData.nodesList cs).length }
      { w1 with entities := w1.entities ++ (EntityData.nodesList cs).map blank }).entities
        = w1.entities.modify
            (fun e => { e with components := e.components ++ c }) w0.entities.length
          ++ (EntityData.nodesList cs).map blank ++ [] := by
    rw [updateEntityComponents_eq_modify]
    simp only [World.modify, EntityData.getComponents_mk, List.append_nil]
    exact List.modify_append_left _ _ _ _ hlen1
  obtain ⟨w2, hch, _⟩ := populate_children f cs k w1.entities.length w0.entities.length
    (w1.entities.modify (fun e => { e with components := e.components ++ c })
      w0.entities.length) []
    { type := .Prefab, prefab := none,
      entities := [w0.entities.length]
        ++ List.range' w1.entities.length (EntityData.nodesList cs).length }
    _ _ (by omega) (fun m hm => hpf m (List.mem_cons_of_mem _ hm)) rfl hcomp
    (by simp) hlen1 (by rw [updateEntityComponents_ids, hidsP])
    (by
      have := resolves_descendants cs w1.ids w0.entities.length i .Prefab none hroot1
        (fun m hm => hvalid m (List.mem_cons_of_mem _ hm)) hnodup
      rw [World.length_ids] at this
      exact this)
  refine ⟨w2, hc1, ?_⟩
  have hnode : updateEntityNodeWith f (f.updateEntityTree k) (.mk n "" i q r c cs) none
      { type := .Prefab, prefab := none,
        entities := [w0.entities.length]
          ++ List.range' w1.entities.length (EntityData.nodesList cs).length }
      { w1 with entities := w1.entities ++ (EntityData.nodesList cs).map blank }
        = .ok (some w0.entities.length,
            { type := .Prefab, prefab := none,
              entities := [w0.entities.length]
                ++ List.range' w1.entities.length (EntityData.nodesList cs).length }, w2) := by
    unfold updateEntityNodeWith
    simp only [hg2, hsp, EntityData.getChildren_mk, hch]
  simp only [createEntity, updateEntityTree, EntityData.getPrefab_mk, hgp,
    EntityFactoryContext.new, hprepass, hnode]

/-- When a tree has been instantiated by `createEntity` and
`createEntity` is called again with the same data, the root's entity is reused:
the second call returns the handle that the first call returned, and that
handle is an entity that was live before the second call; when the instantiated
tree has no children, the number of entities is unchanged.  No descendant may
repeat the root's instance UUID.  For a prefab-free tree with pairwise distinct
valid instance UUIDs whose root the world lookup does not find at first, both
calls succeed, with fuel for the height of the tree, and return the same
handle. -/
theorem createEntity_root_reused (f : EntityFactory) :
    (∀ (fuel1 fuel2 : Nat) (data : EntityData) (parent1 parent2 : EntityRef)
        (w0 w1 w2 : World) (e1 e2 : EntityRef),
        (∀ n ∈ EntityData.nodesList (f.instanceData data w0).getChildren,
          n.getInstanceUUID ≠ (f.instanceData data w0).getInstanceUUID) →
        f.createEntity fuel1 data parent1 w0 = .ok (e1, w1) →
        f.createEntity fuel2 data parent2 w1 = .ok (e2, w2) →
        e2 = e1
        ∧ (∃ r, e2 = some r ∧ r < w1.entities.length)
        ∧ ((f.instanceData data w0).getChildren = [] →
            w2.entities.length = w1.entities.length))
    ∧ (∀ (fuel : Nat) (d : EntityData) (w0 : World),
        d.height ≤ fuel →
        (∀ n ∈ d.nodes, n.getPrefab = "") →
        (∀ n ∈ d.nodes, n.getInstanceUUID.isValid = true) →
        (d.nodes.map EntityData.getInstanceUUID).Nodup →
        w0.findEntity d.getInstanceUUID true = none →
        ∃ w1 w2, f.createEntity fuel d none w0 = .ok (some w0.entities.length, w1)
          ∧ f.createEntity fuel d none w1 = .ok (some w0.entities.length, w2)) :=
  ⟨fun fuel1 fuel2 data parent1 parent2 w0 w1 w2 e1 e2 hroot h1 h2 =>
      createEntity_twice_root f fuel1 fuel2 data parent1 parent2 w0 w1 w2 e1 e2 hroot h1 h2,
    fun fuel d w0 hh hpf hvalid hnodup hfresh =>
      createEntity_again f fuel d w0 hh hpf hvalid hnodup hfresh⟩

/-- C2, the code at the failing input: a root with one component and one
child is instantiated into the empty world (two entities).  `createEntity`
with the same data again returns the root's handle, and leaves three entities:
the child (instance UUID 2) is created a second time, the root has the old and
the new child as children, and the root's component is attached a second time
beside the old one. -/
theorem C2_second_instantiation_duplicates_child :
    ∃ w1 w2,
      Sample.noPrefabs.createEntity 2 Sample.rootWithChild none World.empty = .ok (some 0, w1)
      ∧ Sample.noPrefabs.createEntity 2 Sample.rootWithChild none w1 = .ok (some 0, w2)
      ∧ w1.entities.length = 2 ∧ w2.entities.length = 3
      ∧ w2.getInstanceUUID 1 = some ⟨2⟩ ∧ w2.getInstanceUUID 2 = some ⟨2⟩
      ∧ w1.getChildren 0 = [1] ∧ w2.getChildren 0 = [1, 2]
      ∧ (w1.get? 0).map Entity.components = some [("Health", 100)]
      ∧ (w2.get? 0).map Entity.components = some [("Health", 100), ("Health", 100)] :=
  ⟨_, _, rfl, rfl, rfl, rfl, rfl, rfl, rfl, rfl, rfl, rfl⟩

/-- The root with one child, instantiated twice into the empty world, keeps
the handle 0 for its root. -/
theorem createEntity_root_reused_sample :
    (∃ w1 w2,
      Sample.noPrefabs.createEntity 2 Sample.rootWithChild none World.empty = .ok (some 0, w1)
      ∧ Sample.noPrefabs.createEntity 2 Sample.rootWithChild none w1 = .ok (some 0, w2)
      ∧ ((some 0 : EntityRef) = some 0
        ∧ (∃ r, (some 0 : EntityRef) = some r ∧ r < w1.entities.length)
        ∧ ((Sample.noPrefabs.instanceData Sample.rootWithChild World.empty).getChildren = [] →
            w2.entities.length = w1.entities.length)))
    ∧ (∃ w1 w2,
        Sample.noPrefabs.createEntity 2 Sample.rootWithChild none World.empty
          = .ok (some World.empty.entities.length, w1)
        ∧ Sample.noPrefabs.createEntity 2 Sample.rootWithChild none w1
          = .ok (some World.empty.entities.length, w2)) :=
  ⟨⟨_, _, rfl, rfl,
      (createEntity_root_reused Sample.noPrefabs).1 2 2 Sample.rootWithChild none none
        World.empty _ _ _ _ (by decide) rfl rfl⟩,
    (createEntity_root_reused Sample.noPrefabs).2 2 Sample.rootWithChild World.empty (by decide)
      (by decide) (by decide) (by decide) rfl⟩

/-! ## C6 and C10: what serialization emits -/

/-- Serialization returns whenever the live tree under the entity can be read
with the same fuel. -/
theorem serializeEntity_returns (f : EntityFactory) (w : World) (options : SerializationOptions) :
    ∀ (fuel : Nat) (e : EntityId) (canStoreParent : Bool) (t : EntityData),
      w.liveTree fuel e = .ok t →
      ∃ d, f.serializeEntity w options fuel e canStoreParent = .ok d := by
  intro fuel
  induction fuel with
  | zero =>
    intro e csp t h
    simp [World.liveTree] at h
  | succ fuel ih =>
    intro e csp t h
    obtain ⟨ent, ts, hg, hts, _⟩ := w.liveTree_ok fuel e t h
    have hlist : ∀ (cs : List EntityId) (ts : List EntityData),
        World.liveChildrenWith (w.liveTree fuel) cs = .ok ts →
        ∃ ds, serializeChildrenWith (fun c => f.serializeEntity w options fuel c false) w
          options cs = .ok ds := by
      intro cs
      induction cs with
      | nil =>
        intro ts _
        exact ⟨[], rfl⟩
      | cons c rest ihl =>
        intro ts h
        obtain ⟨tc, ts1, _, hc, hr⟩ := World.liveChildrenWith_cons_ok _ c rest ts h
        obtain ⟨ds1, hds1⟩ := ihl ts1 hr
        obtain ⟨dc, hdc⟩ := ih c false tc hc
        unfold serializeChildrenWith
        cases w.isSerializable c with
        | false => exact ⟨ds1, by simpa using hds1⟩
        | true =>
          cases options.isStub c with
          | true =>
            exact ⟨EntityData.ofUUID ((w.getInstanceUUID c).getD ⟨0⟩) :: ds1, by simp [hds1]⟩
          | false => exact ⟨dc :: ds1, by simp [hdc, hds1]⟩
    obtain ⟨ds, hds⟩ := hlist ent.children ts hts
    unfold serializeEntity
    simp only [hg, hds]
    cases csp with
    | false => exact ⟨_, rfl⟩
    | true =>
      cases ent.parent with
      | none => exact ⟨_, rfl⟩
      | some par => exact ⟨_, rfl⟩

/-- C6: when the stub predicate is set, serialization returns whenever the
live tree under the entity can be read with the same fuel, and in its output
the entries for the serializable children are emitted in child order, the entry
for a child the predicate flags being that child's instance UUID alone, with no
component and no child, whatever the child holds in the live world. -/
theorem C6_stub_serialization (f : EntityFactory) (w : World) (options : SerializationOptions)
    (p : EntityId → Bool) (fuel : Nat) (entity : EntityId) (canStoreParent : Bool)
    (hp : options.serializeAsStub = some p) :
    (∀ t, w.liveTree fuel entity = .ok t →
      ∃ d, f.serializeEntity w options fuel entity canStoreParent = .ok d)
    ∧ (∀ d, f.serializeEntity w options fuel entity canStoreParent = .ok d →
        List.Forall₂
          (fun child entry => p child = true →
            (∃ u, w.getInstanceUUID child = some u ∧ entry = EntityData.ofUUID u)
            ∧ entry.getComponents = [] ∧ entry.getChildren = [])
          ((w.getChildren entity).filter w.isSerializable) d.getChildren) :=
  ⟨fun t ht => serializeEntity_returns f w options fuel entity canStoreParent t ht,
    fun d h => serializeEntity_stub_entries f w options p fuel entity canStoreParent d hp h⟩

/-- C6 at a concrete input: entity 1 of the sample family has a component and
a child, and is flagged as a stub: its entry is its bare identity. -/
theorem C6_stub_serialization_witness :
    (∃ d, Sample.noPrefabs.serializeEntity Sample.familyWorld Sample.stubOne 3 0 true = .ok d)
    ∧ List.Forall₂
        (fun child entry => (fun e => e == 1) child = true →
          (∃ u, Sample.familyWorld.getInstanceUUID child = some u ∧ entry = EntityData.ofUUID u)
          ∧ entry.getComponents = [] ∧ entry.getChildren = [])
        ((Sample.familyWorld.getChildren 0).filter Sample.familyWorld.isSerializable)
        (EntityData.mk "root" "" ⟨1⟩ ⟨0⟩ none [] [EntityData.ofUUID ⟨2⟩]).getChildren :=
  ⟨(C6_stub_serialization Sample.noPrefabs Sample.familyWorld Sample.stubOne (fun e => e == 1) 3 0
      true rfl).1 _ rfl,
    (C6_stub_serialization Sample.noPrefabs Sample.familyWorld Sample.stubOne (fun e => e == 1) 3 0
      true rfl).2 _ rfl⟩

/-- C10: serialization returns whenever the live tree under the entity can be
read with the same fuel; its top-level output has a parent UUID exactly when
`canStoreParent` is true and the entity has a parent, and it is then the
parent's instance UUID; no node nested at any depth in its children has a
parent UUID, whatever `canStoreParent` is. -/
theorem C10_parent_linkage (f : EntityFactory) (w : World) (options : SerializationOptions)
    (fuel : Nat) (entity : EntityId) (canStoreParent : Bool) :
    (∀ t, w.liveTree fuel entity = .ok t →
      ∃ d, f.serializeEntity w options fuel entity canStoreParent = .ok d)
    ∧ (∀ d, f.serializeEntity w options fuel entity canStoreParent = .ok d →
        (d.getParentUUID.isSome = true ↔
          (canStoreParent = true ∧ (w.tryGetParent entity).isSome = true))
        ∧ (∀ p u, canStoreParent = true → w.tryGetParent entity = some p →
            w.getInstanceUUID p = some u → d.getParentUUID = some u)
        ∧ (∀ n ∈ EntityData.nodesList d.getChildren, n.getParentUUID = none)) :=
  ⟨fun t ht => serializeEntity_returns f w options fuel entity canStoreParent t ht,
    fun d h => serializeEntity_parent_linkage f w options fuel entity canStoreParent d h⟩

/-- C10 at a concrete input: entity 1 of the sample family, serialized with
permission to store the parent, records the UUID of entity 0; its child does
not record any. -/
theorem C10_parent_linkage_witness :
    (∃ d, Sample.noPrefabs.serializeEntity Sample.familyWorld Sample.noStub 2 1 true = .ok d)
    ∧ ((EntityData.mk "" "" ⟨2⟩ ⟨0⟩ (some ⟨1⟩) [("Health", 50)]
          [EntityData.mk "" "" ⟨4⟩ ⟨0⟩ none [] []]).getParentUUID.isSome = true ↔
        (true = true ∧ (Sample.familyWorld.tryGetParent 1).isSome = true))
    ∧ (∀ p u, true = true → Sample.familyWorld.tryGetParent 1 = some p →
        Sample.familyWorld.getInstanceUUID p = some u →
        (EntityData.mk "" "" ⟨2⟩ ⟨0⟩ (some ⟨1⟩) [("Health", 50)]
          [EntityData.mk "" "" ⟨4⟩ ⟨0⟩ none [] []]).getParentUUID = some u)
    ∧ (∀ n ∈ EntityData.nodesList (EntityData.mk "" "" ⟨2⟩ ⟨0⟩ (some ⟨1⟩) [("Health", 50)]
          [EntityData.mk "" "" ⟨4⟩ ⟨0⟩ none [] []]).getChildren,
        n.getParentUUID = none) :=
  ⟨(C10_parent_linkage Sample.noPrefabs Sample.familyWorld Sample.noStub 2 1 true).1 _ rfl,
    (C10_parent_linkage Sample.noPrefabs Sample.familyWorld Sample.noStub 2 1 true).2 _ rfl⟩

/-! ## C11: children that are not serializable -/

/-- The entries emitted by the child loop, one per serializable child and in
child order: the bare identity of a stubbed child, or the recursive
serialization of the child. -/
theorem serializeChildrenWith_entries (self : EntityId → Except Failure EntityData) (w : World)
    (options : SerializationOptions) :
    ∀ (cs : List EntityId) (ds : List EntityData),
      serializeChildrenWith self w options cs = .ok ds →
      List.Forall₂
        (fun child entry =>
          w.isSerializable child = true
          ∧ ((options.isStub child = true
              ∧ entry = EntityData.ofUUID ((w.getInstanceUUID child).getD ⟨0⟩))
            ∨ (options.isStub child = false ∧ self child = .ok entry)))
        (cs.filter w.isSerializable) ds := by
  intro cs
  induction cs with
  | nil =>
    intro ds h
    simp [serializeChildrenWith] at h
    subst h
    simp
  | cons c rest ih =>
    intro ds h
    rcases serializeChildrenWith_cons_ok self w options c rest ds h with
      ⟨hs, hrest⟩ | ⟨hs, d, ds1, hds, hrest, hd⟩
    · simp only [List.filter_cons, hs, Bool.false_eq_true, if_false]
      exact ih ds hrest
    · subst hds
      simp only [List.filter_cons, hs, if_true]
      exact List.Forall₂.cons ⟨hs, hd⟩ (ih ds1 hrest)

/-- The instance UUID of a serialization is the entity's. -/
theorem serializeEntity_instanceUUID (f : EntityFactory) (w : World)
    (options : SerializationOptions) (fuel : Nat) (e : EntityId) (canStoreParent : Bool)
    (d : EntityData) (h : f.serializeEntity w options fuel e canStoreParent = .ok d) :
    w.getInstanceUUID e = some d.getInstanceUUID := by
  cases fuel with
  | zero => simp [serializeEntity] at h
  | succ k =>
    obtain ⟨ent, ds, hg, _, hd⟩ := serializeEntity_shape f w options k e canStoreParent d h
    subst hd
    simp [World.getInstanceUUID, hg]

/-- The children of a serialization: one entry per serializable child, in
child order, each with the child's instance UUID, and each either a stub or
the serialization of the child. -/
theorem serializeEntity_child_entries (f : EntityFactory) (w : World)
    (options : SerializationOptions) (fuel : Nat) (entity : EntityId) (canStoreParent : Bool)
    (d : EntityData) (h : f.serializeEntity w options fuel entity canStoreParent = .ok d) :
    List.Forall₂
      (fun child entry =>
        w.getInstanceUUID child = some entry.getInstanceUUID
        ∧ ((options.isStub child = true ∧ entry = EntityData.ofUUID entry.getInstanceUUID)
          ∨ (options.isStub child = false
              ∧ f.serializeEntity w options (fuel - 1) child false = .ok entry)))
      ((w.getChildren entity).filter w.isSerializable) d.getChildren := by
  cases fuel with
  | zero => simp [serializeEntity] at h
  | succ k =>
    have hc := serializeEntity_children f w options k entity canStoreParent d h
    have hs := serializeChildrenWith_entries _ w options _ _ hc
    refine hs.imp ?_
    intro child entry hR
    obtain ⟨hser, hR⟩ := hR
    obtain ⟨ent, hent⟩ := w.isSerializable_live child hser
    rcases hR with ⟨hst, he⟩ | ⟨hst, he⟩
    · have hu : w.getInstanceUUID child = some ent.instanceUUID := by
        simp [World.getInstanceUUID, hent]
      rw [hu] at he
      simp only [Option.getD_some] at he
      subst he
      exact ⟨by simp [hu, EntityData.ofUUID], Or.inl ⟨hst, by simp [EntityData.ofUUID]⟩⟩
    · simp only [Nat.add_sub_cancel]
      exact ⟨serializeEntity_instanceUUID f w options k child false entry he, Or.inr ⟨hst, he⟩⟩

/-- C11: serialization returns whenever the live tree under the entity can be
read with the same fuel, and the children list of its output has exactly one
entry per serializable child, in the entity's child order, and none for a
child that is not serializable; an entry has the instance UUID of its child,
and is either the stub of that child or the serialization of that child. -/
theorem C11_nonserializable_children_skipped (f : EntityFactory) (w : World)
    (options : SerializationOptions) (fuel : Nat) (entity : EntityId) (canStoreParent : Bool) :
    (∀ t, w.liveTree fuel entity = .ok t →
      ∃ d, f.serializeEntity w options fuel entity canStoreParent = .ok d)
    ∧ (∀ d, f.serializeEntity w options fuel entity canStoreParent = .ok d →
        d.getChildren.length = ((w.getChildren entity).filter w.isSerializable).length
        ∧ List.Forall₂
            (fun child entry =>
              w.getInstanceUUID child = some entry.getInstanceUUID
              ∧ ((options.isStub child = true
                    ∧ entry = EntityData.ofUUID entry.getInstanceUUID)
                ∨ (options.isStub child = false
                    ∧ f.serializeEntity w options (fuel - 1) child false = .ok entry)))
            ((w.getChildren entity).filter w.isSerializable) d.getChildren) :=
  ⟨fun t ht => serializeEntity_returns f w options fuel entity canStoreParent t ht,
    fun d h =>
      ⟨(serializeEntity_child_entries f w options fuel entity canStoreParent d h).length_eq.symm,
        serializeEntity_child_entries f w options fuel entity canStoreParent d h⟩⟩

/-- C11 at a concrete input: the root of the sample family has a serializable
child (UUID 2) and a child that is not serializable (UUID 3); its
serialization has the single entry of the first. -/
theorem C11_nonserializable_children_skipped_witness :
    (∃ d, Sample.noPrefabs.serializeEntity Sample.familyWorld Sample.noStub 3 0 false = .ok d)
    ∧ (EntityData.mk "root" "" ⟨1⟩ ⟨0⟩ none []
          [.mk "" "" ⟨2⟩ ⟨0⟩ none [("Health", 50)] [.mk "" "" ⟨4⟩ ⟨0⟩ none [] []]]).getChildren.length
        = ((Sample.familyWorld.getChildren 0).filter Sample.familyWorld.isSerializable).length
    ∧ List.Forall₂
        (fun child entry =>
          Sample.familyWorld.getInstanceUUID child = some entry.getInstanceUUID
          ∧ ((Sample.noStub.isStub child = true
                ∧ entry = EntityData.ofUUID entry.getInstanceUUID)
            ∨ (Sample.noStub.isStub child = false
                ∧ Sample.noPrefabs.serializeEntity Sample.familyWorld Sample.noStub (3 - 1) child
                    false = .ok entry)))
        ((Sample.familyWorld.getChildren 0).filter Sample.familyWorld.isSerializable)
        (EntityData.mk "root" "" ⟨1⟩ ⟨0⟩ none []
          [.mk "" "" ⟨2⟩ ⟨0⟩ none [("Health", 50)]
            [.mk "" "" ⟨4⟩ ⟨0⟩ none [] []]]).getChildren :=
  ⟨(C11_nonserializable_children_skipped Sample.noPrefabs Sample.familyWorld Sample.noStub 3 0
      false).1 _ rfl,
    (C11_nonserializable_children_skipped Sample.noPrefabs Sample.familyWorld Sample.noStub 3 0
      false).2 _ rfl⟩

/-! ## Lookups in the context, and entities the factory creates -/

/-- A created entity, once tagged, is the blank entity for the context's
prefab. -/
theorem instantiateEntity_created_world (w : World) (u q : UUID) (n : String)
    (pf : Option Prefab) :
    (if pf.isSome = true
      then (w.createEntity u n none pf.isSome q).2.setPrefab
        (w.createEntity u n none pf.isSome q).1 pf
      else (w.createEntity u n none pf.isSome q).2)
      = { w with entities := w.entities ++
            [{ World.freshEntity u n pf.isSome q with prefab := pf }] } := by
  rw [World.createEntity_none]
  cases pf with
  | none => simp [World.freshEntity]
  | some p =>
    simp [World.setPrefab, World.modify, World.freshEntity, List.modify_length_concat]

/-- The three outcomes of `instantiateEntity`, by the outcome of the lookup. -/
theorem instantiateEntity_cases (f : EntityFactory) (data : EntityData)
    (ctx : EntityFactoryContext) (allow : Bool) (w : World) :
    (∀ ctx1, f.getEntity data ctx allow w = .ok (none, ctx1) →
      ctx1 = ctx
      ∧ f.instantiateEntity data ctx allow w
        = .ok (some (w.createEntity data.getInstanceUUID data.getName none
                  ctx.getPrefab.isSome data.getPrefabUUID).1,
            ctx.addEntity (w.createEntity data.getInstanceUUID data.getName none
                  ctx.getPrefab.isSome data.getPrefabUUID).1,
            if ctx.getPrefab.isSome = true
              then (w.createEntity data.getInstanceUUID data.getName none
                  ctx.getPrefab.isSome data.getPrefabUUID).2.setPrefab
                (w.createEntity data.getInstanceUUID data.getName none
                  ctx.getPrefab.isSome data.getPrefabUUID).1 ctx.getPrefab
              else (w.createEntity data.getInstanceUUID data.getName none
                  ctx.getPrefab.isSome data.getPrefabUUID).2))
    ∧ (∀ x ctx1, f.getEntity data ctx allow w = .ok (some x, ctx1) →
        f.instantiateEntity data ctx allow w = .ok (some x, ctx1, w))
    ∧ (∀ err, f.getEntity data ctx allow w = .error err →
        f.instantiateEntity data ctx allow w = .error err) := by
  refine ⟨?_, ?_, ?_⟩
  · intro ctx1 hg
    have hctx : ctx1 = ctx := by
      rcases (getEntity_ok f data ctx allow w none ctx1 hg).2 with
        ⟨x, hx, _⟩ | ⟨x, hx, _⟩ | ⟨_, hc, _⟩
      · simp at hx
      · simp at hx
      · exact hc
    subst hctx
    refine ⟨rfl, ?_⟩
    unfold EntityFactory.instantiateEntity
    simp only [hg]
  · intro x ctx1 hg
    unfold EntityFactory.instantiateEntity
    simp only [hg]
  · intro err hg
    unfold EntityFactory.instantiateEntity
    simp only [hg]

/-- The lookup with prefab matches is the search for the first registered
entity whose instance UUID or prefab UUID is the one asked for. -/
theorem EntityFactoryContext.getEntity_either (ctx : EntityFactoryContext) (w : World)
    (u : UUID) (hu : u.isValid = true) :
    ctx.getEntity w u true
      = ctx.entities.find?
          (fun e => decide (w.getInstanceUUID e = some u ∨ w.getPrefabUUID e = some u)) := by
  have hfun : EntityFactoryContext.isMatch w u true
      = fun e => decide (w.getInstanceUUID e = some u ∨ w.getPrefabUUID e = some u) := by
    funext e
    simp [EntityFactoryContext.isMatch]
  simp [EntityFactoryContext.getEntity, hu, hfun]

theorem EntityFactoryContext.getEntity_invalid (ctx : EntityFactoryContext) (w : World)
    (u : UUID) (b : Bool) (hu : u.isValid = false) : ctx.getEntity w u b = none := by
  simp [EntityFactoryContext.getEntity, hu]

/-- When every registered entity with prefab UUID `u` also has instance UUID
`u`, the two lookups agree. -/
theorem EntityFactoryContext.getEntity_agree (ctx : EntityFactoryContext) (w : World) (u : UUID)
    (hu : u.isValid = true)
    (h : ∀ e ∈ ctx.entities, w.getPrefabUUID e = some u → w.getInstanceUUID e = some u) :
    ctx.getEntity w u true = ctx.getEntity w u false := by
  rw [EntityFactoryContext.getEntity_either ctx w u hu,
    EntityFactoryContext.getEntity_instance ctx w u hu]
  generalize ctx.entities = l at h
  induction l with
  | nil => rfl
  | cons e l ih =>
    have he := h e (List.mem_cons_self e l)
    have ih1 := ih (fun x hx => h x (List.mem_cons_of_mem e hx))
    by_cases h1 : w.getInstanceUUID e = some u
    · simp [List.find?_cons, h1]
    · have h2 : ¬ w.getPrefabUUID e = some u := fun hp => h1 (he hp)
      rw [List.find?_cons, List.find?_cons]
      simp only [h1, h2, or_self, decide_False]
      exact ih1

/-! ## C14: tagging of new entities -/

/-- C14: when the lookup of `instantiateEntity` finds nothing, the result is
the entity made by `world.createEntity` with the data's instance UUID, name and
prefab UUID, no parent, and the flag "from prefab" equal to whether the context
holds a prefab; `setPrefab` with the context's prefab is applied exactly when
that flag is true; the entity is registered in the context, and the world
gains exactly that one entity.  When the lookup finds an entity, it is
returned, nothing is created and the world is unchanged.  A failed lookup
fails the call. -/
theorem C14_prefab_tagging (f : EntityFactory) (data : EntityData)
    (ctx : EntityFactoryContext) (allow : Bool) (w : World) :
    (∀ ctx1, f.getEntity data ctx allow w = .ok (none, ctx1) →
      f.instantiateEntity data ctx allow w
        = .ok (some (w.createEntity data.getInstanceUUID data.getName none
                  ctx.getPrefab.isSome data.getPrefabUUID).1,
            ctx.addEntity (w.createEntity data.getInstanceUUID data.getName none
                  ctx.getPrefab.isSome data.getPrefabUUID).1,
            if ctx.getPrefab.isSome = true
              then (w.createEntity data.getInstanceUUID data.getName none
                  ctx.getPrefab.isSome data.getPrefabUUID).2.setPrefab
                (w.createEntity data.getInstanceUUID data.getName none
                  ctx.getPrefab.isSome data.getPrefabUUID).1 ctx.getPrefab
              else (w.createEntity data.getInstanceUUID data.getName none
                  ctx.getPrefab.isSome data.getPrefabUUID).2)
      ∧ (if ctx.getPrefab.isSome = true
          then (w.createEntity data.getInstanceUUID data.getName none
              ctx.getPrefab.isSome data.getPrefabUUID).2.setPrefab
            (w.createEntity data.getInstanceUUID data.getName none
              ctx.getPrefab.isSome data.getPrefabUUID).1 ctx.getPrefab
          else (w.createEntity data.getInstanceUUID data.getName none
              ctx.getPrefab.isSome data.getPrefabUUID).2)
        = { w with entities := w.entities ++ [blankFor ctx.getPrefab data] }
      ∧ (blankFor ctx.getPrefab data).fromPrefab = ctx.getPrefab.isSome
      ∧ (blankFor ctx.getPrefab data).prefab = ctx.getPrefab)
    ∧ (∀ x ctx1, f.getEntity data ctx allow w = .ok (some x, ctx1) →
        f.instantiateEntity data ctx allow w = .ok (some x, ctx1, w))
    ∧ (∀ err, f.getEntity data ctx allow w = .error err →
        f.instantiateEntity data ctx allow w = .error err) := by
  refine ⟨fun ctx1 hg => ⟨((instantiateEntity_cases f data ctx allow w).1 ctx1 hg).2,
      instantiateEntity_created_world w _ _ _ _, rfl, rfl⟩,
    (instantiateEntity_cases f data ctx allow w).2.1,
    (instantiateEntity_cases f data ctx allow w).2.2⟩

/-- C14 at concrete inputs: under a context holding the prefab "enemy" a new
entity is created in the empty world and tagged; in a world that already has
the entity, it is returned. -/
theorem C14_prefab_tagging_witness :
    Sample.enemyFactory.instantiateEntity Sample.enemyOverride
        (EntityFactoryContext.new .Prefab (some Sample.enemyPrefab)) true World.empty
      = .ok (some 0, ⟨.Prefab, some Sample.enemyPrefab, [0]⟩,
          ⟨[{ Sample.bare 2 1 with fromPrefab := true, prefab := some Sample.enemyPrefab }], []⟩)
    ∧ Sample.noPrefabs.instantiateEntity (Sample.leaf 1)
        (EntityFactoryContext.new .Prefab none) true Sample.prefabMatchWorld
      = .ok (some 0, ⟨.Prefab, none, [0]⟩, Sample.prefabMatchWorld) :=
  ⟨((C14_prefab_tagging Sample.enemyFactory Sample.enemyOverride
      (EntityFactoryContext.new .Prefab (some Sample.enemyPrefab)) true World.empty).1
        _ rfl).1,
   (C14_prefab_tagging Sample.noPrefabs (Sample.leaf 1)
      (EntityFactoryContext.new .Prefab none) true Sample.prefabMatchWorld).2.1 _ _ rfl⟩

/-! ## C15, C16 and C19: components and reference resolution -/

theorem World.resolveEntityRefs_ids (w : World) (ctx : EntityFactoryContext)
    (refs : List UUID) : (w.resolveEntityRefs ctx refs).ids = w.ids := by
  unfold World.ids
  rw [World.resolveEntityRefs_entities]

/-- C16: `getEntityIdFromUUID` always returns.  For a valid UUID `u` for which
the context has an entity whose instance UUID or prefab UUID is `u`, it returns
the first such entity and leaves the log alone; otherwise (invalid `u`, or no
such entity) it returns the default id and appends one error message to the
log, leaving the entities alone. -/
theorem C16_unresolved_reference_degrades (ctx : EntityFactoryContext) (w : World) (u : UUID) :
    (∀ e, u.isValid = true →
        ctx.entities.find?
          (fun x => decide (w.getInstanceUUID x = some u ∨ w.getPrefabUUID x = some u)) = some e →
        ctx.getEntityIdFromUUID w u = (some e, w))
    ∧ ((u.isValid = false ∨
        ctx.entities.find?
          (fun x => decide (w.getInstanceUUID x = some u ∨ w.getPrefabUUID x = some u)) = none) →
        ctx.getEntityIdFromUUID w u
          = (none, w.logError ("Couldn't find entity with UUID " ++ u.toString
              ++ " while instantiating entity."))
        ∧ (ctx.getEntityIdFromUUID w u).2.log
          = w.log ++ ["Couldn't find entity with UUID " ++ u.toString
              ++ " while instantiating entity."]
        ∧ (ctx.getEntityIdFromUUID w u).2.entities = w.entities) := by
  refine ⟨?_, ?_⟩
  · intro e hu hf
    rw [← EntityFactoryContext.getEntity_either ctx w u hu] at hf
    simp [EntityFactoryContext.getEntityIdFromUUID, hf]
  · intro h
    have hnone : ctx.getEntity w u true = none := by
      rcases h with hu | hf
      · exact EntityFactoryContext.getEntity_invalid ctx w u true hu
      · cases hv : u.isValid with
        | false => exact EntityFactoryContext.getEntity_invalid ctx w u true hv
        | true => rw [EntityFactoryContext.getEntity_either ctx w u hv]; exact hf
    simp [EntityFactoryContext.getEntityIdFromUUID, hnone, World.logError]

/-- C16 at concrete inputs: UUID 2 resolves to the first registered entity
(by its prefab UUID); the invalid UUID and the unknown UUID 5 are logged and
resolve to nothing. -/
theorem C16_unresolved_reference_degrades_witness :
    Sample.bothRegistered.getEntityIdFromUUID Sample.prefabBeforeInstanceWorld ⟨2⟩
      = (some 0, Sample.prefabBeforeInstanceWorld)
    ∧ (Sample.bothRegistered.getEntityIdFromUUID Sample.prefabBeforeInstanceWorld ⟨0⟩).1 = none
    ∧ (Sample.bothRegistered.getEntityIdFromUUID Sample.prefabBeforeInstanceWorld ⟨5⟩).2.log
      = ["Couldn't find entity with UUID " ++ UUID.toString ⟨5⟩
          ++ " while instantiating entity."] :=
  ⟨(C16_unresolved_reference_degrades Sample.bothRegistered
      Sample.prefabBeforeInstanceWorld ⟨2⟩).1 0 rfl rfl,
   congrArg Prod.fst ((C16_unresolved_reference_degrades Sample.bothRegistered
      Sample.prefabBeforeInstanceWorld ⟨0⟩).2 (Or.inl rfl)).1,
   ((C16_unresolved_reference_degrades Sample.bothRegistered
      Sample.prefabBeforeInstanceWorld ⟨5⟩).2 (Or.inr rfl)).2.1⟩

/-- C19, counterexample: a context has registered entity 0 (instance UUID 1,
prefab UUID 2) and then entity 1 (instance UUID 2).  UUID 2 is valid and is
the instance UUID of a registered entity, yet the lookup with prefab matches,
and `getEntityIdFromUUID`, return entity 0, whose instance UUID is 1, while
the lookup by instance UUID returns entity 1. -/
theorem C19_counterexample_prefab_match_first :
    UUID.isValid ⟨2⟩ = true
    ∧ Sample.prefabBeforeInstanceWorld.getInstanceUUID 1 = some ⟨2⟩
    ∧ 1 ∈ Sample.bothRegistered.entities
    ∧ Sample.bothRegistered.getEntity Sample.prefabBeforeInstanceWorld ⟨2⟩ true = some 0
    ∧ (Sample.bothRegistered.getEntityIdFromUUID Sample.prefabBeforeInstanceWorld ⟨2⟩).1 = some 0
    ∧ Sample.prefabBeforeInstanceWorld.getInstanceUUID 0 = some ⟨1⟩
    ∧ Sample.bothRegistered.getEntity Sample.prefabBeforeInstanceWorld ⟨2⟩ false = some 1 := by
  refine ⟨rfl, rfl, ?_, rfl, rfl, rfl, rfl⟩
  decide

/-- C19, amended: for a valid UUID `u`, the lookup with prefab matches returns
the first registered entity whose instance UUID or prefab UUID is `u`.  When
every registered entity with prefab UUID `u` also has instance UUID `u`, this
is the entity the lookup by instance UUID returns, `getEntityIdFromUUID`
returns it too, and its instance UUID is `u`. -/
theorem C19_first_match_of_either_uuid (ctx : EntityFactoryContext) (w : World) (u : UUID)
    (hu : u.isValid = true) :
    ctx.getEntity w u true
      = ctx.entities.find?
          (fun e => decide (w.getInstanceUUID e = some u ∨ w.getPrefabUUID e = some u))
    ∧ ((∀ e ∈ ctx.entities, w.getPrefabUUID e = some u → w.getInstanceUUID e = some u) →
        ctx.getEntity w u true = ctx.getEntity w u false
        ∧ (ctx.getEntityIdFromUUID w u).1 = ctx.getEntity w u false
        ∧ ∀ e, ctx.getEntity w u true = some e → w.getInstanceUUID e = some u) := by
  refine ⟨EntityFactoryContext.getEntity_either ctx w u hu, fun h => ?_⟩
  have hag := EntityFactoryContext.getEntity_agree ctx w u hu h
  refine ⟨hag, ?_, ?_⟩
  · rw [← hag]
    unfold EntityFactoryContext.getEntityIdFromUUID
    cases ctx.getEntity w u true <;> rfl
  · intro e he
    rw [hag, EntityFactoryContext.getEntity_instance ctx w u hu] at he
    simpa using List.find?_some he

/-- C19, amended, at concrete inputs: with only the second entity registered,
UUID 2 resolves to it under both lookups. -/
theorem C19_first_match_of_either_uuid_witness :
    EntityFactoryContext.getEntity ⟨.Prefab, none, [1]⟩ Sample.prefabBeforeInstanceWorld ⟨2⟩ true
      = EntityFactoryContext.getEntity ⟨.Prefab, none, [1]⟩
          Sample.prefabBeforeInstanceWorld ⟨2⟩ false
    ∧ EntityFactoryContext.getEntity ⟨.Prefab, none, [1]⟩
        Sample.prefabBeforeInstanceWorld ⟨2⟩ true = some 1 :=
  ⟨((C19_first_match_of_either_uuid ⟨.Prefab, none, [1]⟩ Sample.prefabBeforeInstanceWorld ⟨2⟩
      rfl).2 (by
        intro e he _
        simp only [List.mem_singleton] at he
        subst he
        rfl)).1,
   (C19_first_match_of_either_uuid ⟨.Prefab, none, [1]⟩ Sample.prefabBeforeInstanceWorld ⟨2⟩
      rfl).1.trans rfl⟩

/-! ## C17: the context's list only grows -/

/-- A fold in which every step keeps the entity list as a prefix keeps it as a
prefix. -/
theorem foldlM_ctx_grows (step : EntityFactoryContext → EntityId → Except Failure EntityFactoryContext)
    (cs : List EntityId)
    (hstep : ∀ c ∈ cs, ∀ ctx ctx1, step ctx c = .ok ctx1 → ctx.entities <+: ctx1.entities) :
    ∀ ctx ctx1, cs.foldlM step ctx = .ok ctx1 → ctx.entities <+: ctx1.entities := by
  induction cs with
  | nil =>
    intro ctx ctx1 h
    simp only [List.foldlM_nil] at h
    cases h
    exact List.prefix_refl _
  | cons c cs ih =>
    intro ctx ctx1 h
    rw [List.foldlM_cons] at h
    cases hs : step ctx c with
    | error err =>
      rw [hs] at h
      cases h
    | ok ctx0 =>
      rw [hs] at h
      exact (hstep c (List.mem_cons_self c cs) ctx ctx0 hs).trans
        (ih (fun x hx => hstep x (List.mem_cons_of_mem c hx)) ctx0 ctx1 h)

theorem collectExistingEntities_ctx_grows (f : EntityFactory) (w : World) :
    ∀ (fuel : Nat) (entity : EntityId) (ctx ctx1 : EntityFactoryContext),
      f.collectExistingEntities fuel entity ctx w = .ok ctx1 →
      ctx.entities <+: ctx1.entities := by
  intro fuel
  induction fuel with
  | zero =>
    intro entity ctx ctx1 h
    simp [EntityFactory.collectExistingEntities] at h
  | succ fuel ih =>
    intro entity ctx ctx1 h
    unfold EntityFactory.collectExistingEntities at h
    have := foldlM_ctx_grows (fun c0 c => f.collectExistingEntities fuel c c0 w)
      (w.getChildren entity) (fun c _ c0 c1 hc => ih c c0 c1 hc) _ _ h
    exact (List.prefix_append _ _).trans this

theorem updateEntityChildrenWith_ctx_grows (tree : TreeUpdater) (htree : TreeKeepsContext tree)
    (entity : EntityRef) :
    ∀ (cs : List EntityData) (ctx : EntityFactoryContext) (w : World)
      (ctx1 : EntityFactoryContext) (w1 : World),
      updateEntityChildrenWith tree entity cs ctx w = .ok (ctx1, w1) →
      ctx.entities <+: ctx1.entities := by
  intro cs
  induction cs with
  | nil =>
    intro ctx w ctx1 w1 h
    simp only [updateEntityChildrenWith, Except.ok.injEq, Prod.mk.injEq] at h
    rw [h.1]
  | cons child rest ih =>
    intro ctx w ctx1 w1 h
    unfold updateEntityChildrenWith at h
    cases ht : tree child entity (some ctx) w with
    | error err => simp [ht] at h
    | ok res =>
      obtain ⟨e, c0, w0⟩ := res
      simp only [ht] at h
      obtain ⟨c2, hc2, hpre⟩ := htree _ _ _ _ _ _ _ ht
      subst hc2
      exact hpre.trans (ih _ _ _ _ h)

theorem updateEntityNodeWith_ctx_grows (f : EntityFactory) (tree : TreeUpdater)
    (htree : TreeKeepsContext tree) (data : EntityData) (parent : EntityRef)
    (ctx : EntityFactoryContext) (w : World) (e : EntityRef) (ctx2 : EntityFactoryContext)
    (w3 : World) (h : updateEntityNodeWith f tree data parent ctx w = .ok (e, ctx2, w3)) :
    ctx.entities <+: ctx2.entities := by
  obtain ⟨x, _, _, hc⟩ := updateEntityNodeWith_ok f tree data parent ctx w e ctx2 w3 h
  exact updateEntityChildrenWith_ctx_grows tree htree _ _ _ _ _ _ hc

theorem updateEntityTree_keepsContext (f : EntityFactory) :
    ∀ fuel, TreeKeepsContext (f.updateEntityTree fuel) := by
  intro fuel
  induction fuel with
  | zero =>
    intro data parent ctx w e cout w1 h
    simp [updateEntityTree] at h
  | succ fuel ih =>
    intro data parent ctx w e cout w2 h
    rcases updateEntityTree_ok f fuel data parent (some ctx) w e cout w2 h with
      ⟨c, c1, hc, _, hout, hn⟩ | ⟨_, hout, _⟩
    · cases hc
      exact ⟨c1, hout, updateEntityNodeWith_ctx_grows f _ ih _ _ _ _ _ _ _ hn⟩
    · exact ⟨ctx, hout, List.prefix_refl _⟩

/-- C17: the context's entity list before a call is a prefix of the list after
it, for `addEntity`, `EntityFactory::getEntity`, `instantiateEntity`,
`preInstantiateEntities` (at any depth), `collectExistingEntities`,
`updateEntityNode` and `updateEntityTree` (which hands back the context it was
given). -/
theorem C17_context_append_only (f : EntityFactory) (w : World) (ctx : EntityFactoryContext) :
    (∀ e, ctx.entities <+: (ctx.addEntity e).entities)
    ∧ (∀ data allow e ctx1, f.getEntity data ctx allow w = .ok (e, ctx1) →
        ctx.entities <+: ctx1.entities)
    ∧ (∀ data allow e ctx1 w1, f.instantiateEntity data ctx allow w = .ok (e, ctx1, w1) →
        ctx.entities <+: ctx1.entities)
    ∧ (∀ data depth ctx1 w1, f.preInstantiateEntities data ctx depth w = .ok (ctx1, w1) →
        ctx.entities <+: ctx1.entities)
    ∧ (∀ fuel entity ctx1, f.collectExistingEntities fuel entity ctx w = .ok ctx1 →
        ctx.entities <+: ctx1.entities)
    ∧ (∀ fuel data parent e ctx1 w1,
        f.updateEntityNode fuel data parent ctx w = .ok (e, ctx1, w1) →
        ctx.entities <+: ctx1.entities)
    ∧ (∀ fuel data parent e cout w1,
        f.updateEntityTree fuel data parent (some ctx) w = .ok (e, cout, w1) →
        ∃ ctx1, cout = some ctx1 ∧ ctx.entities <+: ctx1.entities) := by
  refine ⟨fun e => List.prefix_append _ _, ?_, ?_, ?_, ?_, ?_, ?_⟩
  · intro data allow e ctx1 h
    exact ( getEntity_ctx_prefix f data ctx allow w e ctx1 h).1
  · intro data allow e ctx1 w1 h
    exact (instantiateEntity_extends f data ctx allow w e ctx1 w1 h).2.1
  · intro data depth ctx1 w1 h
    exact (preInstantiateEntities_extends f data ctx depth w ctx1 w1 h).2.1
  · intro fuel entity ctx1 h
    exact collectExistingEntities_ctx_grows f w fuel entity ctx ctx1 h
  · intro fuel data parent e ctx1 w1 h
    exact updateEntityNodeWith_ctx_grows f _ (updateEntityTree_keepsContext f fuel)
      data parent ctx w e ctx1 w1 h
  · intro fuel data parent e cout w1 h
    exact updateEntityTree_keepsContext f fuel data parent ctx w e cout w1 h

/-- C17 at concrete inputs: a context that has registered entity 7 keeps it in
front through the pre-pass of a root with one child, the collection of a live
family, and the lookup of a world entity. -/
theorem C17_context_append_only_witness :
    ([7] : List EntityId)
        <+: (EntityFactoryContext.addEntity ⟨.Prefab, none, [7]⟩ 8).entities
    ∧ Sample.noPrefabs.preInstantiateEntities Sample.rootWithChild ⟨.Prefab, none, [7]⟩ 0
        World.empty
      = .ok (⟨.Prefab, none, [7, 0, 1]⟩,
          ⟨[{ Sample.bare 1 0 with name := "root" }, Sample.bare 2 0], []⟩)
    ∧ ([7] : List EntityId) <+: [7, 0, 1]
    ∧ Sample.noPrefabs.collectExistingEntities 3 0 ⟨.Prefab, none, [7]⟩ Sample.familyWorld
      = .ok ⟨.Prefab, none, [7, 0, 1, 3, 2]⟩
    ∧ ([7] : List EntityId) <+: [7, 0, 1, 3, 2] :=
  ⟨(C17_context_append_only Sample.noPrefabs World.empty ⟨.Prefab, none, [7]⟩).1 8,
   rfl,
   (C17_context_append_only Sample.noPrefabs World.empty ⟨.Prefab, none, [7]⟩).2.2.2.1
     Sample.rootWithChild 0 ⟨.Prefab, none, [7, 0, 1]⟩ _ rfl,
   rfl,
   (C17_context_append_only Sample.noPrefabs Sample.familyWorld
     ⟨.Prefab, none, [7]⟩).2.2.2.2.1 3 0 ⟨.Prefab, none, [7, 0, 1, 3, 2]⟩ rfl⟩

/-! ## C12: the pre-pass creates one entity per node -/

/-- When the data's identity is valid and nothing resolves it,
`instantiateEntity` creates the entity of the data, tagged for the context's
prefab, at the end of the store and registers it. -/
theorem instantiateEntity_createFor (f : EntityFactory) (data : EntityData)
    (ctx : EntityFactoryContext) (allow : Bool) (w : World)
    (hvalid : data.getInstanceUUID.isValid = true)
    (hfresh : ∀ e ∈ ctx.entities, w.getInstanceUUID e ≠ some data.getInstanceUUID)
    (hworld : allow = true → w.findEntity data.getInstanceUUID true = none) :
    f.instantiateEntity data ctx allow w
      = .ok (some w.entities.length,
          { ctx with entities := ctx.entities ++ [w.entities.length] },
          { w with entities := w.entities ++ [blankFor ctx.prefab data] }) := by
  have hg : f.getEntity data ctx allow w = .ok (none, ctx) := by
    unfold EntityFactory.getEntity
    simp only [hvalid, Bool.not_true, Bool.false_eq_true, if_false,
      EntityFactoryContext.getEntity_none ctx w _ hfresh]
    cases allow with
    | false => simp
    | true => simp [hworld rfl]
  rw [((instantiateEntity_cases f data ctx allow w).1 ctx hg).2,
    instantiateEntity_created_world]
  simp only [World.createEntity_none, EntityFactoryContext.addEntity,
    EntityFactoryContext.getPrefab, blankFor]


mutual
/-- The pre-pass on a tree none of whose identities is resolved yet: one entity
per node, tagged for the context's prefab, is appended to the store, in pre-order, and their handles are
registered in that order. -/
theorem preInstantiateEntities_freshFor (f : EntityFactory) :
    ∀ (t : EntityData) (ctx : EntityFactoryContext) (depth : Nat) (w : World),
      (∀ n ∈ t.nodes, n.getInstanceUUID.isValid = true) →
      (t.nodes.map EntityData.getInstanceUUID).Nodup →
      (∀ e ∈ ctx.entities, e < w.entities.length) →
      (∀ n ∈ t.nodes, ∀ e ∈ ctx.entities, w.getInstanceUUID e ≠ some n.getInstanceUUID) →
      (depth = 0 → w.findEntity t.getInstanceUUID true = none) →
      f.preInstantiateEntities t ctx depth w
        = .ok ({ ctx with entities := ctx.entities ++ List.range' w.entities.length t.size },
            { w with entities := w.entities ++ t.nodes.map (blankFor ctx.prefab) })
  | .mk n p i q r c cs, ctx, depth, w, hvalid, hnodup, hlive, hfresh, hworld => by
    have hnodes : (EntityData.mk n p i q r c cs).nodes
        = .mk n p i q r c cs :: EntityData.nodesList cs := by simp [EntityData.nodes]
    rw [hnodes] at hvalid hnodup hfresh
    simp only [List.map_cons, List.nodup_cons] at hnodup
    have hinst := instantiateEntity_createFor f (.mk n p i q r c cs) ctx (depth == 0) w
      (hvalid _ (List.mem_cons_self _ _))
      (fun e he => hfresh _ (List.mem_cons_self _ _) e he)
      (fun h0 => hworld (by simpa using h0))
    unfold EntityFactory.preInstantiateEntities
    simp only [hinst]
    have hch := preInstantiateChildren_freshFor f cs
      { ctx with entities := ctx.entities ++ [w.entities.length] } depth
      { w with entities := w.entities ++ [blankFor ctx.prefab (.mk n p i q r c cs)] }
      (fun m hm => hvalid m (List.mem_cons_of_mem _ hm)) hnodup.2
      (by
        intro e he
        simp only [List.mem_append, List.mem_singleton] at he
        simp only [List.length_append, List.length_singleton]
        rcases he with he | he
        · exact Nat.lt_succ_of_lt (hlive e he)
        · subst he
          exact Nat.lt_succ_self _)
      (by
        intro m hm e he
        simp only [List.mem_append, List.mem_singleton] at he
        rcases he with he | he
        · rw [World.getInstanceUUID_append_left w _ e (hlive e he)]
          exact hfresh m (List.mem_cons_of_mem _ hm) e he
        · subst he
          have := World.getInstanceUUID_append_right w [blankFor ctx.prefab (.mk n p i q r c cs)] 0
          simp only [Nat.add_zero] at this
          rw [this]
          simp only [List.getElem?_cons_zero, Option.map_some', blankFor, World.freshEntity,
            EntityData.getInstanceUUID_mk, ne_eq, Option.some.injEq]
          intro hi
          exact hnodup.1 (List.mem_map.mpr ⟨m, hm, hi.symm⟩))
    rw [hch]
    simp only [hnodes, List.map_cons, List.length_append, List.length_singleton,
      List.append_assoc, List.singleton_append]
    have hsize : (EntityData.mk n p i q r c cs).size = (EntityData.nodesList cs).length + 1 := by
      simp [EntityData.size, hnodes]
    rw [hsize, List.range'_succ]
/-- The forest version of `preInstantiateEntities_freshFor`, below the root. -/
theorem preInstantiateChildren_freshFor (f : EntityFactory) :
    ∀ (cs : List EntityData) (ctx : EntityFactoryContext) (k : Nat) (w : World),
      (∀ n ∈ EntityData.nodesList cs, n.getInstanceUUID.isValid = true) →
      ((EntityData.nodesList cs).map EntityData.getInstanceUUID).Nodup →
      (∀ e ∈ ctx.entities, e < w.entities.length) →
      (∀ n ∈ EntityData.nodesList cs, ∀ e ∈ ctx.entities,
        w.getInstanceUUID e ≠ some n.getInstanceUUID) →
      f.preInstantiateChildren cs ctx (k + 1) w
        = .ok ({ ctx with entities := ctx.entities
                  ++ List.range' w.entities.length (EntityData.nodesList cs).length },
            { w with entities := w.entities ++ (EntityData.nodesList cs).map (blankFor ctx.prefab) })
  | [], ctx, k, w, _, _, _, _ => by
    simp [EntityFactory.preInstantiateChildren, EntityData.nodesList]
  | child :: rest, ctx, k, w, hvalid, hnodup, hlive, hfresh => by
    simp only [EntityData.nodesList, List.map_append] at hvalid hnodup hfresh
    rw [List.nodup_append] at hnodup
    obtain ⟨hnd1, hnd2, hdisj⟩ := hnodup
    have h1 := preInstantiateEntities_freshFor f child ctx (k + 1) w
      (fun m hm => hvalid m (List.mem_append_left _ hm)) hnd1 hlive
      (fun m hm e he => hfresh m (List.mem_append_left _ hm) e he)
      (fun h0 => absurd h0 (Nat.succ_ne_zero k))
    unfold EntityFactory.preInstantiateChildren
    simp only [h1]
    have h2 := preInstantiateChildren_freshFor f rest
      { ctx with entities := ctx.entities ++ List.range' w.entities.length child.size } k
      { w with entities := w.entities ++ child.nodes.map (blankFor ctx.prefab) }
      (fun m hm => hvalid m (List.mem_append_right _ hm)) hnd2
      (by
        intro e he
        simp only [List.mem_append, List.mem_range'_1] at he
        simp only [List.length_append, List.length_map]
        rcases he with he | he
        · exact Nat.lt_of_lt_of_le (hlive e he) (Nat.le_add_right _ _)
        · exact he.2)
      (by
        intro m hm e he
        simp only [List.mem_append, List.mem_range'_1] at he
        rcases he with he | he
        · rw [World.getInstanceUUID_append_left w _ e (hlive e he)]
          exact hfresh m (List.mem_append_right _ hm) e he
        · obtain ⟨j, rfl⟩ := Nat.exists_eq_add_of_le he.1
          rw [World.getInstanceUUID_append_right]
          have hj : j < child.nodes.length := by
            have := he.2
            simp only [EntityData.size] at this
            omega
          simp only [List.getElem?_map, List.getElem?_eq_getElem hj, Option.map_some', blankFor,
            World.freshEntity, ne_eq, Option.some.injEq]
          intro hi
          exact hdisj (List.mem_map.mpr ⟨_, List.getElem_mem hj, hi⟩)
            (List.mem_map.mpr ⟨m, hm, rfl⟩))
    rw [h2]
    simp only [EntityData.nodesList, List.length_append, List.length_map, List.map_append,
      List.append_assoc, EntityData.size]
    rw [List.range'_append_1, Nat.add_comm]
end

/-- C12: for a tree whose nodes have pairwise distinct valid instance UUIDs, an
empty context, and a world in which `findEntity` does not match the root,
`preInstantiateEntities(data, context, 0)` returns, and creates exactly one
entity per node: the world gains the `size` entities of the nodes in
depth-first pre-order (root first), each the entity that `world.createEntity`
makes for the node, tagged for the context's prefab, and the context's list is
exactly their handles in that order, the i-th having the i-th node's instance
UUID.  Nothing is assumed about the descendants and the world: the world is
searched for the root only. -/
theorem C12_preinstantiate_preorder (f : EntityFactory) (t : EntityData)
    (ctx : EntityFactoryContext) (w : World)
    (hempty : ctx.entities = [])
    (hvalid : ∀ n ∈ t.nodes, n.getInstanceUUID.isValid = true)
    (hnodup : (t.nodes.map EntityData.getInstanceUUID).Nodup)
    (hworld : w.findEntity t.getInstanceUUID true = none) :
    ∃ ctx1 w1, f.preInstantiateEntities t ctx 0 w = .ok (ctx1, w1)
      ∧ ctx1.entities = List.range' w.entities.length t.size
      ∧ ctx1.prefab = ctx.prefab ∧ ctx1.type = ctx.type
      ∧ w1.entities = w.entities ++ t.nodes.map (blankFor ctx.prefab)
      ∧ w1.entities.length = w.entities.length + t.size
      ∧ w1.log = w.log
      ∧ t.nodes.head? = some t
      ∧ ∀ i, i < t.size →
          ∃ n, t.nodes[i]? = some n
            ∧ ctx1.entities[i]? = some (w.entities.length + i)
            ∧ w1.get? (w.entities.length + i) = some (blankFor ctx.prefab n)
            ∧ w1.getInstanceUUID (w.entities.length + i) = some n.getInstanceUUID := by
  have h := preInstantiateEntities_freshFor f t ctx 0 w hvalid hnodup
    (by rw [hempty]; intro e he; cases he)
    (by rw [hempty]; intro n _ e he; cases he)
    (fun _ => hworld)
  refine ⟨_, _, h, ?_, rfl, rfl, rfl, ?_, rfl, ?_, ?_⟩
  · simp [hempty]
  · simp [EntityData.size]
  · rw [EntityData.nodes_eq]
    rfl
  · intro i hi
    have hi2 : i < t.nodes.length := hi
    refine ⟨t.nodes[i], List.getElem?_eq_getElem hi2, ?_, ?_, ?_⟩
    · simp only [hempty, List.nil_append]
      rw [List.getElem?_range' _ _ hi]
      simp
    · simp only [World.get?]
      rw [List.getElem?_append_right (Nat.le_add_right _ _)]
      simp [List.getElem?_eq_getElem hi2]
    · simp only [World.getInstanceUUID, World.get?]
      rw [List.getElem?_append_right (Nat.le_add_right _ _)]
      simp [List.getElem?_eq_getElem hi2, blankFor, World.freshEntity]

/-- C12 at a concrete input: a root with one child under a context holding the
prefab "enemy", into a world that already has an entity with the child's
instance UUID 2 (and none with the root's).  Two entities are created, root
first; the child is created although the world has its UUID. -/
theorem C12_preinstantiate_preorder_witness :
    Sample.enemyFactory.preInstantiateEntities Sample.rootWithChild
        (EntityFactoryContext.new .Prefab (some Sample.enemyPrefab)) 0 ⟨[Sample.bare 2 0], []⟩
      = .ok (⟨.Prefab, some Sample.enemyPrefab, [1, 2]⟩,
          ⟨[Sample.bare 2 0,
            { Sample.bare 1 0 with
                name := "root", fromPrefab := true, prefab := some Sample.enemyPrefab },
            { Sample.bare 2 0 with fromPrefab := true, prefab := some Sample.enemyPrefab }],
           []⟩)
    ∧ ∃ ctx1 w1, Sample.enemyFactory.preInstantiateEntities Sample.rootWithChild
        (EntityFactoryContext.new .Prefab (some Sample.enemyPrefab)) 0 ⟨[Sample.bare 2 0], []⟩
          = .ok (ctx1, w1)
        ∧ ctx1.entities = [1, 2] ∧ w1.entities.length = 3 :=
  ⟨rfl,
   (C12_preinstantiate_preorder Sample.enemyFactory Sample.rootWithChild
      (EntityFactoryContext.new .Prefab (some Sample.enemyPrefab)) ⟨[Sample.bare 2 0], []⟩
      rfl (by decide) (by decide) rfl).imp fun _ h => h.imp fun _ h =>
        ⟨h.1, h.2.1, h.2.2.2.2.2.1⟩⟩

/-! ## C13: population mirrors the data tree -/

/-- The instantiation of a prefab-free tree with pairwise distinct valid
instance UUIDs, whose root the world lookup does not find, under a live parent
or none: with fuel for the height of the tree, `createEntity` succeeds, returns
the next handle, appends the populated layout of the tree to the store, and
the parent gains the new root as its last child. -/
theorem createEntity_freshAt (f : EntityFactory) (fuel : Nat) (d : EntityData)
    (parent : EntityRef) (w0 : World)
    (hh : d.height ≤ fuel)
    (hpf : ∀ n ∈ d.nodes, n.getPrefab = "")
    (hvalid : ∀ n ∈ d.nodes, n.getInstanceUUID.isValid = true)
    (hnodup : (d.nodes.map EntityData.getInstanceUUID).Nodup)
    (hfresh : w0.findEntity d.getInstanceUUID true = none)
    (hpar : ∀ b, parent = some b → b < w0.entities.length) :
    ∃ w2, f.createEntity fuel d parent w0 = .ok (some w0.entities.length, w2)
      ∧ w2.entities = attach w0.entities parent w0.entities.length
          ++ layout d w0.entities.length parent := by
  have hpos : 1 ≤ d.height := by
    cases d
    simp [EntityData.height]
  obtain ⟨k, rfl⟩ : ∃ k, fuel = k + 1 := ⟨fuel - 1, by omega⟩
  have hd : d.getPrefab = "" := hpf d (by rw [EntityData.nodes_eq]; exact List.mem_cons_self _ _)
  have hgp : f.getPrefab d.getPrefab w0 = (none, w0) := by
    simp [EntityFactory.getPrefab, hd]
  have hpre := preInstantiateEntities_fresh f d (EntityFactoryContext.new .Prefab none) 0 w0 rfl
    hvalid hnodup (by simp [EntityFactoryContext.new]) (by simp [EntityFactoryContext.new])
    (fun _ => hfresh)
  simp only [EntityFactoryContext.new] at hpre
  obtain ⟨w2, hnode, hw2, _⟩ := populate_node f d k w0.entities.length parent
    w0.entities []
    { type := .Prefab, prefab := none, entities := [] ++ List.range' w0.entities.length d.size }
    { w0 with entities := w0.entities ++ d.nodes.map blank } _ hh hpf rfl (by simp) rfl
    hpar rfl (resolves_after_prepass d w0 .Prefab none hvalid hnodup)
  refine ⟨w2, ?_, by simpa using hw2⟩
  simp only [createEntity, updateEntityTree, hgp, EntityFactoryContext.new, hpre, hnode]

theorem List.getElem?_append_of_some {α : Type} {l1 : List α} (l2 : List α) {i : Nat} {a : α}
    (h : l1[i]? = some a) : (l1 ++ l2)[i]? = some a := by
  obtain ⟨hi, _⟩ := List.getElem?_eq_some.mp h
  rw [List.getElem?_append_left hi, h]

theorem List.getElem?_append_shift {α : Type} (l1 l2 : List α) (i : Nat) :
    (l1 ++ l2)[l1.length + i]? = l2[i]? := by
  rw [List.getElem?_append_right (Nat.le_add_right _ _), Nat.add_sub_cancel_left]

/-- The first entity of a layout is the root's: it has the root's instance
UUID and the given parent. -/
theorem layout_root (t : EntityData) (a : Nat) (par : EntityRef) :
    ∃ ent, (layout t a par)[0]? = some ent ∧ ent.instanceUUID = t.getInstanceUUID
      ∧ ent.parent = par := by
  cases t
  simp [layout]

/-- Every root of a laid out forest has an entity with its instance UUID and
the given parent. -/
theorem layoutList_roots : ∀ (cs : List EntityData) (a : Nat) (par : EntityRef),
    ∀ c ∈ cs, ∃ (j : Nat) (ec : Entity), (layoutList cs a par)[j]? = some ec
      ∧ ec.instanceUUID = c.getInstanceUUID ∧ ec.parent = par
  | [], _, _ => by
    intro c hc
    cases hc
  | d :: ds, a, par => by
    intro c hc
    rw [layoutList]
    rcases List.mem_cons.mp hc with hc | hc
    · subst hc
      obtain ⟨ent, h0, hu, hp⟩ := layout_root c a par
      exact ⟨0, ent, List.getElem?_append_of_some _ h0, hu, hp⟩
    · obtain ⟨j, ec, hj, hu, hp⟩ := layoutList_roots ds (a + d.size) par c hc
      refine ⟨(layout d a par).length + j, ec, ?_, hu, hp⟩
      rw [List.getElem?_append_shift, hj]

mutual
/-- In the layout of a tree from the handle `a`, a child node's entity has for
parent the handle of its parent node's entity. -/
theorem layout_links : ∀ (t : EntityData) (a : Nat) (par : EntityRef),
    ∀ p ∈ t.nodes, ∀ c ∈ p.getChildren, ∃ (i j : Nat) (ep ec : Entity),
      (layout t a par)[i]? = some ep ∧ (layout t a par)[j]? = some ec
      ∧ ep.instanceUUID = p.getInstanceUUID ∧ ec.instanceUUID = c.getInstanceUUID
      ∧ ec.parent = some (a + i)
  | .mk n pn u q r cm cs, a, par => by
    intro p hp c hc
    simp only [EntityData.nodes, List.mem_cons] at hp
    rcases hp with hp | hp
    · subst hp
      simp only [EntityData.getChildren_mk] at hc
      obtain ⟨j, ec, hj, hu, hpar⟩ := layoutList_roots cs (a + 1) (some a) c hc
      obtain ⟨ep, h0, hu0, _⟩ := layout_root (.mk n pn u q r cm cs) a par
      refine ⟨0, j + 1, ep, ec, h0, ?_, hu0, hu, ?_⟩
      · simp only [layout, List.getElem?_cons_succ]
        exact hj
      · rw [hpar]
        rfl
    · obtain ⟨i, j, ep, ec, hi, hj, hu1, hu2, hpar⟩ :=
        layoutList_links cs (a + 1) (some a) p hp c hc
      refine ⟨i + 1, j + 1, ep, ec, ?_, ?_, hu1, hu2, ?_⟩
      · simp only [layout, List.getElem?_cons_succ]
        exact hi
      · simp only [layout, List.getElem?_cons_succ]
        exact hj
      · rw [hpar]
        congr 1
        omega
/-- The forest version of `layout_links`. -/
theorem layoutList_links : ∀ (cs : List EntityData) (a : Nat) (par : EntityRef),
    ∀ p ∈ EntityData.nodesList cs, ∀ c ∈ p.getChildren, ∃ (i j : Nat) (ep ec : Entity),
      (layoutList cs a par)[i]? = some ep ∧ (layoutList cs a par)[j]? = some ec
      ∧ ep.instanceUUID = p.getInstanceUUID ∧ ec.instanceUUID = c.getInstanceUUID
      ∧ ec.parent = some (a + i)
  | [], _, _ => by
    intro p hp
    simp [EntityData.nodesList] at hp
  | d :: ds, a, par => by
    intro p hp c hc
    simp only [EntityData.nodesList, List.mem_append] at hp
    rw [layoutList]
    rcases hp with hp | hp
    · obtain ⟨i, j, ep, ec, hi, hj, hu1, hu2, hpar⟩ := layout_links d a par p hp c hc
      exact ⟨i, j, ep, ec, List.getElem?_append_of_some _ hi,
        List.getElem?_append_of_some _ hj, hu1, hu2, hpar⟩
    · obtain ⟨i, j, ep, ec, hi, hj, hu1, hu2, hpar⟩ :=
        layoutList_links ds (a + d.size) par p hp c hc
      refine ⟨(layout d a par).length + i, (layout d a par).length + j, ep, ec, ?_, ?_,
        hu1, hu2, ?_⟩
      · rw [List.getElem?_append_shift, hi]
      · rw [List.getElem?_append_shift, hj]
      · rw [hpar, layout_length]
        congr 1
        omega
end

theorem attach_ids (A : List Entity) (parent : EntityRef) (a : EntityId) :
    (attach A parent a).map (fun e => (e.instanceUUID, e.prefabUUID))
      = A.map (fun e => (e.instanceUUID, e.prefabUUID)) := by
  cases parent with
  | none => rfl
  | some b =>
    exact List.map_modify_of_fixed (fun e : Entity => (e.instanceUUID, e.prefabUUID))
      (fun x => { x with children := x.children ++ [a] }) (fun x => rfl) b A

/-- When the world lookup does not find `u`, no live entity has the instance
UUID `u`. -/
theorem World.findEntity_none_instance (w : World) (u : UUID) (b : Bool)
    (h : w.findEntity u b = none) (x : EntityId) : w.getInstanceUUID x ≠ some u := by
  intro hx
  unfold World.findEntity at h
  rw [List.findIdx?_eq_none_iff] at h
  simp only [World.getInstanceUUID, World.get?] at hx
  cases hg : w.entities[x]? with
  | none => simp [hg] at hx
  | some ent =>
    simp only [hg, Option.map_some', Option.some.injEq] at hx
    have := h ent (List.mem_iff_getElem?.mpr ⟨x, hg⟩)
    simp [hx] at this

/-- In a store that ends with the layout of a tree with pairwise distinct
instance UUIDs, none of which the store had before, the entity of a node is the
only one with the node's instance UUID. -/
theorem layout_unique (d : EntityData) (par : EntityRef) (w0 w2 : World) (A : List Entity)
    (hA : A.map (fun e => (e.instanceUUID, e.prefabUUID)) = w0.ids)
    (hw2 : w2.entities = A ++ layout d w0.entities.length par)
    (hnodup : (d.nodes.map EntityData.getInstanceUUID).Nodup)
    (hfresh : ∀ n ∈ d.nodes, w0.findEntity n.getInstanceUUID true = none)
    (j : Nat) (ent : Entity) (hj : (layout d w0.entities.length par)[j]? = some ent)
    (x : EntityId) (hx : w2.getInstanceUUID x = some ent.instanceUUID) :
    x = w0.entities.length + j := by
  have hids : w2.ids = w0.ids ++ d.nodes.map (fun n => (n.getInstanceUUID, n.getPrefabUUID)) := by
    simp only [World.ids, hw2, List.map_append, layout_ids]
    rw [hA]
    rfl
  have hjlt : j < d.nodes.length := by
    have := (List.getElem?_eq_some.mp hj).1
    rwa [layout_length] at this
  have hent : ent.instanceUUID = (d.nodes[j]).getInstanceUUID := by
    have h1 := congrArg (fun l => (l[j]?).map Prod.fst) (layout_ids d w0.entities.length par)
    simp only [List.getElem?_map, hj, List.getElem?_eq_getElem hjlt, Option.map_some',
      Option.some.injEq] at h1
    exact h1
  rw [World.getInstanceUUID_ids, hids] at hx
  by_cases hlt : x < w0.entities.length
  · rw [List.getElem?_append_left (by rw [World.length_ids]; exact hlt)] at hx
    rw [← World.getInstanceUUID_ids, hent] at hx
    exact absurd hx
      (World.findEntity_none_instance w0 _ true (hfresh _ (List.getElem_mem hjlt)) x)
  · obtain ⟨k, rfl⟩ := Nat.exists_eq_add_of_le (Nat.le_of_not_lt hlt)
    have hshift := List.getElem?_append_shift w0.ids
      (d.nodes.map (fun n => (n.getInstanceUUID, n.getPrefabUUID))) k
    rw [World.length_ids] at hshift
    rw [hshift, List.getElem?_map] at hx
    cases hk : d.nodes[k]? with
    | none => simp [hk] at hx
    | some m =>
      simp only [hk, Option.map_some', Option.some.injEq] at hx
      obtain ⟨hklt, hkm⟩ := List.getElem?_eq_some.mp hk
      have hk1 : k < (d.nodes.map EntityData.getInstanceUUID).length := by simpa using hklt
      have hj1 : j < (d.nodes.map EntityData.getInstanceUUID).length := by simpa using hjlt
      have heq : (d.nodes.map EntityData.getInstanceUUID)[k]
          = (d.nodes.map EntityData.getInstanceUUID)[j] := by
        simp only [List.getElem_map, hkm, hx, hent]
      rw [(List.Nodup.getElem_inj_iff hnodup).mp heq]

/-- C13: for a prefab-free tree with pairwise distinct valid instance UUIDs,
none of which the world lookup finds, instantiated by `createEntity(data,
parent)` under a live parent or none, with fuel for the height of the tree:
the call returns an entity that has the data's instance UUID and whose parent
is `parent` (which has it among its children); and for every node `p` of the
data and every child `c` of `p`, the entity with `c`'s instance UUID has for
parent the entity with `p`'s instance UUID, each being the only entity of the
world with that instance UUID. -/
theorem C13_population_mirrors_tree (f : EntityFactory) (fuel : Nat) (d : EntityData)
    (parent : EntityRef) (w0 : World)
    (hh : d.height ≤ fuel)
    (hpf : ∀ n ∈ d.nodes, n.getPrefab = "")
    (hvalid : ∀ n ∈ d.nodes, n.getInstanceUUID.isValid = true)
    (hnodup : (d.nodes.map EntityData.getInstanceUUID).Nodup)
    (hfresh : ∀ n ∈ d.nodes, w0.findEntity n.getInstanceUUID true = none)
    (hpar : ∀ b, parent = some b → b < w0.entities.length) :
    ∃ e w2, f.createEntity fuel d parent w0 = .ok (some e, w2)
      ∧ w2.getInstanceUUID e = some d.getInstanceUUID
      ∧ w2.tryGetParent e = parent
      ∧ (∀ b, parent = some b → e ∈ w2.getChildren b)
      ∧ (∀ x, w2.getInstanceUUID x = some d.getInstanceUUID → x = e)
      ∧ ∀ p ∈ d.nodes, ∀ c ∈ p.getChildren, ∃ ep ec,
          w2.getInstanceUUID ep = some p.getInstanceUUID
          ∧ w2.getInstanceUUID ec = some c.getInstanceUUID
          ∧ w2.tryGetParent ec = some ep
          ∧ (∀ x, w2.getInstanceUUID x = some p.getInstanceUUID → x = ep)
          ∧ (∀ x, w2.getInstanceUUID x = some c.getInstanceUUID → x = ec) := by
  have hroot : d ∈ d.nodes := by
    rw [EntityData.nodes_eq]
    exact List.mem_cons_self _ _
  obtain ⟨w2, hc, hw2⟩ := createEntity_freshAt f fuel d parent w0 hh hpf hvalid hnodup
    (hfresh d hroot) hpar
  have hget : ∀ j, w2.get? (w0.entities.length + j)
      = (layout d w0.entities.length parent)[j]? := by
    intro j
    have := List.getElem?_append_shift (attach w0.entities parent w0.entities.length)
      (layout d w0.entities.length parent) j
    rw [attach_length] at this
    simp only [World.get?, hw2]
    exact this
  have huniq := layout_unique d parent w0 w2 (attach w0.entities parent w0.entities.length)
    (attach_ids _ _ _) hw2 hnodup hfresh
  obtain ⟨ent0, h0, hu0, hp0⟩ := layout_root d w0.entities.length parent
  refine ⟨w0.entities.length, w2, hc, ?_, ?_, ?_, ?_, ?_⟩
  · have := hget 0
    rw [Nat.add_zero] at this
    simp [World.getInstanceUUID, this, h0, hu0]
  · have := hget 0
    rw [Nat.add_zero] at this
    simp [World.tryGetParent, this, h0, hp0]
  · intro b hb
    subst hb
    have hb := hpar b rfl
    have hgb : w2.get? b = (w0.entities[b]?).map
        (fun x => { x with children := x.children ++ [w0.entities.length] }) := by
      simp only [World.get?, hw2]
      rw [List.getElem?_append_left (by rw [attach_length]; exact hb)]
      simp [attach, List.getElem?_modify]
    simp [World.getChildren, hgb, List.getElem?_eq_getElem hb]
  · intro x hx
    rw [← hu0] at hx
    exact huniq 0 ent0 h0 x hx
  · intro p hp c hcp
    obtain ⟨i, j, ep, ec, hi, hj, hu1, hu2, hpar2⟩ :=
      layout_links d w0.entities.length parent p hp c hcp
    refine ⟨w0.entities.length + i, w0.entities.length + j, ?_, ?_, ?_, ?_, ?_⟩
    · simp [World.getInstanceUUID, hget, hi, hu1]
    · simp [World.getInstanceUUID, hget, hj, hu2]
    · simp [World.tryGetParent, hget, hj, hpar2]
    · intro x hx
      rw [← hu1] at hx
      exact huniq i ep hi x hx
    · intro x hx
      rw [← hu2] at hx
      exact huniq j ec hj x hx

/-- C13 at a concrete input: the root (UUID 1) with one child (UUID 2) is
instantiated under entity 0 of a world holding one entity (UUID 9): the root
becomes entity 1 under entity 0, and the child entity 2 under entity 1. -/
theorem C13_population_mirrors_tree_witness :
    ∃ e w2, Sample.noPrefabs.createEntity 2 Sample.rootWithChild (some 0)
        ⟨[Sample.bare 9 0], []⟩ = .ok (some e, w2)
      ∧ w2.getInstanceUUID e = some ⟨1⟩
      ∧ w2.tryGetParent e = some 0
      ∧ ∃ ec, w2.getInstanceUUID ec = some ⟨2⟩ ∧ w2.tryGetParent ec = some e :=
  (C13_population_mirrors_tree Sample.noPrefabs 2 Sample.rootWithChild (some 0)
      ⟨[Sample.bare 9 0], []⟩ (by decide) (by decide) (by decide) (by decide) (by decide)
      (by decide)).imp fun e h => h.imp fun w2 h =>
    ⟨h.1, h.2.1, h.2.2.1,
      (h.2.2.2.2.2 Sample.rootWithChild (List.mem_cons_self _ _) (Sample.leaf 2)
        (List.mem_cons_self _ _)).elim fun ep hep => hep.elim fun ec hec =>
          ⟨ec, hec.2.1, (hec.2.2.1).trans (congrArg some (hec.2.2.2.1 e h.2.1).symm)⟩⟩

/-! ## C18: one entity per identity -/

/-- The instance UUIDs of a layout are those of the tree's nodes, in
pre-order. -/
theorem layout_instanceUUIDs (t : EntityData) (a : Nat) (p : EntityRef) :
    (layout t a p).map Entity.instanceUUID = t.nodes.map EntityData.getInstanceUUID := by
  have h := congrArg (List.map Prod.fst) (layout_ids t a p)
  simpa [List.map_map, Function.comp_def] using h

/-- C18, the code at the failing input: the three nodes of the tree have the
pairwise distinct valid instance UUIDs 1, 2 and 3; the child (UUID 2) names a
prefab that the resources do not hold, so a nested context is started for it.
`createEntity` into the empty world returns, and leaves four entities, two of
which (entities 2 and 3) have the instance UUID 3: the outer pre-pass creates
the grandchild, and the pre-pass of the nested context, which searches the
world for its root only, creates it again.  The first of the two is left
without parent. -/
theorem C18_nested_context_duplicates_descendant :
    Sample.nestedMissing.nodes.map EntityData.getInstanceUUID = [⟨1⟩, ⟨2⟩, ⟨3⟩]
    ∧ (Sample.nestedMissing.nodes.map EntityData.getInstanceUUID).Nodup
    ∧ (∀ n ∈ Sample.nestedMissing.nodes, n.getInstanceUUID.isValid = true)
    ∧ ∃ w2, Sample.noPrefabs.createEntity 3 Sample.nestedMissing none World.empty
        = .ok (some 0, w2)
      ∧ w2.entities.map Entity.instanceUUID = [⟨1⟩, ⟨2⟩, ⟨3⟩, ⟨3⟩]
      ∧ w2.getInstanceUUID 2 = some ⟨3⟩ ∧ w2.getInstanceUUID 3 = some ⟨3⟩
      ∧ w2.entities.map Entity.parent = [none, some 0, none, some 1] := by
  refine ⟨rfl, by decide, by decide, _, rfl, rfl, rfl, rfl, rfl⟩

/-- The same duplication when the nested context is started by the
abandoned-prefab rule: under an instance of the prefab "enemy", a child without
prefab UUID has a child of its own, which is created twice. -/
theorem createEntity_abandoned_prefab_duplicates :
    Sample.abandoning.nodes.map EntityData.getInstanceUUID = [⟨5⟩, ⟨2⟩, ⟨3⟩]
    ∧ ∃ w2, Sample.enemyFactory.createEntity 3 Sample.abandoning none World.empty
        = .ok (some 0, w2)
      ∧ w2.entities.map Entity.instanceUUID = [⟨5⟩, ⟨2⟩, ⟨3⟩, ⟨3⟩] :=
  ⟨rfl, _, rfl, rfl⟩

/-- For a tree in which no node names a prefab, whose nodes have pairwise
distinct valid instance UUIDs, none of which the world lookup finds (as in the
empty world), `createEntity` returns, with fuel for the height of the tree, and
creates exactly one entity per node: the world gains as many entities as the
tree has nodes, their instance UUIDs are those of the nodes in pre-order, and
when the instance UUIDs of the world's entities were pairwise distinct before
the call they are so after it. -/
theorem createEntity_prefab_free_no_duplicates (f : EntityFactory) (fuel : Nat)
    (d : EntityData) (w0 : World)
    (hh : d.height ≤ fuel)
    (hpf : ∀ n ∈ d.nodes, n.getPrefab = "")
    (hvalid : ∀ n ∈ d.nodes, n.getInstanceUUID.isValid = true)
    (hnodup : (d.nodes.map EntityData.getInstanceUUID).Nodup)
    (hfresh : ∀ n ∈ d.nodes, w0.findEntity n.getInstanceUUID true = none) :
    ∃ e w2, f.createEntity fuel d none w0 = .ok (some e, w2)
      ∧ w2.entities.length = w0.entities.length + d.size
      ∧ w2.entities.map Entity.instanceUUID
          = w0.entities.map Entity.instanceUUID ++ d.nodes.map EntityData.getInstanceUUID
      ∧ ((w0.entities.map Entity.instanceUUID).Nodup →
          (w2.entities.map Entity.instanceUUID).Nodup) := by
  have hroot : d ∈ d.nodes := by
    rw [EntityData.nodes_eq]
    exact List.mem_cons_self _ _
  obtain ⟨w2, hc, hw2⟩ := createEntity_fresh f fuel d w0 hh hpf hvalid hnodup
    (hfresh d hroot)
  have hmap : w2.entities.map Entity.instanceUUID
      = w0.entities.map Entity.instanceUUID ++ d.nodes.map EntityData.getInstanceUUID := by
    rw [hw2, List.map_append, layout_instanceUUIDs]
  refine ⟨_, w2, hc, ?_, hmap, ?_⟩
  · rw [hw2, List.length_append, layout_length]
  · intro h0
    rw [hmap, List.nodup_append]
    refine ⟨h0, hnodup, ?_⟩
    intro u hu0 hu1
    obtain ⟨ent, hent, rfl⟩ := List.mem_map.mp hu0
    obtain ⟨n, hn, hnu⟩ := List.mem_map.mp hu1
    obtain ⟨x, hx⟩ := List.mem_iff_getElem?.mp hent
    refine World.findEntity_none_instance w0 _ true (hfresh n hn) x ?_
    simp [World.getInstanceUUID, World.get?, hx, hnu]

/-- The root with one child, instantiated into the empty world, leaves two
entities with the instance UUIDs 1 and 2. -/
theorem createEntity_prefab_free_no_duplicates_sample :
    ∃ e w2, Sample.noPrefabs.createEntity 2 Sample.rootWithChild none World.empty
        = .ok (some e, w2)
      ∧ w2.entities.length = 2
      ∧ w2.entities.map Entity.instanceUUID = [⟨1⟩, ⟨2⟩]
      ∧ (w2.entities.map Entity.instanceUUID).Nodup :=
  (createEntity_prefab_free_no_duplicates Sample.noPrefabs 2 Sample.rootWithChild World.empty
      (by decide) (by decide) (by decide) (by decide) (by decide)).imp fun _ h =>
    h.imp fun _ h => ⟨h.1, h.2.1, h.2.2.1, h.2.2.2 List.nodup_nil⟩

end Halley
